import Mathlib

/-!
Swachh-Netra admin portal: assignment lifecycle and approval workflow.

A shallow embedding of the Express route handlers of
`backend/src/routes/assignments.js` and `backend/src/routes/users.js`, of the
vehicle deletion of `routes/vehicles.js`, the dashboard of `routes/reports.js` and
the permission middleware of `middleware/auth.js`, over an explicit model of the
Firestore collections and of the identity provider, followed by the properties
established about them.

Conventions of the embedding:

* a JavaScript value that can sit in a request body or in a document is a `JsVal`;
* a JSON object (request body, Firestore document) is a `Doc`, an ordered list of
  key/value pairs in which a missing key reads as `undefined`;
* a collection is a list of `(id, document)` pairs;
* a handler is a function from the request and the backend state to the response
  and the new backend state; an exception caught by the handler's `try/catch`
  is the 500 response, with the state as it was when the exception was thrown;
* `new Date()` is the field `now` of the request context, the identifier generated
  by `add` and the uid generated by the identity provider are arguments of the call;
* document ids are strings that name a document (`documentPath`), and an object of
  counters is a `Counter`, the list of its own keys with what they hold.
-/

namespace SwachhNetra

/-! ## Values and documents -/

/-- JavaScript values that occur in request bodies and documents. `flags` is an object
whose values are booleans (a permission map), `date` a `Date` given by its instant. -/
inductive JsVal where
  | undefined
  | null
  | bool (b : Bool)
  | num (n : Int)
  | str (s : String)
  | date (t : Nat)
  | flags (m : List (String × Bool))
  deriving DecidableEq, Repr

/-- JavaScript truthiness (`if (x)`, `!x`, `x || y`, `x ? a : b`). -/
def JsVal.truthy : JsVal → Bool
  | .undefined => false
  | .null => false
  | .bool b => b
  | .num n => n != 0
  | .str s => s != ""
  | .date _ => true
  | .flags _ => true

/-- A JSON object or Firestore document: its fields in order. -/
abbrev Doc := List (String × JsVal)

/-- Property read `d.k` (also the destructuring `const { k } = d`): `undefined` when absent. -/
def getField (d : Doc) (k : String) : JsVal :=
  match d.lookup k with
  | some v => v
  | none => JsVal.undefined

/-- Assignment of one field: overwrite it where present, add it otherwise. -/
def setField (d : Doc) (k : String) (v : JsVal) : Doc :=
  if d.any (fun p => p.1 == k) then
    d.map (fun p => if p.1 == k then (k, v) else p)
  else
    d ++ [(k, v)]

/-- Firestore merge of the fields of `u` into `d`: listed fields are replaced as a whole
(a nested object given as a value replaces the old one), the others are kept. -/
def mergeDoc (d u : Doc) : Doc :=
  u.foldl (fun acc p => setField acc p.1 p.2) d

/-- Whether some field holds `undefined`, which Firestore refuses to write. -/
def hasUndefined (d : Doc) : Bool :=
  d.any (fun p => p.2 == JsVal.undefined)

/-! ## The document store -/

/-- A Firestore collection: documents with their ids. -/
abbrev Collection := List (String × Doc)

/-- Whether a path holds two slashes in a row. -/
def hasDoubleSlash : List Char → Bool
  | a :: b :: rest => (a == '/' && b == '/') || hasDoubleSlash (b :: rest)
  | _ => false

/-- The length in bytes of the UTF-8 form of a text. -/
def utf8Length (text : List Char) : Nat :=
  (text.map (fun c =>
    if c.toNat < 128 then 1 else if c.toNat < 2048 then 2
    else if c.toNat < 65536 then 3 else 4)).sum

/-- Whether the store refuses a path segment as a document id: the names `.` and `..`, a
name of the form `__.*__`, and a name of more than 1500 bytes. -/
def refusedSegment (segment : List Char) : Bool :=
  segment == ['.'] || segment == ['.', '.']
    || (decide (4 ≤ segment.length) && segment.take 2 == ['_', '_']
          && segment.reverse.take 2 == ['_', '_'])
    || decide (1500 < utf8Length segment)

/-- The document that the path `s` names below a collection, `none` when `doc(s)` or the
first call on the reference throws. The path must be a non-empty string without `//`; its
segments are the non-empty parts between slashes, and there must be an odd number of them
(one segment names a document of the collection, three or more a document of a
subcollection), none of which the store refuses. The result is the path in normal form,
its segments joined by single slashes. -/
def documentPath (s : String) : Option String :=
  if s = "" ∨ hasDoubleSlash s.data = true then none
  else
    let segments := (s.data.splitOn '/').filter (fun segment => !segment.isEmpty)
    if segments.length % 2 = 1 ∧ segments.any refusedSegment = false then
      some (String.mk (['/'].intercalate segments))
    else none

/-- The document reference `collection.doc(x)`, as the calls made on it see it: throws
unless `x` is a string that names a document (see `documentPath`). -/
def docPath : JsVal → Option String
  | .str s => documentPath s
  | _ => none

/-- Read `doc(id).get()`: `none` is `!doc.exists`, `some d` is `doc.data()`. A collection
holds its documents under document paths in normal form, so nothing is read under any other
string. -/
def getDoc (c : Collection) (id : String) : Option Doc :=
  if documentPath id = some id then c.lookup id else none

/-- Write `doc(id).update(u)`: throws (`none`) when the document does not exist or a value
is `undefined`; otherwise merges the fields of `u` into the document. -/
def updateDoc (c : Collection) (id : String) (u : Doc) : Option Collection :=
  if hasUndefined u then none
  else
    match getDoc c id with
    | none => none
    | some _ => some (c.map (fun p => if p.1 == id then (p.1, mergeDoc p.2 u) else p))

/-- Write `collection.add(d)` with the generated id `newId`: throws on an `undefined` value. -/
def addDoc (c : Collection) (newId : String) (d : Doc) : Option Collection :=
  if hasUndefined d then none else some (c ++ [(newId, d)])

/-- Write `doc(id).set(d)` under the uid of a newly created account, which the identity
provider gives as a plain name, so a document path in normal form: creates the document or
replaces it as a whole; throws on an `undefined` value and when the id does not name a
document. -/
def setDoc (c : Collection) (id : String) (d : Doc) : Option Collection :=
  if hasUndefined d then none
  else if documentPath id ≠ some id then none
  else
    match getDoc c id with
    | none => some (c ++ [(id, d)])
    | some _ => some (c.map (fun p => if p.1 == id then (p.1, d) else p))

/-- Write `doc(id).delete()`: removes the document; deleting a missing document is no
error. -/
def deleteDoc (c : Collection) (id : String) : Collection :=
  c.filter (fun p => p.1 != id)

/-! ## The identity provider -/

/-- An account of the identity provider. -/
structure Account where
  uid : String
  email : JsVal
  password : JsVal
  displayName : JsVal
  disabled : Bool
  deriving DecidableEq, Repr

/-- Whether an account is registered under the e-mail address `email` (a string). -/
def emailRegistered (accounts : List Account) (email : JsVal) : Bool :=
  match email with
  | .str _ => accounts.any (fun a => a.email == email)
  | _ => false

/-- Call `auth.createUser` of the identity provider, `newUid` being the uid it generates:
it throws (`none`) when the e-mail address is already registered, and otherwise records an
enabled account. The provider's checks on the format of its arguments are not part of the
model. -/
def createUser (accounts : List Account) (newUid : String)
    (email password displayName : JsVal) : Option (List Account) :=
  if emailRegistered accounts email then none
  else some (accounts ++ [{ uid := newUid, email := email, password := password,
                            displayName := displayName, disabled := false }])

/-- Call `auth.updateUser(uid, { disabled })`: throws (`none`) when no account has this uid,
and otherwise sets the `disabled` flag of that account. -/
def updateUser (accounts : List Account) (uid : String) (disabled : Bool) :
    Option (List Account) :=
  if accounts.any (fun a => a.uid == uid) then
    some (accounts.map (fun a => if a.uid == uid then { a with disabled := disabled } else a))
  else none

/-- Call `auth.deleteUser(uid)`: throws (`none`) when no account has this uid, and otherwise
removes the account. -/
def deleteUser (accounts : List Account) (uid : String) : Option (List Account) :=
  if accounts.any (fun a => a.uid == uid) then
    some (accounts.filter (fun a => a.uid != uid))
  else none

/-! ## Backend state, requests and responses -/

/-- The state the handlers act on: the collections of `COLLECTIONS` in `config/firebase.js`
and the accounts held by the identity provider. -/
structure Backend where
  users : Collection
  approvalRequests : Collection
  vehicles : Collection
  vehicleAssignments : Collection
  feederPoints : Collection
  feederPointAssignments : Collection
  contractors : Collection
  drivers : Collection
  reports : Collection
  notifications : Collection
  auditLogs : Collection
  settings : Collection
  accounts : List Account
  deriving DecidableEq, Repr

/-- The backend with nothing in it. -/
def emptyBackend : Backend :=
  { users := [], approvalRequests := [], vehicles := [], vehicleAssignments := [],
    feederPoints := [], feederPointAssignments := [], contractors := [], drivers := [],
    reports := [], notifications := [], auditLogs := [], settings := [], accounts := [] }

/-- What a handler reads besides `req.params` and `req.body`: the caller `req.user.uid`,
the clock read by `new Date()` and the `Date` constructor applied to a body value. For a
value that it cannot read the constructor gives the invalid date, which no write accepts:
`newDate` then returns `undefined`. -/
structure Ctx where
  uid : String
  now : Nat
  newDate : JsVal → JsVal

/-- The response sent: HTTP status and the fields `success`, `message`, `data` of the JSON body
(`data` empty when the body has none). -/
structure Response where
  status : Nat
  success : Bool
  message : String
  data : Doc
  deriving DecidableEq, Repr

/-- The error response `res.status(code).json({ success: false, message })`. -/
def failure (code : Nat) (message : String) : Response :=
  { status := code, success := false, message := message, data := [] }

/-! ## `middleware/auth.js` -/

/-- The object `req.user` set by the authentication middleware; `permissions` is `none` when
the user carries no permission map. -/
structure ReqUser where
  uid : String
  email : String
  role : JsVal
  permissions : Option (List (String × Bool))
  fullName : String
  deriving DecidableEq, Repr

/-- What a middleware does with a request: it sends a response, calls `next()`, or throws. -/
inductive Outcome where
  | responded (r : Response)
  | next
  | thrown
  deriving DecidableEq, Repr

/-- The property names every plain object inherits from `Object.prototype`; each reads as a
truthy value (a function, or the prototype itself). -/
def objectPrototypeKeys : List String :=
  ["constructor", "__defineGetter__", "__defineSetter__", "hasOwnProperty",
   "__lookupGetter__", "__lookupSetter__", "isPrototypeOf", "propertyIsEnumerable",
   "toString", "valueOf", "__proto__", "toLocaleString"]

/-- Truthiness of the property read `permissions[k]` on a permission map: the own entry when
there is one, an inherited property otherwise. -/
def readFlag (m : List (String × Bool)) (k : String) : Bool :=
  match m.lookup k with
  | some b => b
  | none => objectPrototypeKeys.contains k

/-- The middleware `requirePermission(permission)` applied to a request with user `user`. -/
def requirePermission (permission : String) (user : Option ReqUser) : Outcome :=
  match user with
  | none => Outcome.responded (failure 401 "Authentication required")
  | some u =>
    match u.permissions with
    | none => Outcome.thrown
    | some m =>
      if !(readFlag m permission) then
        Outcome.responded
          (failure 403 ("Permission denied. Required permission: " ++ permission))
      else Outcome.next

/-! ## `routes/users.js` -/

/-- The constant `USER_ROLES` of `config/firebase.js`, as `Object.values(USER_ROLES)`. -/
def USER_ROLES : List JsVal :=
  [JsVal.str "admin", JsVal.str "transport_contractor", JsVal.str "swachh_hr", JsVal.str "driver"]

/-- The helper `getRolePermissions(role)`: a `switch` compares with strict equality and
falls to `default` for everything else. -/
def getRolePermissions (role : JsVal) : List (String × Bool) :=
  if role = JsVal.str "admin" then
    [("canManageUsers", true), ("canViewAllReports", true), ("canAssignTasks", true),
     ("canGenerateReports", true), ("canManageSystem", true), ("canApproveRequests", true),
     ("canManageFeederPoints", true), ("canManageVehicles", true), ("canManageAssignments", true)]
  else if role = JsVal.str "transport_contractor" then
    [("canManageDrivers", true), ("canViewDriverReports", true), ("canAssignRoutes", true),
     ("canManageVehicles", true), ("canApproveDrivers", true)]
  else if role = JsVal.str "swachh_hr" then
    [("canManageWorkers", true), ("canViewReports", true), ("canAssignTasks", true),
     ("canGenerateReports", true)]
  else
    [("canSubmitReports", true), ("canViewAssignedRoutes", true), ("canUpdateStatus", true)]

/-- Handler of `POST /api/users/approve-request/:id`; `newUid` is the uid the identity provider
gives to the account it creates. -/
def approveRequest (ctx : Ctx) (newUid : String) (id : String) (body : Doc) (w : Backend) :
    Response × Backend :=
  let approved := getField body "approved"
  match docPath (JsVal.str id) with
  | none => (failure 500 "Failed to process approval request", w)
  | some path =>
  match getDoc w.approvalRequests path with
  | none => (failure 404 "Approval request not found", w)
  | some requestData =>
    if approved.truthy then
      match createUser w.accounts newUid (getField requestData "email")
          (getField requestData "password") (getField requestData "fullName") with
      | none => (failure 500 "Failed to process approval request", w)
      | some accounts1 =>
        let w1 := { w with accounts := accounts1 }
        let userData : Doc :=
          [("uid", JsVal.str newUid),
           ("fullName", getField requestData "fullName"),
           ("email", getField requestData "email"),
           ("phone", getField requestData "phone"),
           ("role", getField requestData "role"),
           ("isActive", JsVal.bool true),
           ("createdAt", JsVal.date ctx.now),
           ("approvedAt", JsVal.date ctx.now),
           ("approvedBy", JsVal.str ctx.uid),
           ("permissions", JsVal.flags (getRolePermissions (getField requestData "role")))]
        match setDoc w1.users newUid userData with
        | none => (failure 500 "Failed to process approval request", w1)
        | some users2 =>
          let w2 := { w1 with users := users2 }
          match updateDoc w2.approvalRequests path
              [("status", JsVal.str "approved"),
               ("approvedAt", JsVal.date ctx.now),
               ("approvedBy", JsVal.str ctx.uid)] with
          | none => (failure 500 "Failed to process approval request", w2)
          | some requests3 =>
            ({ status := 200, success := true,
               message := "User approved and account created successfully",
               data := [("userId", JsVal.str newUid)] },
             { w2 with approvalRequests := requests3 })
    else
      match updateDoc w.approvalRequests path
          [("status", JsVal.str "rejected"),
           ("rejectedAt", JsVal.date ctx.now),
           ("rejectedBy", JsVal.str ctx.uid)] with
      | none => (failure 500 "Failed to process approval request", w)
      | some requests1 =>
        ({ status := 200, success := true, message := "User request rejected", data := [] },
         { w with approvalRequests := requests1 })

/-- Handler of `PUT /api/users/:id/role`. -/
def updateRole (ctx : Ctx) (id : String) (body : Doc) (w : Backend) : Response × Backend :=
  let role := getField body "role"
  if !(USER_ROLES.contains role) then (failure 400 "Invalid role", w)
  else
    match docPath (JsVal.str id) with
    | none => (failure 500 "Failed to update user role", w)
    | some path =>
      match updateDoc w.users path
          [("role", role),
           ("permissions", JsVal.flags (getRolePermissions role)),
           ("updatedAt", JsVal.date ctx.now),
           ("updatedBy", JsVal.str ctx.uid)] with
      | none => (failure 500 "Failed to update user role", w)
      | some users1 =>
        ({ status := 200, success := true, message := "User role updated successfully",
           data := [] },
         { w with users := users1 })

/-- Handler of `PUT /api/users/:id/status`. -/
def updateActiveStatus (ctx : Ctx) (id : String) (body : Doc) (w : Backend) :
    Response × Backend :=
  let isActive := getField body "isActive"
  match docPath (JsVal.str id) with
  | none => (failure 500 "Failed to update user status", w)
  | some path =>
  match updateDoc w.users path
      [("isActive", isActive),
       ("updatedAt", JsVal.date ctx.now),
       ("updatedBy", JsVal.str ctx.uid)] with
  | none => (failure 500 "Failed to update user status", w)
  | some users1 =>
    let w1 := { w with users := users1 }
    match updateUser w1.accounts id (if !isActive.truthy then true else false) with
    | none => (failure 500 "Failed to update user status", w1)
    | some accounts2 =>
      ({ status := 200, success := true,
         message := "User " ++ (if isActive.truthy then "activated" else "deactivated")
                      ++ " successfully",
         data := [] },
       { w1 with accounts := accounts2 })

/-- Handler of `DELETE /api/users/:id`. -/
def removeUser (id : String) (w : Backend) : Response × Backend :=
  match deleteUser w.accounts id with
  | none => (failure 500 "Failed to delete user", w)
  | some accounts1 =>
    match docPath (JsVal.str id) with
    | none => (failure 500 "Failed to delete user", { w with accounts := accounts1 })
    | some path =>
      ({ status := 200, success := true, message := "User deleted successfully", data := [] },
       { w with accounts := accounts1, users := deleteDoc w.users path })

/-! ## `routes/assignments.js` -/

/-- The list `validStatuses` of the status handler. -/
def validStatuses : List JsVal :=
  [JsVal.str "active", JsVal.str "completed", JsVal.str "cancelled"]

/-- Handler of `POST /api/assignments/vehicles`; `newId` is the id `add` generates. -/
def createVehicleAssignment (ctx : Ctx) (newId : String) (body : Doc) (w : Backend) :
    Response × Backend :=
  let vehicleId := getField body "vehicleId"
  let assignedTo := getField body "assignedTo"
  let assignmentType := getField body "assignmentType"
  let startDate := getField body "startDate"
  let endDate := getField body "endDate"
  let notes := getField body "notes"
  if !vehicleId.truthy || !assignedTo.truthy || !assignmentType.truthy then
    (failure 400 "Vehicle ID, assignee, and assignment type are required", w)
  else
    match docPath vehicleId with
    | none => (failure 500 "Failed to create vehicle assignment", w)
    | some vid =>
      match getDoc w.vehicles vid with
      | none => (failure 404 "Vehicle not found", w)
      | some vehicleData =>
        if getField vehicleData "status" ≠ JsVal.str "available" then
          (failure 400 "Vehicle is not available for assignment", w)
        else
          match docPath assignedTo with
          | none => (failure 500 "Failed to create vehicle assignment", w)
          | some uid =>
            match getDoc w.users uid with
            | none => (failure 404 "Assignee not found", w)
            | some _ =>
              let assignmentData : Doc :=
                [("vehicleId", vehicleId),
                 ("assignedTo", assignedTo),
                 ("assignmentType", assignmentType),
                 ("assignedBy", JsVal.str ctx.uid),
                 ("assignedAt", JsVal.date ctx.now),
                 ("startDate", if startDate.truthy then ctx.newDate startDate
                               else JsVal.date ctx.now),
                 ("endDate", if endDate.truthy then ctx.newDate endDate else JsVal.null),
                 ("status", JsVal.str "active"),
                 ("notes", if notes.truthy then notes else JsVal.str ""),
                 ("createdAt", JsVal.date ctx.now)]
              match addDoc w.vehicleAssignments newId assignmentData with
              | none => (failure 500 "Failed to create vehicle assignment", w)
              | some assignments1 =>
                let w1 := { w with vehicleAssignments := assignments1 }
                match updateDoc w1.vehicles vid
                    [("status", JsVal.str "assigned"),
                     ("updatedAt", JsVal.date ctx.now),
                     ("updatedBy", JsVal.str ctx.uid)] with
                | none => (failure 500 "Failed to create vehicle assignment", w1)
                | some vehicles2 =>
                  ({ status := 201, success := true,
                     message := "Vehicle assignment created successfully",
                     data := ("id", JsVal.str newId) :: assignmentData },
                   { w1 with vehicles := vehicles2 })

/-- Handler of `PUT /api/assignments/vehicles/:id/status`. -/
def changeAssignmentStatus (ctx : Ctx) (id : String) (body : Doc) (w : Backend) :
    Response × Backend :=
  let status := getField body "status"
  if !(validStatuses.contains status) then (failure 400 "Invalid status", w)
  else
    match docPath (JsVal.str id) with
    | none => (failure 500 "Failed to update assignment status", w)
    | some path =>
    match getDoc w.vehicleAssignments path with
    | none => (failure 404 "Assignment not found", w)
    | some assignmentData =>
      match updateDoc w.vehicleAssignments path
          ([("status", status),
            ("updatedAt", JsVal.date ctx.now),
            ("updatedBy", JsVal.str ctx.uid)]
            ++ (if status = JsVal.str "completed" then [("completedAt", JsVal.date ctx.now)]
                else [])
            ++ (if status = JsVal.str "cancelled" then [("cancelledAt", JsVal.date ctx.now)]
                else [])) with
      | none => (failure 500 "Failed to update assignment status", w)
      | some assignments1 =>
        let w1 := { w with vehicleAssignments := assignments1 }
        if status = JsVal.str "completed" ∨ status = JsVal.str "cancelled" then
          match docPath (getField assignmentData "vehicleId") with
          | none => (failure 500 "Failed to update assignment status", w1)
          | some vid =>
            match updateDoc w1.vehicles vid
                [("status", JsVal.str "available"),
                 ("updatedAt", JsVal.date ctx.now),
                 ("updatedBy", JsVal.str ctx.uid)] with
            | none => (failure 500 "Failed to update assignment status", w1)
            | some vehicles2 =>
              ({ status := 200, success := true,
                 message := "Assignment status updated successfully", data := [] },
               { w1 with vehicles := vehicles2 })
        else
          ({ status := 200, success := true,
             message := "Assignment status updated successfully", data := [] }, w1)

/-- Handler of `POST /api/assignments/feeder-points`; `newId` is the id `add` generates. -/
def createFeederPointAssignment (ctx : Ctx) (newId : String) (body : Doc) (w : Backend) :
    Response × Backend :=
  let feederPointId := getField body "feederPointId"
  let assignedTo := getField body "assignedTo"
  let startDate := getField body "startDate"
  let endDate := getField body "endDate"
  let notes := getField body "notes"
  if !feederPointId.truthy || !assignedTo.truthy then
    (failure 400 "Feeder point ID and assignee are required", w)
  else
    match docPath feederPointId with
    | none => (failure 500 "Failed to create feeder point assignment", w)
    | some fid =>
      match getDoc w.feederPoints fid with
      | none => (failure 404 "Feeder point not found", w)
      | some _ =>
        match docPath assignedTo with
        | none => (failure 500 "Failed to create feeder point assignment", w)
        | some uid =>
          match getDoc w.users uid with
          | none => (failure 404 "Assignee not found", w)
          | some _ =>
            let assignmentData : Doc :=
              [("feederPointId", feederPointId),
               ("assignedTo", assignedTo),
               ("assignedBy", JsVal.str ctx.uid),
               ("assignedAt", JsVal.date ctx.now),
               ("startDate", if startDate.truthy then ctx.newDate startDate
                             else JsVal.date ctx.now),
               ("endDate", if endDate.truthy then ctx.newDate endDate else JsVal.null),
               ("status", JsVal.str "active"),
               ("notes", if notes.truthy then notes else JsVal.str ""),
               ("createdAt", JsVal.date ctx.now)]
            match addDoc w.feederPointAssignments newId assignmentData with
            | none => (failure 500 "Failed to create feeder point assignment", w)
            | some assignments1 =>
              ({ status := 201, success := true,
                 message := "Feeder point assignment created successfully",
                 data := ("id", JsVal.str newId) :: assignmentData },
               { w with feederPointAssignments := assignments1 })

/-- What an object of counters holds under one of its own keys: a number, or, once `1` was
added to a member inherited from `Object.prototype`, a text, that of the member named
`member` followed by `ones` digits `1`. -/
inductive CounterValue where
  | count (n : Nat)
  | text (member : String) (ones : Nat)
  deriving DecidableEq, Repr

instance (n : Nat) : OfNat CounterValue n := ⟨CounterValue.count n⟩

/-- An object of counters such as `{ total: 0, active: 0 }`: its own keys with what they
hold. -/
abbrev Counter := List (String × CounterValue)

/-- The number read as `stats[k]`: `none` when the object has no own key `k` or holds a text
under it. -/
def readCount (c : Counter) (k : String) : Option Nat :=
  match c.lookup k with
  | some (CounterValue.count n) => some n
  | _ => none

/-- The statement `stats[k] = (stats[k] || 0) + 1`, also `stats.k++` on a counter. An own
number is incremented and an own text gets one more `1`. A key that is not an own key but
names a member of `Object.prototype` reads that member, to which `1` is appended as text;
the text is stored under the key, except for `__proto__`, whose assignment of a text has no
effect. Any other new key starts at 1. -/
def bumpKey (c : Counter) (k : String) : Counter :=
  match c.lookup k with
  | some (CounterValue.count m) =>
    c.map (fun p => if p.1 == k then (p.1, CounterValue.count (m + 1)) else p)
  | some (CounterValue.text member ones) =>
    c.map (fun p => if p.1 == k then (p.1, CounterValue.text member (ones + 1)) else p)
  | none =>
    if k = "__proto__" then c
    else if objectPrototypeKeys.contains k then c ++ [(k, CounterValue.text k 1)]
    else c ++ [(k, CounterValue.count 1)]

/-- The counters hold texts under names of inherited members only. -/
def textOnlyInherited (c : Counter) : Prop :=
  ∀ p ∈ c, (∃ n, p.2 = CounterValue.count n) ∨ p.1 ∈ objectPrototypeKeys

/-- The property key a value is converted to when used as `stats[value]`: a string is its own
key; numbers and booleans give their decimal or literal text, objects `[object Object]`. -/
def propertyKey : JsVal → String
  | .str s => s
  | .num n => toString n
  | .bool b => if b then "true" else "false"
  | .undefined => "undefined"
  | .null => "null"
  | .date _ => "[object Object]"
  | .flags _ => "[object Object]"

/-- One step of the `forEach` loops that count documents by status: `total++`, then, for a
truthy status, the counter of that status is incremented. -/
def countStatus (stats : Counter) (doc : Doc) : Counter :=
  let stats1 := bumpKey stats "total"
  if (getField doc "status").truthy then
    bumpKey stats1 (propertyKey (getField doc "status"))
  else stats1

/-- The whole loop `snapshot.forEach(...)` over a collection, from the initial counters. -/
def countByStatus (init : Counter) (docs : Collection) : Counter :=
  docs.foldl (fun acc p => countStatus acc p.2) init

/-- The `data` of the response of `GET /api/assignments/stats`. -/
structure AssignmentStats where
  vehicleAssignments : Counter
  feederPointAssignments : Counter
  deriving DecidableEq, Repr

/-- Handler of `GET /api/assignments/stats`: HTTP status, the statistics, and the state. -/
def assignmentStats (w : Backend) : (Nat × AssignmentStats) × Backend :=
  ((200,
    { vehicleAssignments :=
        countByStatus [("total", 0), ("active", 0), ("completed", 0), ("cancelled", 0)]
          w.vehicleAssignments,
      feederPointAssignments :=
        countByStatus [("total", 0), ("active", 0), ("completed", 0), ("cancelled", 0)]
          w.feederPointAssignments }),
   w)

/-- HTTP methods used by the routers. -/
inductive Method where
  | GET
  | POST
  | PUT
  | DELETE
  deriving DecidableEq, Repr

/-- The handlers registered on the router of `routes/assignments.js`. -/
inductive AssignmentRoute where
  | listVehicleAssignments
  | createVehicleAssignment
  | changeVehicleAssignmentStatus (id : String)
  | listFeederPointAssignments
  | createFeederPointAssignment
  | stats
  deriving DecidableEq, Repr

/-- The route table of `routes/assignments.js`: the handler selected for a method and a path
given by its segments below `/api/assignments`; `none` when no route of the router matches. -/
def assignmentsRouter : Method → List String → Option AssignmentRoute
  | .GET, ["vehicles"] => some AssignmentRoute.listVehicleAssignments
  | .POST, ["vehicles"] => some AssignmentRoute.createVehicleAssignment
  | .PUT, ["vehicles", id, "status"] => some (AssignmentRoute.changeVehicleAssignmentStatus id)
  | .GET, ["feeder-points"] => some AssignmentRoute.listFeederPointAssignments
  | .POST, ["feeder-points"] => some AssignmentRoute.createFeederPointAssignment
  | .GET, ["stats"] => some AssignmentRoute.stats
  | _, _ => none

/-! ## `routes/vehicles.js` -/

/-- Handler of `DELETE /api/vehicles/:id`. The reference `doc(id)` throws for an id that
names no document, which the handler answers with its 500 error. The query
`where('vehicleId', '==', id).where('status', '==', 'active')` selects the assignments whose
two fields equal these strings. -/
def deleteVehicle (id : String) (w : Backend) : Response × Backend :=
  match docPath (JsVal.str id) with
  | none => (failure 500 "Failed to delete vehicle", w)
  | some path =>
    match getDoc w.vehicles path with
    | none => (failure 404 "Vehicle not found", w)
    | some _ =>
      let assignments := w.vehicleAssignments.filter (fun a =>
        getField a.2 "vehicleId" == JsVal.str id
          && getField a.2 "status" == JsVal.str "active")
      if !assignments.isEmpty then
        (failure 400 "Cannot delete vehicle with active assignments", w)
      else
        ({ status := 200, success := true, message := "Vehicle deleted successfully",
           data := [] },
         { w with vehicles := deleteDoc w.vehicles path })

/-! ## `routes/reports.js` -/

/-- The counters of the `data` of `GET /api/reports/dashboard` (its list `recentActivities`,
read from the audit log, is not part of the embedding). -/
structure DashboardStats where
  users : Counter
  vehicles : Counter
  assignments : Counter
  deriving DecidableEq, Repr

/-- The statement `stats.users.pending = n`. -/
def setCount (c : Counter) (k : String) (n : Nat) : Counter :=
  if c.any (fun p => p.1 == k) then
    c.map (fun p => if p.1 == k then (p.1, CounterValue.count n) else p)
  else
    c ++ [(k, CounterValue.count n)]

/-- Handler of `GET /api/reports/dashboard`, the database being available and its reads
succeeding: the three `forEach` loops over users, vehicles and vehicle assignments and the
count of pending approval requests. -/
def dashboard (w : Backend) : (Nat × DashboardStats) × Backend :=
  let users1 := w.users.foldl (fun acc p =>
      let acc1 := bumpKey acc "total"
      if (getField p.2 "isActive").truthy then bumpKey acc1 "active" else acc1)
    [("total", 0), ("active", 0), ("pending", 0)]
  let pending := (w.approvalRequests.filter (fun p =>
      getField p.2 "status" == JsVal.str "pending")).length
  ((200,
    { users := setCount users1 "pending" pending,
      vehicles :=
        countByStatus [("total", 0), ("available", 0), ("assigned", 0), ("maintenance", 0)]
          w.vehicles,
      assignments :=
        countByStatus [("total", 0), ("active", 0), ("completed", 0)] w.vehicleAssignments }),
   w)

/-! ## Records returned for user documents, and paging -/

/-- The rest of the destructuring `const { password, ...rest } = userData`: the own fields of
the document other than `password`. -/
def omitPassword (userData : Doc) : Doc :=
  userData.filter (fun p => p.1 != "password")

/-- The object literal `{ key: value, ...rest }`: the leading key first, overridden by a field
of the same name in `rest`, followed by the other fields of `rest`. -/
def spreadAfter (key : String) (value : JsVal) (rest : Doc) : Doc :=
  mergeDoc [(key, value)] rest

/-- The record pushed for a user document by `GET /api/users` and by the users export of
`GET /api/reports/export`: `{ id: doc.id, ...safeUserData }`. -/
def safeUserRecord (docId : String) (userData : Doc) : Doc :=
  spreadAfter "id" (JsVal.str docId) (omitPassword userData)

/-- The list `data.users` built by `GET /api/reports/export?type=users`. -/
def exportUsers (w : Backend) : List Doc :=
  w.users.map (fun p => safeUserRecord p.1 p.2)

/-- What `auth.verifyIdToken(token)` does: it returns the uid of the token or throws with one
of the codes the handler tells apart. -/
inductive TokenCheck where
  | verified (uid : String)
  | expired
  | revoked
  | invalid
  deriving DecidableEq, Repr

/-- Handler of `POST /api/auth/verify`, `verifyIdToken` being the identity provider's check
of the token. -/
def verifyToken (verifyIdToken : JsVal → TokenCheck) (body : Doc) (w : Backend) : Response :=
  let token := getField body "token"
  if !token.truthy then failure 400 "Token is required"
  else
    match verifyIdToken token with
    | TokenCheck.expired => failure 401 "Token expired"
    | TokenCheck.revoked => failure 401 "Token revoked"
    | TokenCheck.invalid => failure 401 "Invalid token"
    | TokenCheck.verified uid =>
      match docPath (JsVal.str uid) with
      | none => failure 401 "Invalid token"
      | some path =>
        match getDoc w.users path with
        | none => failure 404 "User not found"
        | some userData =>
          if getField userData "role" ≠ JsVal.str "admin" then
            failure 403 "Access denied. Admin privileges required."
          else if !(getField userData "isActive").truthy then
            failure 403 "Account is deactivated"
          else
            { status := 200, success := true, message := "Token verified successfully",
              data := spreadAfter "uid" (JsVal.str uid) (omitPassword userData) }

/-- Handler of `GET /api/auth/profile` for the request user `uid`; the success body has no
`message`. -/
def getProfile (uid : String) (w : Backend) : Response :=
  match docPath (JsVal.str uid) with
  | none => failure 500 "Failed to get profile"
  | some path =>
    match getDoc w.users path with
    | none => failure 404 "User profile not found"
    | some userData =>
      { status := 200, success := true, message := "",
        data := spreadAfter "uid" (JsVal.str uid) (omitPassword userData) }

/-- The `pagination` object of the list responses. -/
structure Pagination where
  page : Nat
  limit : Nat
  total : Nat
  pages : Nat
  deriving DecidableEq, Repr

/-- The slice `list.slice(startIndex, endIndex)` with `startIndex = (page - 1) * limit` and
`endIndex = startIndex + parseInt(limit)`, page and limit being whole numbers. -/
def pageSlice {α : Type} (list : List α) (page limit : Nat) : List α :=
  (list.drop ((page - 1) * limit)).take (((page - 1) * limit + limit) - (page - 1) * limit)

/-- The number `Math.ceil(length / limit)`. -/
def pageCount (length limit : Nat) : Nat :=
  ⌈(length : ℚ) / (limit : ℚ)⌉₊

/-- The `data` of `GET /api/users` and of `GET /api/vehicles` once the list has been filtered
and searched: the page and the pagination object. -/
def paginate {α : Type} (list : List α) (page limit : Nat) : List α × Pagination :=
  (pageSlice list page limit,
   { page := page, limit := limit, total := list.length,
     pages := pageCount list.length limit })

/-! ## The reports of `routes/reports.js` -/

/-- Whether a field value passes the filters `where(field, '>=', startDate)` and
`where(field, '<=', endDate)` of a report query; a bound is `none` when the request does not
give it, and a given bound selects only timestamps on its side. -/
def inDateRange (startDate endDate : Option Nat) (v : JsVal) : Bool :=
  (match startDate with
   | none => true
   | some s => match v with
     | .date t => decide (s ≤ t)
     | _ => false) &&
  (match endDate with
   | none => true
   | some e => match v with
     | .date t => decide (t ≤ e)
     | _ => false)

/-- The snapshot of a report query on a collection, with its optional date filters on
`field`. -/
def reportQuery (c : Collection) (field : String) (startDate endDate : Option Nat) :
    Collection :=
  c.filter (fun p => inDateRange startDate endDate (getField p.2 field))

/-- The objects `{ id: doc.id, ...doc.data() }` pushed for the documents of a snapshot. -/
def withIds (snapshot : Collection) : List Doc :=
  snapshot.map (fun p => spreadAfter "id" (JsVal.str p.1) p.2)

/-- Whether the loop that groups the assignments by vehicle throws: it does when the
`vehicleId` of an assignment, as a property key, names a member inherited from
`Object.prototype`, since `assignmentsByVehicle[key]` then reads that member, no list is
created under the key, and the member has no `push`. -/
def groupingThrows (assignments : Collection) : Bool :=
  assignments.any (fun p =>
    objectPrototypeKeys.contains (propertyKey (getField p.2 "vehicleId")))

/-- The value of `assignmentsByVehicle[key] || []` once the grouping is done: the assignments
whose `vehicleId`, as a property key, is `key`, in snapshot order, and the empty list when
there is none; `none` when `key` names a member inherited from `Object.prototype`, which is
what the read then gives. -/
def assignmentsByVehicle (assignments : Collection) (key : String) : Option (List Doc) :=
  if objectPrototypeKeys.contains key then none
  else
    some ((assignments.filter (fun p => propertyKey (getField p.2 "vehicleId") == key)).map
      (fun p => p.2))

/-- An entry of `utilizationData` in `GET /api/reports/vehicles`. Numbers are exact
rationals: the rounding of JavaScript's floating-point division is not represented. -/
structure UtilizationEntry where
  vehicleId : JsVal
  registrationNumber : JsVal
  activeAssignments : Nat
  totalAssignments : Nat
  utilizationRate : ℚ
  deriving DecidableEq, Repr

/-- The entry computed for a vehicle from the list of its assignments. -/
def entryFor (vehicle : Doc) (assignments : List Doc) : UtilizationEntry :=
  let activeAssignments :=
    (assignments.filter (fun a => getField a "status" == JsVal.str "active")).length
  let totalAssignments := assignments.length
  { vehicleId := getField vehicle "id",
    registrationNumber := getField vehicle "registrationNumber",
    activeAssignments := activeAssignments,
    totalAssignments := totalAssignments,
    utilizationRate :=
      if totalAssignments > 0 then
        ((activeAssignments : ℚ) / (totalAssignments : ℚ)) * 100
      else 0 }

/-- The body of the loop `vehicles.forEach(vehicle => ...)` that fills `utilizationData`;
`none` when it throws, the value read for the vehicle being a member without `filter`. -/
def utilizationEntry (assignments : Collection) (vehicle : Doc) : Option UtilizationEntry :=
  (assignmentsByVehicle assignments (propertyKey (getField vehicle "id"))).map
    (entryFor vehicle)

/-- Assignment `object[key] = value` on an object that is used as a map: the value of an
existing key is replaced in place, a new key is added at the end. -/
def putEntry {α : Type} (m : List (String × α)) (k : String) (v : α) : List (String × α) :=
  if m.any (fun p => p.1 == k) then
    m.map (fun p => if p.1 == k then (k, v) else p)
  else
    m ++ [(k, v)]

/-- The object `utilizationData` built by `GET /api/reports/vehicles`, one assignment
`utilizationData[vehicle.id] = ...` for each vehicle of the snapshot; the response lists its
values. The result is `none` when one of the two loops throws, which the handler answers
with its 500 error. -/
def vehicleReportUtilization (startDate endDate : Option Nat) (w : Backend) :
    Option (List (String × UtilizationEntry)) :=
  if groupingThrows w.vehicleAssignments then none
  else
    (withIds (reportQuery w.vehicles "createdAt" startDate endDate)).foldl
      (fun utilizationData vehicle =>
        match utilizationData, utilizationEntry w.vehicleAssignments vehicle with
        | some data, some entry =>
          some (putEntry data (propertyKey (getField vehicle "id")) entry)
        | _, _ => none)
      (some [])

/-- The time value of `v.toDate ? v.toDate() : new Date(v)`: the instant of a timestamp,
otherwise that of the date the constructor reads; `none` is the invalid date (`NaN`). -/
def dateMillis (ctx : Ctx) (v : JsVal) : Option Int :=
  match v with
  | .date t => some (t : Int)
  | _ =>
    match ctx.newDate v with
    | .date t => some (t : Int)
    | _ => none

/-- Sum of two numbers one of which may be `NaN` (`none`). -/
def addNumber (a b : Option ℚ) : Option ℚ :=
  match a, b with
  | some x, some y => some (x + y)
  | _, _ => none

/-- The helper `calculateAverageAssignmentDuration(assignments)`, in exact arithmetic. -/
def calculateAverageAssignmentDuration (ctx : Ctx) (assignments : List Doc) : Option ℚ :=
  if assignments.length = 0 then some 0
  else
    let durations : List (Option ℚ) :=
      (assignments.filter (fun a =>
          (getField a "assignedAt").truthy && (getField a "completedAt").truthy)).map
        (fun a =>
          match dateMillis ctx (getField a "completedAt"),
                dateMillis ctx (getField a "assignedAt") with
          | some e, some s => some (((e - s : Int) : ℚ) / (1000 * 60 * 60 * 24))
          | _, _ => none)
    if durations.length > 0 then
      match durations.foldl (fun sum duration => addNumber sum duration) (some 0) with
      | some total => some (total / (durations.length : ℚ))
      | none => none
    else some 0

/-- The object `performanceMetrics` of `GET /api/reports/assignments`. -/
structure PerformanceMetrics where
  totalAssignments : Nat
  completedAssignments : Nat
  activeAssignments : Nat
  completionRate : ℚ
  averageAssignmentDuration : Option ℚ
  deriving DecidableEq, Repr

/-- The list `allAssignments` of `GET /api/reports/assignments`: the assignments fetched for
the requested type, vehicle assignments first. -/
def allAssignments (type : String) (startDate endDate : Option Nat) (w : Backend) :
    List Doc :=
  (if type = "all" ∨ type = "vehicle" then
      withIds (reportQuery w.vehicleAssignments "assignedAt" startDate endDate)
    else []) ++
  (if type = "all" ∨ type = "feeder" then
      withIds (reportQuery w.feederPointAssignments "assignedAt" startDate endDate)
    else [])

/-- The object `performanceMetrics` computed from the list `allAssignments`. -/
def performanceMetrics (ctx : Ctx) (all : List Doc) : PerformanceMetrics :=
  let completedAssignments := all.filter (fun a => getField a "status" == JsVal.str "completed")
  let activeAssignments := all.filter (fun a => getField a "status" == JsVal.str "active")
  { totalAssignments := all.length,
    completedAssignments := completedAssignments.length,
    activeAssignments := activeAssignments.length,
    completionRate :=
      if all.length > 0 then
        ((completedAssignments.length : ℚ) / (all.length : ℚ)) * 100
      else 0,
    averageAssignmentDuration := calculateAverageAssignmentDuration ctx completedAssignments }

/-- The performance metrics returned by `GET /api/reports/assignments`. -/
def assignmentReportMetrics (ctx : Ctx) (type : String) (startDate endDate : Option Nat)
    (w : Backend) : PerformanceMetrics :=
  performanceMetrics ctx (allAssignments type startDate endDate w)

/-- The days between the two timestamps of an assignment, `completedAt − assignedAt`, each
read as the helper reads it; `none`, not a number, when one of them is no timestamp and not
read by the `Date` constructor either. -/
def elapsedDays (ctx : Ctx) (a : Doc) : Option ℚ :=
  match dateMillis ctx (getField a "completedAt"),
        dateMillis ctx (getField a "assignedAt") with
  | some e, some s => some (((e - s : Int) : ℚ) / (1000 * 60 * 60 * 24))
  | _, _ => none

/-- Whether both timestamps of an assignment are set. -/
def hasBothTimestamps (a : Doc) : Bool :=
  (getField a "assignedAt").truthy && (getField a "completedAt").truthy

/-- Every field has one value, as in an object: no key occurs twice in the document. -/
def distinctKeys (d : Doc) : Prop :=
  (d.map Prod.fst).Nodup

instance (d : Doc) : Decidable (distinctKeys d) := by
  unfold distinctKeys; infer_instance

/-! ## Calendar arithmetic of `Date` and the period keys of the user report -/

/-- Milliseconds in a day. -/
def msPerDay : Int := 86400000

/-- The day number `Day(t)` of a time value: whole days since 1 January 1970. -/
def dayOf (t : Int) : Int := t / msPerDay

/-- The time within the day, `TimeWithinDay(t)`. -/
def timeWithinDay (t : Int) : Int := t % msPerDay

/-- The weekday `WeekDay(t)`, 0 for Sunday up to 6 for Saturday. -/
def weekDay (t : Int) : Int := (dayOf t + 4) % 7

/-- A date of the proleptic Gregorian calendar; `month` counts from 0 as `getMonth` does. -/
structure CivilDate where
  year : Int
  month : Int
  date : Int
  deriving DecidableEq, Repr

/-- The calendar date of a day number (`YearFromTime`, `MonthFromTime`, `DateFromTime`),
computed by eras of 400 years. -/
def civilFromDays (day : Int) : CivilDate :=
  let z := day + 719468
  let era := z / 146097
  let doe := z - era * 146097
  let yoe := (doe - doe / 1460 + doe / 36524 - doe / 146096) / 365
  let doy := doe - (365 * yoe + yoe / 4 - yoe / 100)
  let mp := (5 * doy + 2) / 153
  let d := doy - (153 * mp + 2) / 5 + 1
  let m := if mp < 10 then mp + 3 else mp - 9
  { year := yoe + era * 400 + (if m ≤ 2 then 1 else 0), month := m - 1, date := d }

/-- The day number `MakeDay(year, month, date)`: the day of the first of the month (months
from 0, carried into the year when out of range) plus `date - 1`. -/
def makeDay (year month date : Int) : Int :=
  let ym := year + month / 12
  let m := month % 12 + 1
  let y := if m ≤ 2 then ym - 1 else ym
  let era := y / 400
  let yoe := y - era * 400
  let doy := (153 * (if m > 2 then m - 3 else m + 9) + 2) / 5
  let doe := yoe * 365 + yoe / 4 - yoe / 100 + doy
  era * 146097 + doe - 719468 + date - 1

/-- Local time of a time value in a zone that is `tz` minutes ahead of UTC all year. -/
def localTime (tz : Int) (t : Int) : Int := t + tz * 60000

/-- The method `getFullYear()`. -/
def getFullYear (tz : Int) (t : Int) : Int := (civilFromDays (dayOf (localTime tz t))).year

/-- The method `getMonth()`. -/
def getMonth (tz : Int) (t : Int) : Int := (civilFromDays (dayOf (localTime tz t))).month

/-- The method `getDate()`. -/
def getDate (tz : Int) (t : Int) : Int := (civilFromDays (dayOf (localTime tz t))).date

/-- The method `getDay()`. -/
def getDay (tz : Int) (t : Int) : Int := weekDay (localTime tz t)

/-- The time value after `setDate(date)`: the local date is replaced within the local month,
the local time of day is kept, and the result is read back as UTC. -/
def setDate (tz : Int) (t : Int) (date : Int) : Int :=
  let lt := localTime tz t
  let c := civilFromDays (dayOf lt)
  makeDay c.year c.month date * msPerDay + timeWithinDay lt - tz * 60000

/-- The decimal digit `d` as a character. -/
def digitChar (d : Int) : Char := Char.ofNat (48 + d.toNat)

/-- The last `width` decimal digits of a number that is not negative, zero-padded: the text
of `String(n).padStart(width, '0')` when `n` has at most `width` digits. -/
def padDigits : Nat → Int → List Char
  | 0, _ => []
  | width + 1, n => padDigits width (n / 10) ++ [digitChar (n % 10)]

/-- The decimal digits of a natural number that has at most `fuel` digits. -/
def digitsOf : Nat → Nat → List Char
  | 0, _ => []
  | fuel + 1, n => if n < 10 then [digitChar n] else digitsOf fuel (n / 10) ++ [digitChar (n % 10)]

/-- The text of `String(n)` for an integer of at most twenty digits. -/
def numberText (n : Int) : String :=
  String.mk ((if n < 0 then ['-'] else []) ++ digitsOf 20 n.natAbs)

/-- The text of `String(n).padStart(2, '0')`. -/
def padStart2 (n : Int) : String :=
  if 0 ≤ n ∧ n < 10 then String.mk ('0' :: (numberText n).data) else numberText n

/-- The date part of `toISOString()`, the text before `T`: the UTC date, with a four-digit
year from 0 to 9999 and a signed six-digit year otherwise. -/
def isoDate (t : Int) : String :=
  let c := civilFromDays (dayOf t)
  let year :=
    if 0 ≤ c.year ∧ c.year ≤ 9999 then padDigits 4 c.year
    else (if c.year < 0 then '-' else '+') :: padDigits 6 (Int.ofNat c.year.natAbs)
  String.mk (year ++ ['-'] ++ padDigits 2 (c.month + 1) ++ ['-'] ++ padDigits 2 c.date)

/-- The key `periodKey` under which `GET /api/reports/users` counts a user created at the
time value `createdAt`, on a server whose zone is `tz` minutes ahead of UTC. -/
def periodKey (tz : Int) (groupBy : String) (createdAt : Int) : String :=
  if groupBy = "day" then
    isoDate createdAt
  else if groupBy = "week" then
    let weekStart := setDate tz createdAt (getDate tz createdAt - getDay tz createdAt)
    isoDate weekStart
  else
    numberText (getFullYear tz createdAt) ++ "-" ++ padStart2 (getMonth tz createdAt + 1)

/-! ## `routes/vehicles.js`: creating and updating vehicles -/

/-- The method `toUpperCase()` of a string, on the letters `a` to `z`; every other character
is kept. -/
def toUpperCase (s : String) : String :=
  String.mk (s.data.map Char.toUpper)

/-- Handler of `POST /api/vehicles`; `newId` is the id `add` generates, `parseInt` and
`parseFloat` are the number readers of the language, and `user` is `req.user`. A
registration number that is truthy but no string has no `toUpperCase`: the duplicate check
is skipped and building the document throws. The snapshot of a query lists the matching
documents in the order of the collection. -/
def createVehicle (ctx : Ctx) (parseInt parseFloat : JsVal → JsVal) (user : Option ReqUser)
    (newId : String) (body : Doc) (w : Backend) : Response × Backend :=
  let registrationNumber := getField body "registrationNumber"
  let make := getField body "make"
  let model := getField body "model"
  let year := getField body "year"
  let type := getField body "type"
  let capacity := getField body "capacity"
  let fuelType := getField body "fuelType"
  let status :=
    if getField body "status" = JsVal.undefined then JsVal.str "available"
    else getField body "status"
  if !registrationNumber.truthy || !make.truthy || !model.truthy || !type.truthy then
    (failure 400 "Registration number, make, model, and type are required", w)
  else
    match registrationNumber with
    | .str number =>
      let existingVehicle := w.vehicles.filter (fun p =>
        getField p.2 "registrationNumber" == JsVal.str (toUpperCase number))
      if !existingVehicle.isEmpty then
        (failure 400 "Vehicle with this registration number already exists", w)
      else
        let vehicleData : Doc :=
          [("registrationNumber", JsVal.str (toUpperCase number)),
           ("make", make),
           ("model", model),
           ("year", if year.truthy then parseInt year else JsVal.null),
           ("type", type),
           ("capacity", if capacity.truthy then parseFloat capacity else JsVal.null),
           ("fuelType", fuelType),
           ("status", status),
           ("createdAt", JsVal.date ctx.now),
           ("createdBy",
              match user with
              | some u => if (JsVal.str u.uid).truthy then JsVal.str u.uid
                          else JsVal.str "demo-admin"
              | none => JsVal.str "demo-admin"),
           ("updatedAt", JsVal.date ctx.now)]
        match addDoc w.vehicles newId vehicleData with
        | none => (failure 500 "Failed to create vehicle. Please try again.", w)
        | some vehicles1 =>
          ({ status := 201, success := true, message := "Vehicle created successfully",
             data := spreadAfter "id" (JsVal.str newId) vehicleData },
           { w with vehicles := vehicles1 })
    | _ => (failure 500 "Failed to create vehicle. Please try again.", w)

/-- Handler of `PUT /api/vehicles/:id`, behind `requirePermission('canManageVehicles')`. -/
def updateVehicle (ctx : Ctx) (id : String) (body : Doc) (w : Backend) :
    Response × Backend :=
  let updateData :=
    setField
      (setField
        (body.filter (fun p => p.1 != "id" && p.1 != "createdAt" && p.1 != "createdBy"))
        "updatedAt" (JsVal.date ctx.now))
      "updatedBy" (JsVal.str ctx.uid)
  match docPath (JsVal.str id) with
  | none => (failure 500 "Failed to update vehicle", w)
  | some path =>
    match getDoc w.vehicles path with
    | none => (failure 404 "Vehicle not found", w)
    | some _ =>
      let existingVehicle := w.vehicles.filter (fun p =>
        getField p.2 "registrationNumber" == getField updateData "registrationNumber")
      if (getField updateData "registrationNumber").truthy
          && (match existingVehicle with
              | [] => false
              | first :: _ => first.1 != id) then
        (failure 400 "Vehicle with this registration number already exists", w)
      else
        match updateDoc w.vehicles path updateData with
        | none => (failure 500 "Failed to update vehicle", w)
        | some vehicles1 =>
          ({ status := 200, success := true, message := "Vehicle updated successfully",
             data := [] },
           { w with vehicles := vehicles1 })

/-! ## `routes/settings.js`: the backup -/

/-- The table `COLLECTIONS` of `config/firebase.js`. -/
def COLLECTIONS : List (String × String) :=
  [("USERS", "users"), ("APPROVAL_REQUESTS", "approvalRequests"), ("VEHICLES", "vehicles"),
   ("VEHICLE_ASSIGNMENTS", "vehicleAssignments"), ("FEEDER_POINTS", "feederPoints"),
   ("FEEDER_POINT_ASSIGNMENTS", "feederPointAssignments"), ("CONTRACTORS", "contractors"),
   ("DRIVERS", "drivers"), ("REPORTS", "reports"), ("NOTIFICATIONS", "notifications"),
   ("AUDIT_LOGS", "auditLogs"), ("SETTINGS", "settings")]

/-- The documents of `db.collection(name)` for the names of the table `COLLECTIONS`. -/
def collectionNamed (w : Backend) (name : String) : Collection :=
  if name = "users" then w.users
  else if name = "approvalRequests" then w.approvalRequests
  else if name = "vehicles" then w.vehicles
  else if name = "vehicleAssignments" then w.vehicleAssignments
  else if name = "feederPoints" then w.feederPoints
  else if name = "feederPointAssignments" then w.feederPointAssignments
  else if name = "contractors" then w.contractors
  else if name = "drivers" then w.drivers
  else if name = "reports" then w.reports
  else if name = "notifications" then w.notifications
  else if name = "auditLogs" then w.auditLogs
  else if name = "settings" then w.settings
  else []

/-- The list `collections` of `POST /api/settings/backup`: the one of the request body, or
the default when the body names none. -/
def requestedCollections (collections : Option (List String)) : List String :=
  match collections with
  | some names => names
  | none => ["users", "vehicles", "assignments"]

/-- The object `backupData.collections` assembled by `POST /api/settings/backup`: for each
requested name whose upper-case form is a key of `COLLECTIONS`, the documents of that
collection with their ids; the other names are passed over. (The record written to the
collection `backups` holds the requested names and the size of this data.) -/
def backupCollections (collections : Option (List String)) (w : Backend) :
    List (String × List Doc) :=
  (requestedCollections collections).foldl
    (fun backup collectionName =>
      match COLLECTIONS.lookup (toUpperCase collectionName) with
      | some name =>
        if (JsVal.str name).truthy then
          putEntry backup collectionName (withIds (collectionNamed w name))
        else backup
      | none => backup)
    []

/-! ## `convertToCSV` of `routes/reports.js` -/

/-- The double quote character. -/
def quoteChar : Char := Char.ofNat 34

/-- The line break character. -/
def lineBreak : Char := Char.ofNat 10

/-- The text `value.replace(/"/g, '""')`: every double quote is doubled. -/
def doubleQuotes (s : List Char) : List Char :=
  s.flatMap (fun c => if c = quoteChar then [quoteChar, quoteChar] else [c])

/-- The text that `values.join(',')` uses for one cell: a string is wrapped in double quotes
with its quotes doubled; any other value is joined as it is, `null` and `undefined` as the
empty text, an object by its own text `objectText`. -/
def csvCell (objectText : JsVal → String) (value : JsVal) : List Char :=
  match value with
  | .str s => quoteChar :: (doubleQuotes s.data ++ [quoteChar])
  | .undefined => []
  | .null => []
  | .num n => (numberText n).data
  | .bool b => if b then "true".data else "false".data
  | other => (objectText other).data

/-- The row of one item: the cells of the header keys, joined by commas. -/
def csvRow (objectText : JsVal → String) (headers : List String) (item : Doc) : List Char :=
  [','].intercalate (headers.map (fun header => csvCell objectText (getField item header)))

/-- The helper `convertToCSV(data)`; the values of `data` are lists of items, `none` for a
value that is missing. -/
def convertToCSV (objectText : JsVal → String) (data : List (String × Option (List Doc))) :
    String :=
  match data with
  | [] => ""
  | (_, none) :: _ => ""
  | (_, some []) :: _ => ""
  | (_, some (first :: rest)) :: _ =>
    let headers := first.map Prod.fst
    let csvRows :=
      [','].intercalate (headers.map String.data)
        :: (first :: rest).map (csvRow objectText headers)
    String.mk ([lineBreak].intercalate csvRows)

/-- Whether a value is a string without a line break. -/
def isPlainString : JsVal → Bool
  | .str s => !(s.data.contains lineBreak)
  | _ => false

/-- The lines of a text, as separated by line breaks. -/
def csvLines (text : String) : List (List Char) :=
  text.data.splitOn lineBreak

/-- Where the reader of a line of quoted fields stands: at the start of the line, at the
start of a field after a comma, inside a quoted field, or after a quote met inside a
field. -/
inductive CsvState where
  | lineStart
  | fieldStart
  | inside
  | afterQuote
  deriving DecidableEq, Repr

/-- The standard reading of a line whose fields are each wrapped in double quotes, a doubled
quote inside a field standing for one quote: the fields, or `none` when the line is not of
that form. `current` is the field being read and `fields` are those read so far. -/
def decodeFrom (state : CsvState) (current : List Char) (fields : List (List Char)) :
    List Char → Option (List (List Char))
  | [] =>
    match state with
    | .lineStart => some fields
    | .afterQuote => some (fields ++ [current])
    | _ => none
  | c :: rest =>
    match state with
    | .lineStart =>
      if c = quoteChar then decodeFrom CsvState.inside [] fields rest else none
    | .fieldStart =>
      if c = quoteChar then decodeFrom CsvState.inside [] fields rest else none
    | .inside =>
      if c = quoteChar then decodeFrom CsvState.afterQuote current fields rest
      else decodeFrom CsvState.inside (current ++ [c]) fields rest
    | .afterQuote =>
      if c = quoteChar then decodeFrom CsvState.inside (current ++ [quoteChar]) fields rest
      else if c = ',' then decodeFrom CsvState.fieldStart [] (fields ++ [current]) rest
      else none

/-- The fields of one line of quoted fields. -/
def decodeCsvLine (line : List Char) : Option (List (List Char)) :=
  decodeFrom CsvState.lineStart [] [] line

/-! ## Properties of the store -/

/-- The vehicle assignments that reference vehicle `vid` and have status `active`. -/
def activeAssignmentsOf (w : Backend) (vid : String) : List (String × Doc) :=
  w.vehicleAssignments.filter (fun a =>
    getField a.2 "vehicleId" == JsVal.str vid && getField a.2 "status" == JsVal.str "active")

/-- Vehicle status and occupancy agree: a vehicle has status `assigned` exactly when some
vehicle assignment that references it is `active`. -/
def statusMatchesAssignments (w : Backend) : Prop :=
  ∀ v ∈ w.vehicles, getField v.2 "status" = JsVal.str "assigned" ↔ activeAssignmentsOf w v.1 ≠ []

instance (w : Backend) : Decidable (statusMatchesAssignments w) := by
  unfold statusMatchesAssignments
  infer_instance

/-- No vehicle is referenced by two active vehicle assignments. -/
def atMostOneActive (w : Backend) : Prop :=
  ∀ vid : String, (activeAssignmentsOf w vid).length ≤ 1

/-- The states reached from a state without vehicle assignments by calls of the two
assignment handlers, `add` generating an id that is not in use. -/
inductive Reachable : Backend → Prop where
  | init (w : Backend) : w.vehicleAssignments = [] → Reachable w
  | create {w : Backend} (ctx : Ctx) (newId : String) (body : Doc) :
      Reachable w → getDoc w.vehicleAssignments newId = none →
      Reachable (createVehicleAssignment ctx newId body w).2
  | changeStatus {w : Backend} (ctx : Ctx) (id : String) (body : Doc) :
      Reachable w → Reachable (changeAssignmentStatus ctx id body w).2

/-- The key under which a document is counted by `countStatus`: the property key of its
status when the status is truthy, none otherwise. For a non-empty string status it is that
string. -/
def statusKey (doc : Doc) : Option String :=
  if (getField doc "status").truthy then some (propertyKey (getField doc "status")) else none

/-- The number of documents of a collection counted under status `s`. -/
def countWithStatus (docs : Collection) (s : String) : Nat :=
  (docs.filter (fun p => statusKey p.2 == some s)).length

/-- A counter read `r` after `n` increments: unchanged for `n = 0`, otherwise the old number
(0 when the key was absent) plus `n`. -/
def tallied (r : Option Nat) (n : Nat) : Option Nat :=
  if n = 0 then r else some (r.getD 0 + n)

/-- The list `users` built by the `forEach` of `GET /api/users` from the snapshot of its
query, `orderBy('createdAt', 'desc')`, which holds the user documents that have a `createdAt`
field. -/
def userListRecords (snapshot : Collection) : List Doc :=
  snapshot.map (fun p => safeUserRecord p.1 p.2)

/-- A returned record carries no `password` key and agrees with the stored document on every
field of the document other than `password`. -/
def agreesWithoutPassword (record userData : Doc) : Prop :=
  (∀ p ∈ record, p.1 ≠ "password") ∧
  getField record "password" = JsVal.undefined ∧
  ∀ k, k ≠ "password" → k ∈ userData.map Prod.fst → getField record k = getField userData k

/-! ## Concrete requests and states used to exercise the handlers -/

/-- The caller set by the authentication middleware, at instant 1000. -/
def adminCtx : Ctx :=
  { uid := "temp-admin-123", now := 1000, newDate := fun v => v }

/-- The caller of `adminCtx` on a server whose `Date` constructor cannot read the text
`soon`. -/
def soonCtx : Ctx :=
  { uid := "temp-admin-123", now := 1000,
    newDate := fun v => if v = JsVal.str "soon" then JsVal.undefined else v }

/-- One user `U1` and one vehicle `V1` with status `available`, no assignment. -/
def idleFleet : Backend :=
  { emptyBackend with
    users := [("U1", [("fullName", JsVal.str "Asha"), ("role", JsVal.str "driver")])],
    vehicles := [("V1", [("registrationNumber", JsVal.str "MH12AB1234"),
                         ("status", JsVal.str "available")])] }

/-- As `idleFleet`, with vehicle `V1` under maintenance (Scenario B). -/
def maintenanceFleet : Backend :=
  { idleFleet with
    vehicles := [("V1", [("registrationNumber", JsVal.str "MH12AB1234"),
                         ("status", JsVal.str "maintenance")])] }

/-- The body of a request assigning vehicle `V1` to user `U1`. -/
def assignV1 : Doc :=
  [("vehicleId", JsVal.str "V1"), ("assignedTo", JsVal.str "U1"),
   ("assignmentType", JsVal.str "daily")]

/-- The state after `V1` was assigned by assignment `A1` and `A1` was completed. -/
def afterCompletion : Backend :=
  { idleFleet with
    vehicleAssignments :=
      [("A1", [("vehicleId", JsVal.str "V1"), ("assignedTo", JsVal.str "U1"),
               ("status", JsVal.str "completed"), ("completedAt", JsVal.date 900)])] }

/-- The state after `A1` was completed and `V1` was assigned again by assignment `A2`. -/
def reassignedFleet : Backend :=
  { idleFleet with
    vehicles := [("V1", [("registrationNumber", JsVal.str "MH12AB1234"),
                         ("status", JsVal.str "assigned")])],
    vehicleAssignments :=
      [("A1", [("vehicleId", JsVal.str "V1"), ("assignedTo", JsVal.str "U1"),
               ("status", JsVal.str "completed"), ("completedAt", JsVal.date 900)]),
       ("A2", [("vehicleId", JsVal.str "V1"), ("assignedTo", JsVal.str "U1"),
               ("status", JsVal.str "active")])] }

/-- The state reached from `idleFleet` by four calls: assign `V1` (assignment `A1`), complete
`A1`, assign `V1` again (assignment `A2`), set `A1` back to `active`. -/
def doubleBooking : Backend :=
  (changeAssignmentStatus adminCtx "A1" [("status", JsVal.str "active")]
    (createVehicleAssignment adminCtx "A2" assignV1
      (changeAssignmentStatus adminCtx "A1" [("status", JsVal.str "completed")]
        (createVehicleAssignment adminCtx "A1" assignV1 idleFleet).2).2).2).2

/-- A backend with an administrator `U2` (holding the administrator permissions), a pending
registration request `R1` for a driver and a rejected request `R2`. -/
def office : Backend :=
  { emptyBackend with
    users := [("U2", [("uid", JsVal.str "U2"), ("email", JsVal.str "meera@example.org"),
                      ("role", JsVal.str "admin"), ("isActive", JsVal.bool true),
                      ("permissions", JsVal.flags (getRolePermissions (JsVal.str "admin")))])],
    approvalRequests :=
      [("R1", [("fullName", JsVal.str "Ravi Kumar"), ("email", JsVal.str "ravi@example.org"),
               ("password", JsVal.str "s3cret-pw"), ("phone", JsVal.str "9800000001"),
               ("role", JsVal.str "driver"), ("status", JsVal.str "pending")]),
       ("R2", [("fullName", JsVal.str "Sunil Rao"), ("email", JsVal.str "sunil@example.org"),
               ("password", JsVal.str "pa55word"), ("phone", JsVal.str "9800000002"),
               ("role", JsVal.str "swachh_hr"), ("status", JsVal.str "rejected"),
               ("rejectedAt", JsVal.date 500), ("rejectedBy", JsVal.str "temp-admin-123")])],
    accounts := [{ uid := "U2", email := JsVal.str "meera@example.org",
                   password := JsVal.str "adm1n-pw", displayName := JsVal.str "Meera",
                   disabled := false }] }

/-- The body `{ approved: true }`. -/
def approveBody : Doc := [("approved", JsVal.bool true)]

/-- The body `{ approved: false }`. -/
def rejectBody : Doc := [("approved", JsVal.bool false)]

/-- A request user holding the transport-contractor permissions. -/
def contractorUser : ReqUser :=
  { uid := "U7", email := "fleet@example.org", role := JsVal.str "transport_contractor",
    permissions := some (getRolePermissions (JsVal.str "transport_contractor")),
    fullName := "Fleet Contractor" }

/-- The state after vehicle `V1` was assigned by the active assignment `A1`. -/
def assignedFleet : Backend :=
  { idleFleet with
    vehicles := [("V1", [("registrationNumber", JsVal.str "MH12AB1234"),
                         ("status", JsVal.str "assigned")])],
    vehicleAssignments :=
      [("A1", [("vehicleId", JsVal.str "V1"), ("assignedTo", JsVal.str "U1"),
               ("status", JsVal.str "active")])] }

/-- One user `U1`, one feeder point `FP1` and the active feeder-point assignment `F1` created
by `POST /api/assignments/feeder-points`; no vehicle and no vehicle assignment. -/
def feederState : Backend :=
  (createFeederPointAssignment adminCtx "F1"
    [("feederPointId", JsVal.str "FP1"), ("assignedTo", JsVal.str "U1")]
    { emptyBackend with
      users := [("U1", [("fullName", JsVal.str "Asha"), ("role", JsVal.str "driver")])],
      feederPoints := [("FP1", [("name", JsVal.str "Ward 12 gate")])] }).2

/-- A store whose only vehicle assignment has the status text `total`. -/
def oddStatusState : Backend :=
  { emptyBackend with
    vehicleAssignments :=
      [("A1", [("vehicleId", JsVal.str "V1"), ("assignedTo", JsVal.str "U1"),
               ("status", JsVal.str "total")])] }

/-- Scenario D: three vehicles (two available, one assigned), two vehicle assignments (one
active, one completed) and two users (one active). -/
def scenarioD : Backend :=
  { emptyBackend with
    users := [("U1", [("fullName", JsVal.str "Asha"), ("isActive", JsVal.bool true)]),
              ("U2", [("fullName", JsVal.str "Meera"), ("isActive", JsVal.bool false)])],
    vehicles := [("V1", [("status", JsVal.str "available")]),
                 ("V2", [("status", JsVal.str "available")]),
                 ("V3", [("status", JsVal.str "assigned")])],
    vehicleAssignments :=
      [("A1", [("vehicleId", JsVal.str "V3"), ("assignedTo", JsVal.str "U1"),
               ("status", JsVal.str "active")]),
       ("A2", [("vehicleId", JsVal.str "V1"), ("assignedTo", JsVal.str "U1"),
               ("status", JsVal.str "completed")])] }

/-- A backend whose administrator document `U5` stores a `password` field. -/
def vault : Backend :=
  { emptyBackend with
    users := [("U5", [("email", JsVal.str "kiran@example.org"),
                      ("password", JsVal.str "plain-text-pw"),
                      ("role", JsVal.str "admin"), ("isActive", JsVal.bool true)])] }

/-- A token check that accepts every token as that of user `U5`. -/
def acceptAsU5 : JsVal → TokenCheck :=
  fun _ => TokenCheck.verified "U5"

/-- Two assignments of vehicle `V1` that both carry `assignedAt` and `completedAt`: `A1`,
completed after two days, and `A2`, completed after four days and then cancelled; and one
active feeder point assignment `F1`. -/
def mixedHistory : Backend :=
  { idleFleet with
    vehicleAssignments :=
      [("A1", [("vehicleId", JsVal.str "V1"), ("assignedAt", JsVal.date 0),
               ("status", JsVal.str "completed"), ("completedAt", JsVal.date 172800000)]),
       ("A2", [("vehicleId", JsVal.str "V1"), ("assignedAt", JsVal.date 0),
               ("status", JsVal.str "cancelled"), ("completedAt", JsVal.date 345600000),
               ("cancelledAt", JsVal.date 400000000)])],
    feederPointAssignments :=
      [("F1", [("feederPointId", JsVal.str "FP1"), ("assignedAt", JsVal.date 0),
               ("status", JsVal.str "active")])] }

/-- The body of a request that registers a vehicle with the given registration number. -/
def vehicleBody (registrationNumber : String) : Doc :=
  [("registrationNumber", JsVal.str registrationNumber), ("make", JsVal.str "Tata"),
   ("model", JsVal.str "Ace"), ("type", JsVal.str "truck"), ("fuelType", JsVal.str "diesel")]

/-- The state reached from the empty backend by three calls: create vehicle `V1` with the
number `MH12AB1234`, create vehicle `V2` with the number `KA01XY9999`, update `V2` with the
number `mh12ab1234`. -/
def renamedFleet : Backend :=
  (updateVehicle adminCtx "V2" [("registrationNumber", JsVal.str "mh12ab1234")]
    (createVehicle adminCtx (fun v => v) (fun v => v) none "V2" (vehicleBody "KA01XY9999")
      (createVehicle adminCtx (fun v => v) (fun v => v) none "V1" (vehicleBody "MH12AB1234")
        emptyBackend).2).2).2

/-- A field name with a line break in it: `a`, line break, `b`. -/
def brokenKey : String := String.mk ['a', lineBreak, 'b']

/-- Two items with the keys `name` and `note`, whose values hold a comma and double
quotes. -/
def quotedItems : List Doc :=
  [[("name", JsVal.str "Asha, R."), ("note", JsVal.str (String.mk ['s', quoteChar, 'x']))],
   [("name", JsVal.str ""), ("note", JsVal.str "ok")]]

/-! ## General facts about documents and collections -/

theorem truthy_str (s : String) (h : s ≠ "") : (JsVal.str s).truthy = true := by
  simp [JsVal.truthy, h]

theorem str_ne_empty_of_truthy (s : String) (h : (JsVal.str s).truthy = true) : s ≠ "" := by
  simpa [JsVal.truthy] using h

theorem changeAssignmentStatus_invalid (ctx : Ctx) (id : String) (body : Doc) (w : Backend)
    (h : getField body "status" ∉ validStatuses) :
    changeAssignmentStatus ctx id body w = (failure 400 "Invalid status", w) := by
  simp [changeAssignmentStatus, h]

theorem not_valid_of_ne (s : JsVal) (h1 : s ≠ JsVal.str "active")
    (h2 : s ≠ JsVal.str "completed") (h3 : s ≠ JsVal.str "cancelled") :
    s ∉ validStatuses := by
  simp [validStatuses, h1, h2, h3]

theorem lookup_cons_ne {α : Type} (l : List (String × α)) (a : String) (b : α) (k' : String)
    (h : k' ≠ a) : ((a, b) :: l).lookup k' = l.lookup k' := by
  have hb : (k' == a) = false := by simpa using h
  simp [List.lookup, hb]

theorem lookup_cons_eq {α : Type} (l : List (String × α)) (a : String) (b : α) :
    ((a, b) :: l).lookup a = some b := by
  simp [List.lookup]

theorem lookup_append_single {α : Type} (l : List (String × α)) (k : String) (v : α) (k' : String) :
    (l ++ [(k, v)]).lookup k' = (l.lookup k').or (if k' = k then some v else none) := by
  induction l with
  | nil =>
    by_cases h : k' = k
    · subst h; simp [List.lookup]
    · have : (k' == k) = false := by simpa using h
      simp [List.lookup, this, h]
  | cons p l ih =>
    obtain ⟨a, b⟩ := p
    by_cases h : k' = a
    · subst h; simp [List.lookup]
    · have : (k' == a) = false := by simpa using h
      simp [List.lookup, this, ih]

theorem lookup_map_entry {α : Type} (l : List (String × α)) (k : String) (f : α → α)
    (k' : String) :
    (l.map (fun p => if p.1 == k then (p.1, f p.2) else p)).lookup k'
      = if k' = k then (l.lookup k').map f else l.lookup k' := by
  induction l with
  | nil => simp [List.lookup]
  | cons p l ih =>
    obtain ⟨a, b⟩ := p
    rw [List.map_cons]
    by_cases h2 : a = k
    · subst h2
      rw [if_pos (by simp)]
      by_cases h : k' = a
      · subst h; simp [lookup_cons_eq]
      · rw [lookup_cons_ne _ _ _ _ h, lookup_cons_ne _ _ _ _ h, ih]
    · rw [if_neg (by simpa using h2)]
      by_cases h : k' = a
      · subst h; simp [lookup_cons_eq, h2]
      · rw [lookup_cons_ne _ _ _ _ h, lookup_cons_ne _ _ _ _ h, ih]

theorem lookup_of_mem {α : Type} (l : List (String × α)) (p : String × α) (hp : p ∈ l) :
    ∃ b, l.lookup p.1 = some b := by
  induction l with
  | nil => simp at hp
  | cons q l ih =>
    obtain ⟨a, b⟩ := q
    by_cases h : p.1 = a
    · rw [h]; exact ⟨b, lookup_cons_eq _ _ _⟩
    · rw [lookup_cons_ne _ _ _ _ h]
      rcases List.mem_cons.mp hp with h1 | h1
      · subst h1; exact absurd rfl h
      · exact ih h1

theorem getField_setField (d : Doc) (k : String) (v : JsVal) (k' : String) :
    getField (setField d k v) k' = if k' = k then v else getField d k' := by
  unfold setField getField
  by_cases hany : d.any (fun p => p.1 == k) = true
  · rw [if_pos hany]
    have hm : (d.map (fun p => if p.1 == k then (k, v) else p))
        = d.map (fun p => if p.1 == k then (p.1, (fun _ => v) p.2) else p) := by
      apply List.map_congr_left
      intro p _
      by_cases hp : p.1 = k
      · simp [hp]
      · simp [hp]
    rw [hm]
    have hl := lookup_map_entry d k (fun _ => v) k'
    simp only at hl
    rw [hl]
    by_cases hk : k' = k
    · subst hk
      obtain ⟨p, hp, hpk⟩ := List.any_eq_true.mp hany
      have hpk' : p.1 = k' := by simpa using hpk
      have : ∃ b, d.lookup k' = some b := hpk' ▸ lookup_of_mem d p hp
      obtain ⟨b, hb⟩ := this
      simp [hb]
    · simp [hk]
  · rw [if_neg hany, lookup_append_single]
    by_cases hk : k' = k
    · subst hk
      have hnone : d.lookup k' = none := by
        rw [List.lookup_eq_none_iff]
        intro p hp
        have := hany
        simp only [List.any_eq_true, not_exists, not_and] at this
        have h3 := this p hp
        simp only [bne_iff_ne, ne_eq]
        intro h4
        apply h3
        simp [h4]
      simp [hnone]
    · cases h : d.lookup k' <;> simp [hk]

theorem getDoc_of_path (c : Collection) (id : String) (h : documentPath id = some id) :
    getDoc c id = c.lookup id := by
  unfold getDoc
  rw [if_pos h]

theorem getDoc_some_path (c : Collection) (id : String) (d : Doc)
    (h : getDoc c id = some d) : documentPath id = some id := by
  unfold getDoc at h
  by_cases hp : documentPath id = some id
  · exact hp
  · rw [if_neg hp] at h
    exact absurd h (by simp)

theorem splitOn_segments_no_separator (x : Char) (text : List Char) :
    ∀ segment ∈ text.splitOn x, x ∉ segment := by
  induction text with
  | nil =>
    intro segment h
    simp [List.splitOn, List.splitOnP_nil] at h
    simp [h]
  | cons c rest ih =>
    intro segment h
    unfold List.splitOn at h ih
    rw [List.splitOnP_cons] at h
    by_cases hc : (c == x) = true
    · rw [if_pos hc] at h
      rcases List.mem_cons.mp h with h | h
      · simp [h]
      · exact ih segment h
    · rw [if_neg hc] at h
      cases hs : List.splitOnP (fun y => y == x) rest with
      | nil => rw [hs] at h; simp [List.modifyHead] at h
      | cons first others =>
        rw [hs] at h ih
        simp only [List.modifyHead] at h
        rcases List.mem_cons.mp h with h | h
        · rw [h]
          intro hmem
          rcases List.mem_cons.mp hmem with h1 | h1
          · exact hc (by simp [h1])
          · exact ih first (List.mem_cons_self _ _) h1
        · exact ih segment (List.mem_cons_of_mem _ h)

theorem hasDoubleSlash_append (a b : List Char) (ha : '/' ∉ a) :
    hasDoubleSlash (a ++ b) = hasDoubleSlash b := by
  induction a with
  | nil => rfl
  | cons x a' ih =>
    have hx : x ≠ '/' := fun h => ha (by simp [h])
    have ha' : '/' ∉ a' := fun h => ha (List.mem_cons_of_mem _ h)
    rw [← ih ha']
    cases hr : a' ++ b with
    | nil =>
      show hasDoubleSlash (x :: (a' ++ b)) = _
      rw [hr]
      rfl
    | cons y r =>
      show hasDoubleSlash (x :: (a' ++ b)) = _
      rw [hr]
      simp [hasDoubleSlash, hx]

theorem intercalate_segments (segments : List (List Char))
    (h : ∀ segment ∈ segments, segment ≠ [] ∧ '/' ∉ segment) :
    hasDoubleSlash (['/'].intercalate segments) = false ∧
    (segments ≠ [] → ∃ c rest, ['/'].intercalate segments = c :: rest ∧ c ≠ '/') := by
  induction segments with
  | nil => exact ⟨rfl, fun h => absurd rfl h⟩
  | cons first others ih =>
    obtain ⟨hne, hno⟩ := h first (List.mem_cons_self _ _)
    have hrest := ih (fun segment hs => h segment (List.mem_cons_of_mem _ hs))
    have hhead : ∃ c rest, first = c :: rest ∧ c ≠ '/' := by
      cases first with
      | nil => exact absurd rfl hne
      | cons c rest => exact ⟨c, rest, rfl, fun hc => hno (by simp [hc])⟩
    cases others with
    | nil =>
      have : ['/'].intercalate [first] = first := by
        simp [List.intercalate, List.intersperse]
      rw [this]
      refine ⟨?_, fun _ => hhead⟩
      have := hasDoubleSlash_append first [] hno
      simpa [hasDoubleSlash] using this
    | cons second more =>
      have hcat : ['/'].intercalate (first :: second :: more)
          = first ++ '/' :: ['/'].intercalate (second :: more) := by
        simp [List.intercalate, List.intersperse]
      rw [hcat]
      obtain ⟨c, rest, hc, hcne⟩ := hrest.2 (List.cons_ne_nil _ _)
      refine ⟨?_, ?_⟩
      · rw [hasDoubleSlash_append _ _ hno, hc]
        have : hasDoubleSlash ('/' :: c :: rest) = hasDoubleSlash (c :: rest) := by
          simp [hasDoubleSlash, hcne]
        rw [this, ← hc]
        exact hrest.1
      · intro _
        obtain ⟨c0, rest0, h0, h0ne⟩ := hhead
        exact ⟨c0, rest0 ++ '/' :: ['/'].intercalate (second :: more), by simp [h0], h0ne⟩

/-- The path that `documentPath` gives is in normal form: it names itself. -/
theorem documentPath_idem (s p : String) (h : documentPath s = some p) :
    documentPath p = some p := by
  unfold documentPath at h
  split at h
  · exact absurd h (by simp)
  · simp only at h
    split at h
    · rename_i hs hseg
      obtain ⟨hodd, hrefused⟩ := hseg
      have hp := (Option.some.inj h).symm
      have hall : ∀ segment ∈ (s.data.splitOn '/').filter (fun segment => !segment.isEmpty),
          segment ≠ [] ∧ '/' ∉ segment := by
        intro segment hmem
        obtain ⟨h1, h2⟩ := List.mem_filter.mp hmem
        exact ⟨by simpa using h2, splitOn_segments_no_separator '/' _ segment h1⟩
      have hne : (s.data.splitOn '/').filter (fun segment => !segment.isEmpty) ≠ [] := by
        intro h0
        rw [h0] at hodd
        simp at hodd
      obtain ⟨hds, hhd⟩ := intercalate_segments _ hall
      obtain ⟨c, rest, hc, -⟩ := hhd hne
      have hsplit : (['/'].intercalate
            ((s.data.splitOn '/').filter (fun segment => !segment.isEmpty))).splitOn '/'
          = (s.data.splitOn '/').filter (fun segment => !segment.isEmpty) :=
        List.splitOn_intercalate _ '/' (fun l hl => (hall l hl).2) hne
      have hfilter : ((s.data.splitOn '/').filter (fun segment => !segment.isEmpty)).filter
            (fun segment => !segment.isEmpty)
          = (s.data.splitOn '/').filter (fun segment => !segment.isEmpty) := by
        rw [List.filter_filter]
        simp
      rw [hp]
      unfold documentPath
      have hnotempty : ¬ ((String.mk (['/'].intercalate
            ((s.data.splitOn '/').filter (fun segment => !segment.isEmpty))) = "")
          ∨ hasDoubleSlash (String.mk (['/'].intercalate
            ((s.data.splitOn '/').filter (fun segment => !segment.isEmpty)))).data = true) := by
        rintro (h0 | h0)
        · have : (['/'].intercalate
              ((s.data.splitOn '/').filter (fun segment => !segment.isEmpty))) = [] := by
            have := congrArg String.data h0
            simpa using this
          rw [hc] at this
          exact absurd this (by simp)
        · simp only at h0
          rw [hds] at h0
          exact absurd h0 (by simp)
      rw [if_neg hnotempty]
      simp only
      rw [hsplit, hfilter, if_pos ⟨hodd, hrefused⟩]
    · exact absurd h (by simp)

/-- A handler that got a reference from `docPath` reads and writes the collection under that
path: the normal-form check of `getDoc` holds for every path `docPath` gives. -/
theorem getDoc_docPath (c : Collection) (v : JsVal) (path : String)
    (h : docPath v = some path) : getDoc c path = c.lookup path := by
  cases v with
  | str s => exact getDoc_of_path c path (documentPath_idem s path h)
  | _ => exact absurd h (by simp [docPath])

theorem getDoc_map_entry (c : Collection) (id : String) (f : Doc → Doc) (id' : String) :
    getDoc (c.map (fun p => if p.1 == id then (p.1, f p.2) else p)) id'
      = if id' = id then (getDoc c id').map f else getDoc c id' := by
  unfold getDoc
  by_cases hp : documentPath id' = some id'
  · simp only [hp, if_true]
    exact lookup_map_entry c id f id'
  · simp [hp]

theorem updateDoc_of_exists (c : Collection) (id : String) (u d : Doc)
    (hu : hasUndefined u = false) (h : getDoc c id = some d) :
    ∃ c', updateDoc c id u = some c' ∧ getDoc c' id = some (mergeDoc d u) ∧
      ∀ id', id' ≠ id → getDoc c' id' = getDoc c id' := by
  refine ⟨c.map (fun p => if p.1 == id then (p.1, mergeDoc p.2 u) else p), ?_, ?_, ?_⟩
  · simp [updateDoc, hu, h]
  · have := getDoc_map_entry c id (fun x => mergeDoc x u) id
    rw [this, if_pos rfl, h]; rfl
  · intro id' hne
    have := getDoc_map_entry c id (fun x => mergeDoc x u) id'
    rw [this, if_neg hne]

theorem setDoc_of_defined (c : Collection) (id : String) (d : Doc) (hu : hasUndefined d = false)
    (hid : documentPath id = some id) :
    ∃ c', setDoc c id d = some c' ∧ getDoc c' id = some d ∧
      ∀ id', id' ≠ id → getDoc c' id' = getDoc c id' := by
  cases h : getDoc c id with
  | none =>
    refine ⟨c ++ [(id, d)], by simp [setDoc, hu, h, hid], ?_, ?_⟩
    · rw [getDoc_of_path _ _ hid] at h ⊢
      rw [lookup_append_single, h]; simp
    · intro id' hne
      unfold getDoc
      rw [lookup_append_single]
      cases List.lookup id' c <;> simp [hne]
  | some d0 =>
    refine ⟨c.map (fun p => if p.1 == id then (p.1, d) else p),
      by simp [setDoc, hu, h, hid], ?_, ?_⟩
    · have := getDoc_map_entry c id (fun _ => d) id
      rw [this, if_pos rfl, h]; rfl
    · intro id' hne
      have := getDoc_map_entry c id (fun _ => d) id'
      rw [this, if_neg hne]

theorem mergeDoc_three (d : Doc) (a b c : String × JsVal) :
    mergeDoc d [a, b, c] = setField (setField (setField d a.1 a.2) b.1 b.2) c.1 c.2 := rfl

theorem mergeDoc_four (d : Doc) (a b c e : String × JsVal) :
    mergeDoc d [a, b, c, e]
      = setField (setField (setField (setField d a.1 a.2) b.1 b.2) c.1 c.2) e.1 e.2 := rfl

theorem updateDoc_some (c c' : Collection) (id : String) (u : Doc)
    (h : updateDoc c id u = some c') :
    ∃ d, getDoc c id = some d ∧ getDoc c' id = some (mergeDoc d u) ∧
      ∀ id', id' ≠ id → getDoc c' id' = getDoc c id' := by
  unfold updateDoc at h
  by_cases hu : hasUndefined u = true
  · simp [hu] at h
  · have hu' : hasUndefined u = false := by simpa using hu
    cases hd : getDoc c id with
    | none => simp [hu', hd] at h
    | some d =>
      obtain ⟨c2, hc2, hget, hframe⟩ := updateDoc_of_exists c id u d hu' hd
      have : c2 = c' := by
        have h' : updateDoc c id u = some c' := by simpa [updateDoc, hu', hd] using h
        rw [hc2] at h'
        exact Option.some.inj h'
      subst this
      exact ⟨d, rfl, hget, hframe⟩

theorem setDoc_some (c c' : Collection) (id : String) (d : Doc) (h : setDoc c id d = some c') :
    getDoc c' id = some d ∧ ∀ id', id' ≠ id → getDoc c' id' = getDoc c id' := by
  by_cases hu : hasUndefined d = true
  · simp [setDoc, hu] at h
  · have hu' : hasUndefined d = false := by simpa using hu
    have hid : documentPath id = some id := by
      by_cases hp : documentPath id = some id
      · exact hp
      · simp [setDoc, hu', hp] at h
    obtain ⟨c2, hc2, hget, hframe⟩ := setDoc_of_defined c id d hu' hid
    rw [hc2] at h
    have : c2 = c' := Option.some.inj h
    subst this
    exact ⟨hget, hframe⟩

theorem getField_cons (k : String) (v : JsVal) (rest : Doc) (k' : String) :
    getField ((k, v) :: rest) k' = if k' = k then v else getField rest k' := by
  by_cases h : k' = k
  · subst h; simp [getField, List.lookup]
  · have hb : (k' == k) = false := by simpa using h
    simp [getField, List.lookup, hb, h]

theorem docPath_some (v : JsVal) (s : String) (h : docPath v = some s) :
    ∃ raw, v = JsVal.str raw ∧ documentPath raw = some s := by
  cases v with
  | str raw => exact ⟨raw, rfl, h⟩
  | undefined => simp [docPath] at h
  | null => simp [docPath] at h
  | bool b => simp [docPath] at h
  | num n => simp [docPath] at h
  | date t => simp [docPath] at h
  | flags m => simp [docPath] at h

theorem docPath_of_path (s : String) (h : documentPath s = some s) :
    docPath (JsVal.str s) = some s := h

theorem truthy_of_path (s : String) (h : documentPath s = some s) :
    (JsVal.str s).truthy = true := by
  have hne : s ≠ "" := by
    intro e
    subst e
    exact absurd h (by decide)
  exact truthy_str s hne

theorem updateDoc_eq_map (c c' : Collection) (id : String) (u : Doc)
    (h : updateDoc c id u = some c') :
    c' = c.map (fun p => if p.1 == id then (p.1, mergeDoc p.2 u) else p) := by
  unfold updateDoc at h
  split at h
  · exact absurd h (by simp)
  · split at h
    · exact absurd h (by simp)
    · exact (Option.some.inj h).symm

theorem addDoc_eq_append (c c' : Collection) (id : String) (d : Doc)
    (h : addDoc c id d = some c') : c' = c ++ [(id, d)] := by
  unfold addDoc at h
  split at h
  · exact absurd h (by simp)
  · exact (Option.some.inj h).symm

/-! ## The assignment workflow -/

/-- The create handler keeps vehicle status and active assignments in agreement, when the
vehicle id of the request is a document path in normal form. -/
theorem createVehicleAssignment_preserves_statusMatchesAssignments (ctx : Ctx) (newId : String)
    (body : Doc) (w : Backend) (h : statusMatchesAssignments w)
    (hnorm : ∀ s, docPath (getField body "vehicleId") = some s →
      getField body "vehicleId" = JsVal.str s) :
    statusMatchesAssignments (createVehicleAssignment ctx newId body w).2 := by
  unfold createVehicleAssignment
  simp only
  split
  · exact h
  · split
    · exact h
    · rename_i vid hvid
      have hvstr := hnorm _ hvid
      split
      · exact h
      · rename_i vehicleData hvdoc
        split
        · exact h
        · rename_i havail
          split
          · exact h
          · split
            · exact h
            · split
              · exact h
              · rename_i assignments1 hadd
                have ha := addDoc_eq_append _ _ _ _ hadd
                have hu : hasUndefined [("status", JsVal.str "assigned"),
                    ("updatedAt", JsVal.date ctx.now), ("updatedBy", JsVal.str ctx.uid)]
                    = false := by simp [hasUndefined]
                obtain ⟨c', hc', -, -⟩ := updateDoc_of_exists w.vehicles vid _ vehicleData hu hvdoc
                simp only [hc']
                have hmap := updateDoc_eq_map _ _ _ _ hc'
                intro v' hv'
                simp only at hv' ⊢
                rw [hmap] at hv'
                obtain ⟨v, hv, rfl⟩ := List.mem_map.mp hv'
                obtain ⟨d, hd1, hd2, ha'⟩ : ∃ d, getField d "vehicleId" = JsVal.str vid ∧
                    getField d "status" = JsVal.str "active" ∧
                    assignments1 = w.vehicleAssignments ++ [(newId, d)] :=
                  ⟨_, by simp [getField_cons, hvstr], by simp [getField_cons], ha⟩
                have hact1 : ∀ x : String, x ≠ vid →
                    activeAssignmentsOf
                      { w with vehicleAssignments := assignments1, vehicles := c' } x
                    = activeAssignmentsOf w x := by
                  intro x hx
                  have hne : (JsVal.str vid == JsVal.str x) = false := by
                    simp [Ne.symm hx]
                  simp [activeAssignmentsOf, ha', List.filter_append, List.filter, hd1, hd2,
                    hne]
                have hact2 : activeAssignmentsOf
                    { w with vehicleAssignments := assignments1, vehicles := c' } vid ≠ [] := by
                  simp [activeAssignmentsOf, ha', List.filter_append, List.filter, hd1, hd2]
                by_cases hvid' : v.1 = vid
                · have hb : (v.1 == vid) = true := by simp [hvid']
                  simp only [hb, if_true]
                  rw [hvid']
                  simp [hact2, mergeDoc_three, getField_setField]
                · have hb : (v.1 == vid) = false := by simp [hvid']
                  simp only [hb, Bool.false_eq_true, if_false]
                  rw [hact1 _ hvid']
                  exact h v hv


/-- C1. The status handler breaks the agreement between vehicle status and active
assignments: in a state where the agreement holds (vehicle `V1` available, its assignment `A1`
completed), setting `A1` back to `active` succeeds and leaves `V1` available although an
active assignment now references it. -/
theorem reactivation_breaks_statusMatchesAssignments :
    statusMatchesAssignments afterCompletion ∧
    (changeAssignmentStatus adminCtx "A1" [("status", JsVal.str "active")] afterCompletion).1.status
      = 200 ∧
    ¬ statusMatchesAssignments
        (changeAssignmentStatus adminCtx "A1" [("status", JsVal.str "active")] afterCompletion).2 := by
  decide

/-- C2. A create-vehicle-assignment request with its three required fields present, whose
vehicle exists with a status other than `available` (or with no status), is answered by the
400 error "Vehicle is not available for assignment" and changes nothing: no assignment is
added and the vehicle document is as before. -/
theorem create_unavailable_vehicle_rejected (ctx : Ctx) (newId : String) (body : Doc)
    (w : Backend) (vid : String) (vehicleData : Doc)
    (hv : getField body "vehicleId" = JsVal.str vid)
    (hvp : (getField body "vehicleId").truthy = true)
    (ha : (getField body "assignedTo").truthy = true)
    (ht : (getField body "assignmentType").truthy = true)
    (hdoc : getDoc w.vehicles vid = some vehicleData)
    (hs : getField vehicleData "status" ≠ JsVal.str "available") :
    (createVehicleAssignment ctx newId body w).1
        = failure 400 "Vehicle is not available for assignment" ∧
    (createVehicleAssignment ctx newId body w).2.vehicleAssignments = w.vehicleAssignments ∧
    getDoc (createVehicleAssignment ctx newId body w).2.vehicles vid = some vehicleData ∧
    (createVehicleAssignment ctx newId body w).2 = w := by
  have hne : vid ≠ "" := str_ne_empty_of_truthy vid (hv ▸ hvp)
  have hpath : documentPath vid = some vid := getDoc_some_path _ _ _ hdoc
  have h : createVehicleAssignment ctx newId body w
      = (failure 400 "Vehicle is not available for assignment", w) := by
    simp [createVehicleAssignment, hv, ha, ht, truthy_str vid hne, docPath, hpath, hdoc, hs]
  simp [h, hdoc]

/-- Witness of C2 (Scenario B): assigning `V1` while it is under maintenance. -/
theorem create_unavailable_vehicle_rejected_witness :
    (createVehicleAssignment adminCtx "A1" assignV1 maintenanceFleet).1
        = failure 400 "Vehicle is not available for assignment" ∧
    (createVehicleAssignment adminCtx "A1" assignV1 maintenanceFleet).2.vehicleAssignments
        = maintenanceFleet.vehicleAssignments ∧
    getDoc (createVehicleAssignment adminCtx "A1" assignV1 maintenanceFleet).2.vehicles "V1"
        = some [("registrationNumber", JsVal.str "MH12AB1234"),
                ("status", JsVal.str "maintenance")] ∧
    (createVehicleAssignment adminCtx "A1" assignV1 maintenanceFleet).2 = maintenanceFleet :=
  create_unavailable_vehicle_rejected adminCtx "A1" assignV1 maintenanceFleet "V1"
    [("registrationNumber", JsVal.str "MH12AB1234"), ("status", JsVal.str "maintenance")]
    (by decide) (by decide) (by decide) (by decide) (by decide) (by decide)

/-- C3, as stated, fails: the requested status `active` is accepted. On the completed
assignment `A1` the call answers 200, not the invalid-status error, and rewrites `A1`. -/
theorem status_active_is_accepted :
    (changeAssignmentStatus adminCtx "A1" [("status", JsVal.str "active")] afterCompletion).1
      ≠ failure 400 "Invalid status" ∧
    (changeAssignmentStatus adminCtx "A1" [("status", JsVal.str "active")] afterCompletion).1.status
      = 200 ∧
    getDoc (changeAssignmentStatus adminCtx "A1" [("status", JsVal.str "active")]
        afterCompletion).2.vehicleAssignments "A1"
      ≠ getDoc afterCompletion.vehicleAssignments "A1" := by
  decide

/-- C3, amended. For every assignment id and every requested status that is none of `active`,
`completed`, `cancelled` (a missing status included), the status handler answers with the 400
error "Invalid status" and leaves the whole backend state, hence the assignment and every
vehicle document, unchanged. -/
theorem invalid_status_rejected (ctx : Ctx) (id : String) (body : Doc) (w : Backend)
    (h1 : getField body "status" ≠ JsVal.str "active")
    (h2 : getField body "status" ≠ JsVal.str "completed")
    (h3 : getField body "status" ≠ JsVal.str "cancelled") :
    (changeAssignmentStatus ctx id body w).1 = failure 400 "Invalid status" ∧
    (changeAssignmentStatus ctx id body w).2 = w := by
  rw [changeAssignmentStatus_invalid ctx id body w (not_valid_of_ne _ h1 h2 h3)]
  exact ⟨rfl, rfl⟩

/-- Witness of C3 amended: a request without a status. -/
theorem invalid_status_rejected_witness :
    (changeAssignmentStatus adminCtx "A1" [] afterCompletion).1 = failure 400 "Invalid status" ∧
    (changeAssignmentStatus adminCtx "A1" [] afterCompletion).2 = afterCompletion :=
  invalid_status_rejected adminCtx "A1" [] afterCompletion (by decide) (by decide) (by decide)

/-- C4, as stated, fails: `completed` is not terminal. On the completed assignment `A1`,
whose vehicle `V1` is meanwhile held by the active assignment `A2`, each of the three statuses
of `validStatuses` is accepted with answer 200: `active` makes `A1` active again, `completed`
stamps `completedAt` anew, and `cancelled` turns `A1` into `cancelled` with `cancelledAt`
stamped and sets `V1` from `assigned` to `available`. -/
theorem terminal_assignment_accepts_valid_statuses :
    (getDoc reassignedFleet.vehicleAssignments "A1").map
        (fun d => (getField d "status", getField d "completedAt", getField d "cancelledAt"))
      = some (JsVal.str "completed", JsVal.date 900, JsVal.undefined) ∧
    (getDoc reassignedFleet.vehicles "V1").map (fun d => getField d "status")
      = some (JsVal.str "assigned") ∧
    (changeAssignmentStatus adminCtx "A1" [("status", JsVal.str "active")]
        reassignedFleet).1.status = 200 ∧
    (getDoc (changeAssignmentStatus adminCtx "A1" [("status", JsVal.str "active")]
        reassignedFleet).2.vehicleAssignments "A1").map (fun d => getField d "status")
      = some (JsVal.str "active") ∧
    (changeAssignmentStatus adminCtx "A1" [("status", JsVal.str "completed")]
        reassignedFleet).1.status = 200 ∧
    (getDoc (changeAssignmentStatus adminCtx "A1" [("status", JsVal.str "completed")]
        reassignedFleet).2.vehicleAssignments "A1").map (fun d => getField d "completedAt")
      = some (JsVal.date 1000) ∧
    (changeAssignmentStatus adminCtx "A1" [("status", JsVal.str "cancelled")]
        reassignedFleet).1.status = 200 ∧
    (getDoc (changeAssignmentStatus adminCtx "A1" [("status", JsVal.str "cancelled")]
        reassignedFleet).2.vehicleAssignments "A1").map
        (fun d => (getField d "status", getField d "completedAt", getField d "cancelledAt"))
      = some (JsVal.str "cancelled", JsVal.date 900, JsVal.date 1000) ∧
    (getDoc (changeAssignmentStatus adminCtx "A1" [("status", JsVal.str "cancelled")]
        reassignedFleet).2.vehicles "V1").map (fun d => getField d "status")
      = some (JsVal.str "available") := by
  decide

/-- C4, amended. For every vehicle assignment whose status is `completed` or `cancelled` and
every requested status that is none of `active`, `completed`, `cancelled`, the status handler
fails with the 400 error "Invalid status", the assignment document is unchanged and so still
in its terminal status, and all vehicle documents are unchanged. -/
theorem terminal_assignment_invalid_status (ctx : Ctx) (id : String) (body : Doc) (w : Backend)
    (a : Doc) (ha : getDoc w.vehicleAssignments id = some a)
    (hterm : getField a "status" = JsVal.str "completed" ∨
             getField a "status" = JsVal.str "cancelled")
    (h1 : getField body "status" ≠ JsVal.str "active")
    (h2 : getField body "status" ≠ JsVal.str "completed")
    (h3 : getField body "status" ≠ JsVal.str "cancelled") :
    (changeAssignmentStatus ctx id body w).1 = failure 400 "Invalid status" ∧
    (∃ a', getDoc (changeAssignmentStatus ctx id body w).2.vehicleAssignments id = some a' ∧
      a' = a ∧
      (getField a' "status" = JsVal.str "completed" ∨
       getField a' "status" = JsVal.str "cancelled")) ∧
    (changeAssignmentStatus ctx id body w).2.vehicles = w.vehicles := by
  rw [changeAssignmentStatus_invalid ctx id body w (not_valid_of_ne _ h1 h2 h3)]
  exact ⟨rfl, ⟨a, ha, rfl, hterm⟩, rfl⟩

/-- Witness of C4 amended: the unknown status `paused` requested on the completed `A1`. -/
theorem terminal_assignment_invalid_status_witness :
    (changeAssignmentStatus adminCtx "A1" [("status", JsVal.str "paused")] reassignedFleet).1
      = failure 400 "Invalid status" ∧
    (∃ a', getDoc (changeAssignmentStatus adminCtx "A1" [("status", JsVal.str "paused")]
        reassignedFleet).2.vehicleAssignments "A1" = some a' ∧
      a' = [("vehicleId", JsVal.str "V1"), ("assignedTo", JsVal.str "U1"),
            ("status", JsVal.str "completed"), ("completedAt", JsVal.date 900)] ∧
      (getField a' "status" = JsVal.str "completed" ∨
       getField a' "status" = JsVal.str "cancelled")) ∧
    (changeAssignmentStatus adminCtx "A1" [("status", JsVal.str "paused")]
        reassignedFleet).2.vehicles = reassignedFleet.vehicles :=
  terminal_assignment_invalid_status adminCtx "A1" [("status", JsVal.str "paused")]
    reassignedFleet _ (by decide) (Or.inl (by decide)) (by decide) (by decide) (by decide)

/-- C5. A reachable state with two active assignments of one vehicle: starting without
assignments, assign `V1` (`A1`), complete `A1`, assign `V1` again (`A2`), then set `A1` back
to `active`; every call succeeds and both `A1` and `A2` are then active on `V1`. -/
theorem reachable_double_booking :
    Reachable doubleBooking ∧
    (activeAssignmentsOf doubleBooking "V1").map (fun a => a.1) = ["A1", "A2"] ∧
    ¬ atMostOneActive doubleBooking := by
  refine ⟨?_, by decide, ?_⟩
  · unfold doubleBooking
    apply Reachable.changeStatus
    apply Reachable.create
    · apply Reachable.changeStatus
      apply Reachable.create
      · exact Reachable.init _ rfl
      · decide
    · decide
  · intro h
    have h2 := h "V1"
    revert h2
    decide

/-! ## The approval workflow and role updates -/

/-- An approval is refused by the identity provider, and nothing is written, when the
request's e-mail address is already registered. -/
theorem approveRequest_refused_of_registered_email (ctx : Ctx) (newUid : String) (id : String)
    (body : Doc) (w : Backend) (request : Doc)
    (hex : getDoc w.approvalRequests id = some request)
    (happroved : (getField body "approved").truthy = true)
    (hreg : emailRegistered w.accounts (getField request "email") = true) :
    approveRequest ctx newUid id body w
      = (failure 500 "Failed to process approval request", w) := by
  have hp : docPath (JsVal.str id) = some id := getDoc_some_path _ _ _ hex
  simp [approveRequest, hp, hex, happroved, createUser, hreg]

/-- After a successful approval of a request whose e-mail is a string, a further approval of
the same request is refused by the identity provider and changes nothing: two approvals in a
row provision one account and one user. -/
theorem approveRequest_again_refused (ctx ctx2 : Ctx) (newUid newUid2 : String) (id : String)
    (body body2 : Doc) (w : Backend) (request : Doc) (e : String)
    (hex : getDoc w.approvalRequests id = some request)
    (hemail : getField request "email" = JsVal.str e)
    (happroved : (getField body "approved").truthy = true)
    (happroved2 : (getField body2 "approved").truthy = true)
    (hok : (approveRequest ctx newUid id body w).1.status = 200) :
    approveRequest ctx2 newUid2 id body2 (approveRequest ctx newUid id body w).2
      = (failure 500 "Failed to process approval request",
         (approveRequest ctx newUid id body w).2) := by
  have key : ∃ request', getDoc (approveRequest ctx newUid id body w).2.approvalRequests id
        = some request' ∧ getField request' "email" = JsVal.str e ∧
      emailRegistered (approveRequest ctx newUid id body w).2.accounts (JsVal.str e) = true := by
    have hp : docPath (JsVal.str id) = some id := getDoc_some_path _ _ _ hex
    unfold approveRequest at hok ⊢
    simp only [hp, hex, happroved, if_true] at hok ⊢
    cases hcu : createUser w.accounts newUid (getField request "email")
        (getField request "password") (getField request "fullName") with
    | none => simp [hcu, failure] at hok
    | some accounts1 =>
      have hacc : accounts1 = w.accounts ++ [Account.mk newUid (getField request "email")
          (getField request "password") (getField request "fullName") false] := by
        unfold createUser at hcu
        split at hcu
        · exact absurd hcu (by simp)
        · exact (Option.some.inj hcu).symm
      simp only [hcu] at hok ⊢
      cases hset : setDoc w.users newUid
          [("uid", JsVal.str newUid), ("fullName", getField request "fullName"),
           ("email", getField request "email"), ("phone", getField request "phone"),
           ("role", getField request "role"), ("isActive", JsVal.bool true),
           ("createdAt", JsVal.date ctx.now), ("approvedAt", JsVal.date ctx.now),
           ("approvedBy", JsVal.str ctx.uid),
           ("permissions", JsVal.flags (getRolePermissions (getField request "role")))] with
      | none => simp [hset, failure] at hok
      | some users2 =>
        simp only [hset] at hok ⊢
        cases hupd : updateDoc w.approvalRequests id
            [("status", JsVal.str "approved"), ("approvedAt", JsVal.date ctx.now),
             ("approvedBy", JsVal.str ctx.uid)] with
        | none => simp [hupd, failure] at hok
        | some requests3 =>
          obtain ⟨d, hd, hreq, -⟩ := updateDoc_some _ _ _ _ hupd
          have hdr : d = request := Option.some.inj (hd.symm.trans hex)
          subst hdr
          simp only [hupd]
          refine ⟨_, hreq, ?_, ?_⟩
          · simp [mergeDoc_three, getField_setField, hemail]
          · simp [emailRegistered, hacc, hemail]
  obtain ⟨request', hget, hemail', hreg⟩ := key
  exact approveRequest_refused_of_registered_email ctx2 newUid2 id body2 _ request' hget
    happroved2 (hemail'.symm ▸ hreg)


/-- C6. For an existing user document, whatever its role and permissions, and a role `r` of
`USER_ROLES`, the role update succeeds, after it the user has role `r` and its `permissions`
field is exactly `getRolePermissions r` (the old map is replaced, not merged), and the fields
other than `role`, `permissions`, `updatedAt`, `updatedBy` are as before. -/
theorem updateRole_sets_role_and_permissions (ctx : Ctx) (id : String) (body : Doc) (w : Backend)
    (userDoc : Doc) (r : JsVal)
    (hex : getDoc w.users id = some userDoc)
    (hr : r ∈ USER_ROLES) (hbody : getField body "role" = r) :
    (updateRole ctx id body w).1.status = 200 ∧
    ∃ d, getDoc (updateRole ctx id body w).2.users id = some d ∧
      getField d "role" = r ∧
      getField d "permissions" = JsVal.flags (getRolePermissions r) ∧
      (∀ k, k ∉ ["role", "permissions", "updatedAt", "updatedBy"] →
        getField d k = getField userDoc k) := by
  have hundef : r ≠ JsVal.undefined := by
    intro h; subst h; revert hr; decide
  have hu : hasUndefined [("role", r), ("permissions", JsVal.flags (getRolePermissions r)),
      ("updatedAt", JsVal.date ctx.now), ("updatedBy", JsVal.str ctx.uid)] = false := by
    simp [hasUndefined, hundef]
  obtain ⟨c', hc, hget, -⟩ := updateDoc_of_exists w.users id _ userDoc hu hex
  have hrun : updateRole ctx id body w =
      ({ status := 200, success := true, message := "User role updated successfully", data := [] },
       { w with users := c' }) := by
    have hp : docPath (JsVal.str id) = some id := getDoc_some_path _ _ _ hex
    simp [updateRole, hbody, hr, hp, hc]
  rw [hrun]
  refine ⟨rfl, _, hget, ?_, ?_, ?_⟩
  · simp [mergeDoc_four, getField_setField]
  · simp [mergeDoc_four, getField_setField]
  · intro k hk
    simp only [List.mem_cons, List.mem_singleton, not_or, List.mem_nil_iff, or_false] at hk
    simp [mergeDoc_four, getField_setField, hk]

/-- Witness of C6: the administrator `U2` is made a driver; the nine administrator
permissions are replaced by the three driver permissions. -/
theorem updateRole_sets_role_and_permissions_witness :
    (updateRole adminCtx "U2" [("role", JsVal.str "driver")] office).1.status = 200 ∧
    ∃ d, getDoc (updateRole adminCtx "U2" [("role", JsVal.str "driver")] office).2.users "U2"
        = some d ∧
      getField d "role" = JsVal.str "driver" ∧
      getField d "permissions"
        = JsVal.flags [("canSubmitReports", true), ("canViewAssignedRoutes", true),
                       ("canUpdateStatus", true)] ∧
      (∀ k, k ∉ ["role", "permissions", "updatedAt", "updatedBy"] →
        getField d k = getField
          [("uid", JsVal.str "U2"), ("email", JsVal.str "meera@example.org"),
           ("role", JsVal.str "admin"), ("isActive", JsVal.bool true),
           ("permissions", JsVal.flags (getRolePermissions (JsVal.str "admin")))] k) :=
  updateRole_sets_role_and_permissions adminCtx "U2" [("role", JsVal.str "driver")] office
    _ (JsVal.str "driver") (by decide) (by decide) (by decide)

/-- C7. The approval handler does not look at the status of the request: approving the
already rejected request `R2` succeeds, creates an identity-provider account and the User
document `U3`, and turns the request into `approved`. -/
theorem approve_of_rejected_request_provisions :
    (getDoc office.approvalRequests "R2").map (fun d => getField d "status")
      = some (JsVal.str "rejected") ∧
    (approveRequest adminCtx "U3" "R2" approveBody office).1.status = 200 ∧
    (approveRequest adminCtx "U3" "R2" approveBody office).2.accounts
      = office.accounts ++ [{ uid := "U3", email := JsVal.str "sunil@example.org",
                              password := JsVal.str "pa55word",
                              displayName := JsVal.str "Sunil Rao", disabled := false }] ∧
    getDoc office.users "U3" = none ∧
    (getDoc (approveRequest adminCtx "U3" "R2" approveBody office).2.users "U3").map
        (fun d => getField d "role") = some (JsVal.str "swachh_hr") ∧
    (getDoc (approveRequest adminCtx "U3" "R2" approveBody office).2.approvalRequests "R2").map
        (fun d => getField d "status") = some (JsVal.str "approved") := by
  decide

/-- C8. When the approval of a pending request succeeds, the identity provider holds exactly
one more account, made of the request's e-mail, password and full name; the users collection
holds, under the new uid, a document with the request's role, `isActive = true` and
permissions `getRolePermissions` of that role, every other user document being as before; and
the request has status `approved` with the caller as `approvedBy`. -/
theorem approve_provisions_account_and_user (ctx : Ctx) (newUid : String) (id : String)
    (body : Doc) (w : Backend) (request : Doc)
    (hex : getDoc w.approvalRequests id = some request)
    (_hpending : getField request "status" = JsVal.str "pending")
    (happroved : (getField body "approved").truthy = true)
    (hok : (approveRequest ctx newUid id body w).1.status = 200) :
    (approveRequest ctx newUid id body w).2.accounts
      = w.accounts ++ [{ uid := newUid, email := getField request "email",
                         password := getField request "password",
                         displayName := getField request "fullName", disabled := false }] ∧
    (∃ user, getDoc (approveRequest ctx newUid id body w).2.users newUid = some user ∧
      getField user "uid" = JsVal.str newUid ∧
      getField user "role" = getField request "role" ∧
      getField user "isActive" = JsVal.bool true ∧
      getField user "permissions"
        = JsVal.flags (getRolePermissions (getField request "role"))) ∧
    (∀ id', id' ≠ newUid →
      getDoc (approveRequest ctx newUid id body w).2.users id' = getDoc w.users id') ∧
    (∃ request', getDoc (approveRequest ctx newUid id body w).2.approvalRequests id
        = some request' ∧
      getField request' "status" = JsVal.str "approved" ∧
      getField request' "approvedBy" = JsVal.str ctx.uid) := by
  have hp : docPath (JsVal.str id) = some id := getDoc_some_path _ _ _ hex
  unfold approveRequest at hok ⊢
  simp only [hp, hex, happroved, if_true] at hok ⊢
  cases hcu : createUser w.accounts newUid (getField request "email")
      (getField request "password") (getField request "fullName") with
  | none => simp [hcu, failure] at hok
  | some accounts1 =>
    have hacc : accounts1 = w.accounts ++ [Account.mk newUid (getField request "email")
        (getField request "password") (getField request "fullName") false] := by
      unfold createUser at hcu
      split at hcu
      · exact absurd hcu (by simp)
      · exact (Option.some.inj hcu).symm
    simp only [hcu] at hok ⊢
    cases hset : setDoc w.users newUid
        [("uid", JsVal.str newUid), ("fullName", getField request "fullName"),
         ("email", getField request "email"), ("phone", getField request "phone"),
         ("role", getField request "role"), ("isActive", JsVal.bool true),
         ("createdAt", JsVal.date ctx.now), ("approvedAt", JsVal.date ctx.now),
         ("approvedBy", JsVal.str ctx.uid),
         ("permissions", JsVal.flags (getRolePermissions (getField request "role")))] with
    | none => simp [hset, failure] at hok
    | some users2 =>
      obtain ⟨huser, hframe⟩ := setDoc_some _ _ _ _ hset
      simp only [hset] at hok ⊢
      cases hupd : updateDoc w.approvalRequests id
          [("status", JsVal.str "approved"), ("approvedAt", JsVal.date ctx.now),
           ("approvedBy", JsVal.str ctx.uid)] with
      | none => simp [hupd, failure] at hok
      | some requests3 =>
        obtain ⟨d, hd, hreq, -⟩ := updateDoc_some _ _ _ _ hupd
        simp only [hupd]
        refine ⟨hacc, ⟨_, huser, ?_, ?_, ?_, ?_⟩, hframe, ⟨_, hreq, ?_, ?_⟩⟩
        · simp [getField, List.lookup]
        · simp [getField, List.lookup]
        · simp [getField, List.lookup]
        · simp [getField, List.lookup]
        · simp [mergeDoc_three, getField_setField]
        · simp [mergeDoc_three, getField_setField]

/-- Witness of C8 (Scenario C): approving the pending driver request `R1` succeeds and gives
the new user `U3` exactly the three driver permissions. -/
theorem approve_provisions_account_and_user_witness :
    (approveRequest adminCtx "U3" "R1" approveBody office).2.accounts
      = office.accounts ++ [{ uid := "U3", email := JsVal.str "ravi@example.org",
                              password := JsVal.str "s3cret-pw",
                              displayName := JsVal.str "Ravi Kumar", disabled := false }] ∧
    (∃ user, getDoc (approveRequest adminCtx "U3" "R1" approveBody office).2.users "U3"
        = some user ∧
      getField user "uid" = JsVal.str "U3" ∧
      getField user "role" = JsVal.str "driver" ∧
      getField user "isActive" = JsVal.bool true ∧
      getField user "permissions"
        = JsVal.flags [("canSubmitReports", true), ("canViewAssignedRoutes", true),
                       ("canUpdateStatus", true)]) ∧
    (∀ id', id' ≠ "U3" →
      getDoc (approveRequest adminCtx "U3" "R1" approveBody office).2.users id'
        = getDoc office.users id') ∧
    (∃ request', getDoc (approveRequest adminCtx "U3" "R1" approveBody office).2.approvalRequests
        "R1" = some request' ∧
      getField request' "status" = JsVal.str "approved" ∧
      getField request' "approvedBy" = JsVal.str "temp-admin-123") :=
  approve_provisions_account_and_user adminCtx "U3" "R1" approveBody office
    [("fullName", JsVal.str "Ravi Kumar"), ("email", JsVal.str "ravi@example.org"),
     ("password", JsVal.str "s3cret-pw"), ("phone", JsVal.str "9800000001"),
     ("role", JsVal.str "driver"), ("status", JsVal.str "pending")]
    (by decide) (by decide) (by decide) (by decide)

/-- C9. For an existing approval request and a falsy `approved` flag, the handler answers 200
"User request rejected", gives the request status `rejected` with the caller as `rejectedBy`
and the call time as `rejectedAt`, and leaves the users collection and the accounts of the
identity provider as they were. -/
theorem reject_marks_request_only (ctx : Ctx) (newUid : String) (id : String) (body : Doc)
    (w : Backend) (request : Doc)
    (hex : getDoc w.approvalRequests id = some request)
    (hfalsy : (getField body "approved").truthy = false) :
    (approveRequest ctx newUid id body w).1
      = { status := 200, success := true, message := "User request rejected", data := [] } ∧
    (approveRequest ctx newUid id body w).2.users = w.users ∧
    (approveRequest ctx newUid id body w).2.accounts = w.accounts ∧
    ∃ request', getDoc (approveRequest ctx newUid id body w).2.approvalRequests id = some request' ∧
      getField request' "status" = JsVal.str "rejected" ∧
      getField request' "rejectedBy" = JsVal.str ctx.uid ∧
      getField request' "rejectedAt" = JsVal.date ctx.now := by
  have hu : hasUndefined [("status", JsVal.str "rejected"), ("rejectedAt", JsVal.date ctx.now),
      ("rejectedBy", JsVal.str ctx.uid)] = false := by
    simp [hasUndefined]
  obtain ⟨c', hc, hget, -⟩ := updateDoc_of_exists w.approvalRequests id _ request hu hex
  have hrun : approveRequest ctx newUid id body w =
      ({ status := 200, success := true, message := "User request rejected", data := [] },
       { w with approvalRequests := c' }) := by
    have hp : docPath (JsVal.str id) = some id := getDoc_some_path _ _ _ hex
    simp [approveRequest, hp, hex, hfalsy, hc]
  rw [hrun]
  refine ⟨rfl, rfl, rfl, _, hget, ?_, ?_, ?_⟩ <;>
    simp [mergeDoc_three, getField_setField]

/-- Witness of C9: rejecting the pending request `R1`. -/
theorem reject_marks_request_only_witness :
    (approveRequest adminCtx "U3" "R1" rejectBody office).1
      = { status := 200, success := true, message := "User request rejected", data := [] } ∧
    (approveRequest adminCtx "U3" "R1" rejectBody office).2.users = office.users ∧
    (approveRequest adminCtx "U3" "R1" rejectBody office).2.accounts = office.accounts ∧
    ∃ request', getDoc (approveRequest adminCtx "U3" "R1" rejectBody office).2.approvalRequests
        "R1" = some request' ∧
      getField request' "status" = JsVal.str "rejected" ∧
      getField request' "rejectedBy" = JsVal.str "temp-admin-123" ∧
      getField request' "rejectedAt" = JsVal.date 1000 :=
  reject_marks_request_only adminCtx "U3" "R1" rejectBody office
    [("fullName", JsVal.str "Ravi Kumar"), ("email", JsVal.str "ravi@example.org"),
     ("password", JsVal.str "s3cret-pw"), ("phone", JsVal.str "9800000001"),
     ("role", JsVal.str "driver"), ("status", JsVal.str "pending")]
    (by decide) (by decide)

/-- C10. The permission table: `getRolePermissions` gives the nine administrator keys for
`admin`, the five contractor keys for `transport_contractor`, the four keys for `swachh_hr`,
and the three driver keys for `driver` and for every other value, each key with value `true`
and no other key. -/
theorem getRolePermissions_table :
    getRolePermissions (JsVal.str "admin")
      = [("canManageUsers", true), ("canViewAllReports", true), ("canAssignTasks", true),
         ("canGenerateReports", true), ("canManageSystem", true), ("canApproveRequests", true),
         ("canManageFeederPoints", true), ("canManageVehicles", true),
         ("canManageAssignments", true)] ∧
    getRolePermissions (JsVal.str "transport_contractor")
      = [("canManageDrivers", true), ("canViewDriverReports", true), ("canAssignRoutes", true),
         ("canManageVehicles", true), ("canApproveDrivers", true)] ∧
    getRolePermissions (JsVal.str "swachh_hr")
      = [("canManageWorkers", true), ("canViewReports", true), ("canAssignTasks", true),
         ("canGenerateReports", true)] ∧
    getRolePermissions (JsVal.str "driver")
      = [("canSubmitReports", true), ("canViewAssignedRoutes", true),
         ("canUpdateStatus", true)] ∧
    ∀ role : JsVal, role ≠ JsVal.str "admin" → role ≠ JsVal.str "transport_contractor" →
      role ≠ JsVal.str "swachh_hr" →
      getRolePermissions role
        = [("canSubmitReports", true), ("canViewAssignedRoutes", true),
           ("canUpdateStatus", true)] := by
  refine ⟨by decide, by decide, by decide, by decide, ?_⟩
  intro role h1 h2 h3
  simp [getRolePermissions, h1, h2, h3]

/-- Witness of C10: a missing role (`undefined`) and an unknown role string fall to the
driver permissions. -/
theorem getRolePermissions_table_witness :
    getRolePermissions JsVal.undefined
      = [("canSubmitReports", true), ("canViewAssignedRoutes", true),
         ("canUpdateStatus", true)] ∧
    getRolePermissions (JsVal.str "supervisor")
      = [("canSubmitReports", true), ("canViewAssignedRoutes", true),
         ("canUpdateStatus", true)] :=
  ⟨getRolePermissions_table.2.2.2.2 JsVal.undefined (by decide) (by decide) (by decide),
   getRolePermissions_table.2.2.2.2 (JsVal.str "supervisor") (by decide) (by decide)
     (by decide)⟩

/-! ## Further facts about the store, the identity provider and the counters -/

theorem lookup_filter_ne {α : Type} (l : List (String × α)) (id id' : String) :
    (l.filter (fun p => p.1 != id)).lookup id' = if id' = id then none else l.lookup id' := by
  induction l with
  | nil => simp [List.lookup]
  | cons p l ih =>
    obtain ⟨a, b⟩ := p
    by_cases ha : a = id
    · subst ha
      have hf : ((a, b) :: l).filter (fun p => p.1 != a) = l.filter (fun p => p.1 != a) := by
        simp [List.filter]
      rw [hf, ih]
      by_cases h : id' = a
      · simp [h]
      · rw [if_neg h, if_neg h, lookup_cons_ne _ _ _ _ h]
    · have hf : ((a, b) :: l).filter (fun p => p.1 != id)
          = (a, b) :: l.filter (fun p => p.1 != id) := by
        have hb : (a != id) = true := by simpa using ha
        simp [List.filter, hb]
      rw [hf]
      by_cases h : id' = a
      · subst h
        rw [lookup_cons_eq, lookup_cons_eq, if_neg ha]
      · rw [lookup_cons_ne _ _ _ _ h, lookup_cons_ne _ _ _ _ h, ih]

theorem getDoc_deleteDoc_self (c : Collection) (id : String) :
    getDoc (deleteDoc c id) id = none := by
  unfold getDoc deleteDoc
  rw [lookup_filter_ne, if_pos rfl]
  simp

theorem getDoc_deleteDoc_ne (c : Collection) (id id' : String) (h : id' ≠ id) :
    getDoc (deleteDoc c id) id' = getDoc c id' := by
  unfold getDoc deleteDoc
  rw [lookup_filter_ne, if_neg h]

theorem lookup_bumpKey_ne (c : Counter) (k k' : String) (hne : k' ≠ k) :
    (bumpKey c k).lookup k' = c.lookup k' := by
  unfold bumpKey
  split
  · rw [lookup_map_entry c k (fun _ => CounterValue.count _) k', if_neg hne]
  · rw [lookup_map_entry c k (fun _ => CounterValue.text _ _) k', if_neg hne]
  · split
    · rfl
    · split
      · rw [lookup_append_single, if_neg hne]
        cases c.lookup k' <;> rfl
      · rw [lookup_append_single, if_neg hne]
        cases c.lookup k' <;> rfl

theorem lookup_bumpKey_count (c : Counter) (k : String) (m : Nat)
    (h : c.lookup k = some (CounterValue.count m)) :
    (bumpKey c k).lookup k = some (CounterValue.count (m + 1)) := by
  unfold bumpKey
  rw [h]
  simp only
  rw [lookup_map_entry c k (fun _ => CounterValue.count (m + 1)) k, if_pos rfl, h]
  rfl

theorem lookup_bumpKey_none (c : Counter) (k : String) (h : c.lookup k = none)
    (hk : k ∉ objectPrototypeKeys) :
    (bumpKey c k).lookup k = some (CounterValue.count 1) := by
  have hp : k ≠ "__proto__" := by
    intro e
    apply hk
    rw [e]
    decide
  have hc : objectPrototypeKeys.contains k = false := by
    simpa using hk
  unfold bumpKey
  rw [h]
  simp only [hp, if_false, hc, Bool.false_eq_true]
  rw [lookup_append_single, h]
  simp

theorem lookup_mem {α : Type} (l : List (String × α)) (k : String) (v : α)
    (h : l.lookup k = some v) : (k, v) ∈ l := by
  induction l with
  | nil => simp at h
  | cons q l ih =>
    obtain ⟨a, b⟩ := q
    by_cases hk : k = a
    · subst hk
      rw [lookup_cons_eq] at h
      have : b = v := Option.some.inj h
      subst this
      exact List.mem_cons_self _ _
    · rw [lookup_cons_ne _ _ _ _ hk] at h
      exact List.mem_cons_of_mem _ (ih h)

theorem textOnlyInherited_bumpKey (c : Counter) (k : String) (hc : textOnlyInherited c) :
    textOnlyInherited (bumpKey c k) := by
  intro p hp
  unfold bumpKey at hp
  split at hp
  · obtain ⟨q, hq, hqp⟩ := List.mem_map.mp hp
    by_cases hqk : (q.1 == k) = true
    · simp only [hqk, if_true] at hqp
      exact Or.inl ⟨_, by rw [← hqp]⟩
    · simp only [hqk] at hqp
      simp only [Bool.false_eq_true, if_false] at hqp
      exact hqp ▸ hc q hq
  · rename_i member ones hl
    have hmem := hc _ (lookup_mem c k _ hl)
    obtain ⟨q, hq, hqp⟩ := List.mem_map.mp hp
    by_cases hqk : (q.1 == k) = true
    · simp only [hqk, if_true] at hqp
      right
      rw [← hqp]
      have hqk' : q.1 = k := by simpa using hqk
      rw [hqk']
      rcases hmem with ⟨n, hn⟩ | hmem
      · exact absurd hn (by simp)
      · exact hmem
    · simp only [hqk] at hqp
      simp only [Bool.false_eq_true, if_false] at hqp
      exact hqp ▸ hc q hq
  · split at hp
    · exact hc p hp
    · split at hp
      · rename_i hcont
        rcases List.mem_append.mp hp with h1 | h1
        · exact hc p h1
        · right
          rw [List.mem_singleton.mp h1]
          simpa using hcont
      · rcases List.mem_append.mp hp with h1 | h1
        · exact hc p h1
        · left
          rw [List.mem_singleton.mp h1]
          exact ⟨1, rfl⟩

theorem readCount_bumpKey (c : Counter) (k k' : String) (hc : textOnlyInherited c)
    (hk' : k' ∉ objectPrototypeKeys) :
    readCount (bumpKey c k) k'
      = if k' = k then some ((match readCount c k with | some m => m | none => 0) + 1)
        else readCount c k' := by
  by_cases hk : k' = k
  · subst hk
    rw [if_pos rfl]
    cases hl : c.lookup k' with
    | none =>
      unfold readCount
      rw [lookup_bumpKey_none c k' hl hk', hl]
    | some v =>
      cases v with
      | count m =>
        unfold readCount
        rw [lookup_bumpKey_count c k' m hl, hl]
      | text member ones =>
        rcases hc _ (lookup_mem c k' _ hl) with ⟨n, hn⟩ | hmem
        · exact absurd hn (by simp)
        · exact absurd hmem hk'
  · rw [if_neg hk]
    unfold readCount
    rw [lookup_bumpKey_ne c k k' hk]

/-- What the increment does with the name of an inherited member: the first time a text is
stored under it, later a digit is appended; nothing is stored under `__proto__`; in both
cases no number can be read there. -/
theorem bumpKey_inherited_member :
    bumpKey [("total", 0)] "constructor"
        = [("total", 0), ("constructor", CounterValue.text "constructor" 1)]
      ∧ bumpKey (bumpKey [("total", 0)] "constructor") "constructor"
        = [("total", 0), ("constructor", CounterValue.text "constructor" 2)]
      ∧ bumpKey [("total", 0)] "__proto__" = [("total", 0)]
      ∧ readCount (bumpKey [("total", 0)] "constructor") "constructor" = none := by
  decide

theorem tallied_tallied (r : Option Nat) (a b : Nat) :
    tallied (tallied r a) b = tallied r (a + b) := by
  unfold tallied
  by_cases ha : a = 0
  · subst ha; simp
  · by_cases hb : b = 0
    · subst hb; simp [ha]
    · have hab : a + b ≠ 0 := by omega
      simp [ha, hb, hab, Nat.add_assoc]

theorem readCount_bumpKey_tallied (c : Counter) (k k' : String)
    (hc : textOnlyInherited c) (hk' : k' ∉ objectPrototypeKeys) :
    readCount (bumpKey c k) k' = tallied (readCount c k') (if k' = k then 1 else 0) := by
  rw [readCount_bumpKey c k k' hc hk']
  by_cases h : k' = k
  · subst h
    cases hr : readCount c k' <;> simp [tallied]
  · simp [h, tallied]

theorem textOnlyInherited_countStatus (c : Counter) (d : Doc)
    (hc : textOnlyInherited c) : textOnlyInherited (countStatus c d) := by
  unfold countStatus
  simp only
  split
  · exact textOnlyInherited_bumpKey _ _ (textOnlyInherited_bumpKey _ _ hc)
  · exact textOnlyInherited_bumpKey _ _ hc

theorem readCount_countStatus (c : Counter) (d : Doc) (k : String)
    (hc : textOnlyInherited c) (hk : k ∉ objectPrototypeKeys) :
    readCount (countStatus c d) k
      = tallied (readCount c k)
          ((if k = "total" then 1 else 0) + (if statusKey d = some k then 1 else 0)) := by
  unfold countStatus statusKey
  simp only
  by_cases ht : (getField d "status").truthy = true
  · simp only [ht, if_true]
    rw [readCount_bumpKey_tallied _ _ _ (textOnlyInherited_bumpKey _ _ hc) hk,
      readCount_bumpKey_tallied _ _ _ hc hk, tallied_tallied]
    congr 2
    by_cases h : k = propertyKey (getField d "status")
    · simp [h]
    · have h' : ¬ propertyKey (getField d "status") = k := fun e => h e.symm
      simp [h, h']
  · simp only [ht, Bool.false_eq_true, if_false]
    rw [readCount_bumpKey_tallied _ _ _ hc hk]
    simp

theorem readCount_countByStatus (docs : Collection) (c : Counter) (k : String)
    (hc : textOnlyInherited c) (hk : k ∉ objectPrototypeKeys) :
    readCount (countByStatus c docs) k
      = tallied (readCount c k)
          ((if k = "total" then docs.length else 0) + countWithStatus docs k) := by
  induction docs generalizing c with
  | nil => simp [countByStatus, countWithStatus, tallied]
  | cons p docs ih =>
    have hstep : countByStatus c (p :: docs) = countByStatus (countStatus c p.2) docs := rfl
    rw [hstep, ih _ (textOnlyInherited_countStatus _ _ hc), readCount_countStatus _ _ _ hc hk,
      tallied_tallied]
    congr 1
    unfold countWithStatus
    rw [List.filter_cons]
    by_cases hs : statusKey p.2 = some k
    · have hb : (statusKey p.2 == some k) = true := by simp [hs]
      simp only [hb, if_true, hs, List.length_cons]
      by_cases hk : k = "total"
      · simp [hk]; omega
      · simp [hk]; omega
    · have hb : (statusKey p.2 == some k) = false := by simp [hs]
      simp only [hb, hs, if_false, Bool.false_eq_true]
      by_cases hk : k = "total"
      · simp [hk]; omega
      · simp [hk]

theorem ne_undefined_of_truthy (v : JsVal) (h : v.truthy = true) : v ≠ JsVal.undefined := by
  intro e
  subst e
  simp [JsVal.truthy] at h

theorem getDoc_append_fresh (c : Collection) (id : String) (d : Doc)
    (hid : documentPath id = some id)
    (h : getDoc c id = none) : getDoc (c ++ [(id, d)]) id = some d := by
  rw [getDoc_of_path _ _ hid] at h ⊢
  rw [lookup_append_single, h]
  simp

theorem updateUser_some (accounts accounts' : List Account) (uid : String) (disabled : Bool)
    (h : updateUser accounts uid disabled = some accounts') :
    (∃ a ∈ accounts', a.uid = uid) ∧
    (∀ a ∈ accounts', a.uid = uid → a.disabled = disabled) ∧
    (∀ a ∈ accounts', a.uid ≠ uid → a ∈ accounts) := by
  unfold updateUser at h
  split at h
  · rename_i hany
    have hacc := (Option.some.inj h).symm
    subst hacc
    obtain ⟨a0, ha0, hu0⟩ := List.any_eq_true.mp hany
    have hu0' : a0.uid = uid := by simpa using hu0
    refine ⟨⟨{ a0 with disabled := disabled }, ?_, hu0'⟩, ?_, ?_⟩
    · refine List.mem_map.mpr ⟨a0, ha0, ?_⟩
      simp [hu0']
    · intro a ha hu
      obtain ⟨b, hb, rfl⟩ := List.mem_map.mp ha
      by_cases hbu : b.uid = uid
      · simp [hbu]
      · simp only [beq_iff_eq, hbu, if_false] at hu
    · intro a ha hu
      obtain ⟨b, hb, rfl⟩ := List.mem_map.mp ha
      by_cases hbu : b.uid = uid
      · simp [hbu] at hu
      · simpa [hbu] using hb
  · exact absurd h (by simp)

theorem tallied_zero (n : Nat) : tallied (some 0) n = some n := by
  unfold tallied
  by_cases h : n = 0
  · simp [h]
  · simp [h]

theorem tallied_none (n : Nat) : tallied none n = if n = 0 then none else some n := by
  unfold tallied
  by_cases h : n = 0
  · simp [h]
  · simp [h]

theorem changeAssignmentStatus_keeps_feederPointAssignments (ctx : Ctx) (id : String)
    (body : Doc) (w : Backend) :
    (changeAssignmentStatus ctx id body w).2.feederPointAssignments
      = w.feederPointAssignments := by
  unfold changeAssignmentStatus
  simp only
  repeat' split
  all_goals rfl

theorem readCount_setCount (c : Counter) (k : String) (n : Nat) (k' : String)
    (hk : readCount c k ≠ none) :
    readCount (setCount c k n) k' = if k' = k then some n else readCount c k' := by
  have hlk : c.lookup k ≠ none := by
    intro e
    apply hk
    unfold readCount
    rw [e]
  have hany : c.any (fun p => p.1 == k) = true := by
    rw [Ne, List.lookup_eq_none_iff] at hlk
    simp only [not_forall, bne_iff_ne, ne_eq, not_not] at hlk
    obtain ⟨p, hp, hpk⟩ := hlk
    exact List.any_eq_true.mpr ⟨p, hp, by simp [← hpk]⟩
  unfold setCount readCount
  rw [if_pos hany]
  have hl := lookup_map_entry c k (fun _ => CounterValue.count n) k'
  rw [hl]
  by_cases h : k' = k
  · subst h
    cases hl2 : c.lookup k' with
    | none => exact absurd hl2 hlk
    | some v => simp
  · simp [h]

/-- The users loop of the dashboard, from any counters. -/
theorem readCount_usersLoop (docs : Collection) (c : Counter) (k : String)
    (hc : textOnlyInherited c) (hk : k ∉ objectPrototypeKeys) :
    readCount (docs.foldl (fun acc p =>
        let acc1 := bumpKey acc "total"
        if (getField p.2 "isActive").truthy then bumpKey acc1 "active" else acc1) c) k
      = tallied (readCount c k)
          ((if k = "total" then docs.length else 0) +
           (if k = "active" then
              (docs.filter (fun p => (getField p.2 "isActive").truthy)).length else 0)) := by
  induction docs generalizing c with
  | nil => simp [tallied]
  | cons p docs ih =>
    have hacc : textOnlyInherited
        (let acc1 := bumpKey c "total"
         if (getField p.2 "isActive").truthy then bumpKey acc1 "active" else acc1) := by
      simp only
      split
      · exact textOnlyInherited_bumpKey _ _ (textOnlyInherited_bumpKey _ _ hc)
      · exact textOnlyInherited_bumpKey _ _ hc
    rw [List.foldl_cons, ih _ hacc]
    simp only
    rw [List.filter_cons]
    by_cases ht : (getField p.2 "isActive").truthy = true
    · simp only [ht, if_true]
      rw [readCount_bumpKey_tallied _ _ _ (textOnlyInherited_bumpKey _ _ hc) hk,
        readCount_bumpKey_tallied _ _ _ hc hk, tallied_tallied, tallied_tallied]
      congr 1
      by_cases h1 : k = "total"
      · subst h1
        simp
        omega
      · by_cases h2 : k = "active"
        · subst h2
          simp
          omega
        · simp [h1, h2]
    · simp only [ht, Bool.false_eq_true, if_false]
      rw [readCount_bumpKey_tallied _ _ _ hc hk, tallied_tallied]
      congr 1
      by_cases h1 : k = "total"
      · subst h1
        simp
        omega
      · simp [h1]

theorem countWithStatus_eq_zero (docs : Collection) (s : String)
    (h : ∀ p ∈ docs, statusKey p.2 ≠ some s) : countWithStatus docs s = 0 := by
  unfold countWithStatus
  rw [List.length_eq_zero, List.filter_eq_nil_iff]
  intro p hp
  simpa using h p hp

theorem readCount_countByStatus_total (docs : Collection) (init : Counter)
    (hc : textOnlyInherited init)
    (hinit : readCount init "total" = some 0)
    (h : ∀ p ∈ docs, statusKey p.2 ≠ some "total") :
    readCount (countByStatus init docs) "total" = some docs.length := by
  rw [readCount_countByStatus _ _ _ hc (by decide), hinit, tallied_zero,
    countWithStatus_eq_zero docs "total" h]
  simp

theorem readCount_countByStatus_key (docs : Collection) (init : Counter) (s : String)
    (hc : textOnlyInherited init) (hk : s ∉ objectPrototypeKeys)
    (hs : s ≠ "total") :
    readCount (countByStatus init docs) s
      = tallied (readCount init s) (countWithStatus docs s) := by
  rw [readCount_countByStatus _ _ _ hc hk]
  simp [hs]

theorem textOnlyInherited_of_counts (c : Counter)
    (h : c.all (fun p => match p.2 with
      | CounterValue.count _ => true
      | CounterValue.text _ _ => false) = true) : textOnlyInherited c := by
  intro p hp
  have hp' := List.all_eq_true.mp h p hp
  left
  cases hv : p.2 with
  | count n => exact ⟨n, rfl⟩
  | text member ones => simp [hv] at hp'

/-! ## Access control and user administration -/

/-- C11. For a request whose user carries the transport-contractor permissions,
`requirePermission(p)` answers 403 without calling `next` for each of the eight
administrator-only capabilities, and calls `next` for `canManageVehicles`. -/
theorem contractor_denied_admin_capabilities (u : ReqUser)
    (hp : u.permissions = some (getRolePermissions (JsVal.str "transport_contractor"))) :
    (∀ p ∈ ["canManageUsers", "canViewAllReports", "canAssignTasks", "canGenerateReports",
            "canManageSystem", "canApproveRequests", "canManageFeederPoints",
            "canManageAssignments"],
      requirePermission p (some u)
        = Outcome.responded (failure 403 ("Permission denied. Required permission: " ++ p))) ∧
    requirePermission "canManageVehicles" (some u) = Outcome.next := by
  constructor
  · intro p hmem
    simp only [List.mem_cons, List.mem_singleton, List.mem_nil_iff, or_false] at hmem
    rcases hmem with h | h | h | h | h | h | h | h <;> subst h <;>
      simp only [requirePermission, hp] <;> decide
  · simp only [requirePermission, hp]
    decide

/-- Witness of C11: the contractor `U7`. -/
theorem contractor_denied_admin_capabilities_witness :
    (∀ p ∈ ["canManageUsers", "canViewAllReports", "canAssignTasks", "canGenerateReports",
            "canManageSystem", "canApproveRequests", "canManageFeederPoints",
            "canManageAssignments"],
      requirePermission p (some contractorUser)
        = Outcome.responded (failure 403 ("Permission denied. Required permission: " ++ p))) ∧
    requirePermission "canManageVehicles" (some contractorUser) = Outcome.next :=
  contractor_denied_admin_capabilities contractorUser rfl

/-- C12. For every user id and every requested role that is none of `admin`,
`transport_contractor`, `swachh_hr`, `driver` (a missing role included), the role update
answers with the 400 error "Invalid role" and leaves the backend state, hence the user
document, unchanged. -/
theorem invalid_role_rejected (ctx : Ctx) (id : String) (body : Doc) (w : Backend)
    (h1 : getField body "role" ≠ JsVal.str "admin")
    (h2 : getField body "role" ≠ JsVal.str "transport_contractor")
    (h3 : getField body "role" ≠ JsVal.str "swachh_hr")
    (h4 : getField body "role" ≠ JsVal.str "driver") :
    (updateRole ctx id body w).1 = failure 400 "Invalid role" ∧
    (updateRole ctx id body w).2 = w ∧
    getDoc (updateRole ctx id body w).2.users id = getDoc w.users id := by
  have h : updateRole ctx id body w = (failure 400 "Invalid role", w) := by
    simp [updateRole, USER_ROLES, h1, h2, h3, h4]
  rw [h]
  exact ⟨rfl, rfl, rfl⟩

/-- Witness of C12: a request without a role for the administrator `U2`. -/
theorem invalid_role_rejected_witness :
    (updateRole adminCtx "U2" [] office).1 = failure 400 "Invalid role" ∧
    (updateRole adminCtx "U2" [] office).2 = office ∧
    getDoc (updateRole adminCtx "U2" [] office).2.users "U2" = getDoc office.users "U2" :=
  invalid_role_rejected adminCtx "U2" [] office (by decide) (by decide) (by decide) (by decide)

/-- C13. When the update of the active status of an existing user succeeds, the user
document's `isActive` is the value sent, its fields other than `isActive`, `updatedAt`,
`updatedBy` are as before, and the identity provider holds an account for this id whose
`disabled` flag is the negation of the (truthiness of the) value sent, the other accounts
being untouched. -/
theorem updateActiveStatus_mirrors_provider (ctx : Ctx) (id : String) (body : Doc)
    (w : Backend) (userDoc : Doc)
    (hex : getDoc w.users id = some userDoc)
    (hok : (updateActiveStatus ctx id body w).1.status = 200) :
    (∃ d, getDoc (updateActiveStatus ctx id body w).2.users id = some d ∧
      getField d "isActive" = getField body "isActive" ∧
      (∀ k, k ∉ ["isActive", "updatedAt", "updatedBy"] →
        getField d k = getField userDoc k)) ∧
    (∃ a ∈ (updateActiveStatus ctx id body w).2.accounts, a.uid = id) ∧
    (∀ a ∈ (updateActiveStatus ctx id body w).2.accounts, a.uid = id →
      a.disabled = !(getField body "isActive").truthy) ∧
    (∀ a ∈ (updateActiveStatus ctx id body w).2.accounts, a.uid ≠ id → a ∈ w.accounts) := by
  have hif : (if (!(getField body "isActive").truthy) = true then true else false)
      = !(getField body "isActive").truthy := by
    cases (getField body "isActive").truthy <;> rfl
  have hp : docPath (JsVal.str id) = some id := getDoc_some_path _ _ _ hex
  unfold updateActiveStatus at hok ⊢
  simp only [hif, hp] at hok ⊢
  cases hupd : updateDoc w.users id
      [("isActive", getField body "isActive"), ("updatedAt", JsVal.date ctx.now),
       ("updatedBy", JsVal.str ctx.uid)] with
  | none => simp [hupd, failure] at hok
  | some users1 =>
    obtain ⟨d, hd, hget, -⟩ := updateDoc_some _ _ _ _ hupd
    have hdu : d = userDoc := Option.some.inj (hd.symm.trans hex)
    subst hdu
    simp only [hupd] at hok ⊢
    cases hacc : updateUser w.accounts id (!(getField body "isActive").truthy) with
    | none => simp [hacc, failure] at hok
    | some accounts2 =>
      obtain ⟨hex2, hflag, hframe⟩ := updateUser_some _ _ _ _ hacc
      simp only [hacc]
      refine ⟨⟨_, hget, ?_, ?_⟩, hex2, ?_, hframe⟩
      · simp [mergeDoc_three, getField_setField]
      · intro k hk
        simp only [List.mem_cons, List.mem_singleton, not_or, List.mem_nil_iff,
          or_false] at hk
        simp [mergeDoc_three, getField_setField, hk]
      · intro a ha hu
        exact hflag a ha hu

/-- Witness of C13: the administrator `U2` is deactivated. -/
theorem updateActiveStatus_mirrors_provider_witness :
    (∃ d, getDoc (updateActiveStatus adminCtx "U2" [("isActive", JsVal.bool false)]
        office).2.users "U2" = some d ∧
      getField d "isActive" = JsVal.bool false ∧
      (∀ k, k ∉ ["isActive", "updatedAt", "updatedBy"] →
        getField d k = getField
          [("uid", JsVal.str "U2"), ("email", JsVal.str "meera@example.org"),
           ("role", JsVal.str "admin"), ("isActive", JsVal.bool true),
           ("permissions", JsVal.flags (getRolePermissions (JsVal.str "admin")))] k)) ∧
    (∃ a ∈ (updateActiveStatus adminCtx "U2" [("isActive", JsVal.bool false)]
        office).2.accounts, a.uid = "U2") ∧
    (∀ a ∈ (updateActiveStatus adminCtx "U2" [("isActive", JsVal.bool false)]
        office).2.accounts, a.uid = "U2" → a.disabled = true) ∧
    (∀ a ∈ (updateActiveStatus adminCtx "U2" [("isActive", JsVal.bool false)]
        office).2.accounts, a.uid ≠ "U2" → a ∈ office.accounts) :=
  updateActiveStatus_mirrors_provider adminCtx "U2" [("isActive", JsVal.bool false)] office
    _ (by decide) (by decide)

/-- C14, as the code has it: for the id `a/b`, under which no vehicle exists, the reference
`doc(id)` throws and the call answers with the 500 error "Failed to delete vehicle", not with
the 404 error of a missing vehicle. -/
theorem deleteVehicle_path_failure :
    idleFleet.vehicles.lookup "a/b" = none ∧
    getDoc idleFleet.vehicles "a/b" = none ∧
    docPath (JsVal.str "a/b") = none ∧
    deleteVehicle "a/b" idleFleet = (failure 500 "Failed to delete vehicle", idleFleet) ∧
    (deleteVehicle "a/b" idleFleet).1 ≠ failure 404 "Vehicle not found" := by
  decide

/-- C14, amended. Deleting a vehicle under an id that names a document: a missing vehicle
gives the 404 error and no change; a vehicle referenced by at least one active vehicle
assignment gives the 400 error "Cannot delete vehicle with active assignments" and no
change; otherwise the call succeeds, the vehicle document is gone, every other vehicle
document reads as before, and the assignments and all other parts of the state are
unchanged. Under an id that names no document the call gives the 500 error and no
change. -/
theorem deleteVehicle_cases (id : String) (w : Backend)
    (hid : documentPath id = some id) :
    (∀ other : String, documentPath other = none →
      deleteVehicle other w = (failure 500 "Failed to delete vehicle", w)) ∧
    (getDoc w.vehicles id = none →
      deleteVehicle id w = (failure 404 "Vehicle not found", w)) ∧
    (getDoc w.vehicles id ≠ none → activeAssignmentsOf w id ≠ [] →
      deleteVehicle id w = (failure 400 "Cannot delete vehicle with active assignments", w)) ∧
    (getDoc w.vehicles id ≠ none → activeAssignmentsOf w id = [] →
      (deleteVehicle id w).1.status = 200 ∧
      getDoc (deleteVehicle id w).2.vehicles id = none ∧
      (∀ id', id' ≠ id → getDoc (deleteVehicle id w).2.vehicles id' = getDoc w.vehicles id') ∧
      (deleteVehicle id w).2.vehicleAssignments = w.vehicleAssignments ∧
      (deleteVehicle id w).2 = { w with vehicles := deleteDoc w.vehicles id }) := by
  have hp : docPath (JsVal.str id) = some id := hid
  refine ⟨?_, ?_, ?_, ?_⟩
  · intro other hother
    have ho : docPath (JsVal.str other) = none := hother
    simp [deleteVehicle, ho]
  · intro h
    simp [deleteVehicle, hp, h]
  · intro h hact
    cases hd : getDoc w.vehicles id with
    | none => exact absurd hd h
    | some d =>
      unfold activeAssignmentsOf at hact
      simp only [deleteVehicle, hp, hd]
      rw [if_pos]
      simpa [List.isEmpty_iff] using hact
  · intro h hact
    cases hd : getDoc w.vehicles id with
    | none => exact absurd hd h
    | some d =>
      unfold activeAssignmentsOf at hact
      have hrun : deleteVehicle id w =
          ({ status := 200, success := true, message := "Vehicle deleted successfully",
             data := [] },
           { w with vehicles := deleteDoc w.vehicles id }) := by
        simp only [deleteVehicle, hp, hd, hact]
        rfl
      rw [hrun]
      exact ⟨rfl, getDoc_deleteDoc_self _ _, fun id' h' => getDoc_deleteDoc_ne _ _ _ h', rfl, rfl⟩

/-- Witness of C14: `V9` does not exist; `V1` is held by the active assignment `A1` in
`assignedFleet`; `V1` is free in `idleFleet` and is deleted; `a//b` names no document. -/
theorem deleteVehicle_cases_witness :
    deleteVehicle "a//b" idleFleet = (failure 500 "Failed to delete vehicle", idleFleet) ∧
    deleteVehicle "V9" idleFleet = (failure 404 "Vehicle not found", idleFleet) ∧
    deleteVehicle "V1" assignedFleet
      = (failure 400 "Cannot delete vehicle with active assignments", assignedFleet) ∧
    ((deleteVehicle "V1" idleFleet).1.status = 200 ∧
      getDoc (deleteVehicle "V1" idleFleet).2.vehicles "V1" = none ∧
      (∀ id', id' ≠ "V1" →
        getDoc (deleteVehicle "V1" idleFleet).2.vehicles id' = getDoc idleFleet.vehicles id') ∧
      (deleteVehicle "V1" idleFleet).2.vehicleAssignments = idleFleet.vehicleAssignments ∧
      (deleteVehicle "V1" idleFleet).2
        = { idleFleet with vehicles := deleteDoc idleFleet.vehicles "V1" }) :=
  ⟨(deleteVehicle_cases "V9" idleFleet (by decide)).1 "a//b" (by decide),
   (deleteVehicle_cases "V9" idleFleet (by decide)).2.1 (by decide),
   (deleteVehicle_cases "V1" assignedFleet (by decide)).2.2.1 (by decide) (by decide),
   (deleteVehicle_cases "V1" idleFleet (by decide)).2.2.2 (by decide) (by decide)⟩

/-- C15. Deleting a user: after a successful call no identity-provider account has the id
and the users collection has no document under it; when the identity provider refuses the
deletion the call answers with the 500 error and leaves the state, hence the users document,
unchanged. -/
theorem removeUser_effects (id : String) (w : Backend) :
    ((removeUser id w).1.status = 200 →
      (∀ a ∈ (removeUser id w).2.accounts, a.uid ≠ id) ∧
      getDoc (removeUser id w).2.users id = none) ∧
    (deleteUser w.accounts id = none →
      (removeUser id w).1 = failure 500 "Failed to delete user" ∧
      (removeUser id w).2 = w ∧
      getDoc (removeUser id w).2.users id = getDoc w.users id) := by
  constructor
  · intro hok
    unfold removeUser at hok ⊢
    cases hdel : deleteUser w.accounts id with
    | none => simp [hdel, failure] at hok
    | some accounts1 =>
      simp only [hdel] at hok ⊢
      cases hpath : docPath (JsVal.str id) with
      | none => simp [hpath, failure] at hok
      | some path =>
        simp only []
        refine ⟨?_, ?_⟩
        · intro a ha
          unfold deleteUser at hdel
          split at hdel
          · have := (Option.some.inj hdel).symm
            subst this
            have := (List.mem_filter.mp ha).2
            simpa using this
          · exact absurd hdel (by simp)
        · by_cases hid : documentPath id = some id
          · have hpi : path = id := Option.some.inj (hpath.symm.trans hid)
            rw [hpi]
            exact getDoc_deleteDoc_self _ _
          · unfold getDoc
            rw [if_neg hid]
  · intro hfail
    have hrun : removeUser id w = (failure 500 "Failed to delete user", w) := by
      simp [removeUser, hfail]
    rw [hrun]
    exact ⟨rfl, rfl, rfl⟩

/-- Witness of C15: the administrator `U2` is deleted; deleting the unknown id `U8`, for
which the identity provider has no account, fails and changes nothing. -/
theorem removeUser_effects_witness :
    ((∀ a ∈ (removeUser "U2" office).2.accounts, a.uid ≠ "U2") ∧
      getDoc (removeUser "U2" office).2.users "U2" = none) ∧
    ((removeUser "U8" office).1 = failure 500 "Failed to delete user" ∧
      (removeUser "U8" office).2 = office ∧
      getDoc (removeUser "U8" office).2.users "U8" = getDoc office.users "U8") :=
  ⟨(removeUser_effects "U2" office).1 (by decide),
   (removeUser_effects "U8" office).2 (by decide)⟩

/-! ## Assignment creation, completion and statistics -/

/-- C16, as the code has it: with vehicle `V1` available and user `U1` existing, a request
whose start date is the text `soon`, which the `Date` constructor cannot read, is answered by
the 500 error and inserts nothing; the vehicle stays `available`. -/
theorem create_with_unreadable_start_date_fails :
    (getDoc idleFleet.vehicles "V1").map (fun d => getField d "status")
      = some (JsVal.str "available") ∧
    (getDoc idleFleet.users "U1").isSome = true ∧
    createVehicleAssignment soonCtx "A1" (assignV1 ++ [("startDate", JsVal.str "soon")])
        idleFleet
      = (failure 500 "Failed to create vehicle assignment", idleFleet) := by
  decide

/-- C16, amended. Assign-then-complete round trip. For a vehicle with status `available`, an
existing assignee and an assignment type, with dates that the `Date` constructor can read and
a newly generated assignment id: the create call answers 201, appends exactly one assignment
with the given vehicle and assignee, status `active` and start date the given date or the
current time, and sets the vehicle to `assigned`; completing that assignment then answers
200, leaves it with status `completed`, `completedAt` stamped and no `cancelledAt`, and the
vehicle back at `available`. -/
theorem assign_then_complete_round_trip (ctx ctx2 : Ctx) (newId : String) (body : Doc)
    (w : Backend) (vid uid : String) (vehicleData userData : Doc)
    (hv : getField body "vehicleId" = JsVal.str vid)
    (hu : getField body "assignedTo" = JsVal.str uid)
    (ht : (getField body "assignmentType").truthy = true)
    (hsd : (getField body "startDate").truthy = true →
      ctx.newDate (getField body "startDate") ≠ JsVal.undefined)
    (hed : (getField body "endDate").truthy = true →
      ctx.newDate (getField body "endDate") ≠ JsVal.undefined)
    (hvdoc : getDoc w.vehicles vid = some vehicleData)
    (havail : getField vehicleData "status" = JsVal.str "available")
    (hudoc : getDoc w.users uid = some userData)
    (hid : documentPath newId = some newId)
    (hfresh : getDoc w.vehicleAssignments newId = none) :
    (createVehicleAssignment ctx newId body w).1.status = 201 ∧
    (∃ a, (createVehicleAssignment ctx newId body w).2.vehicleAssignments
        = w.vehicleAssignments ++ [(newId, a)] ∧
      getField a "vehicleId" = JsVal.str vid ∧
      getField a "assignedTo" = JsVal.str uid ∧
      getField a "status" = JsVal.str "active" ∧
      getField a "startDate"
        = (if (getField body "startDate").truthy then ctx.newDate (getField body "startDate")
           else JsVal.date ctx.now)) ∧
    (getDoc (createVehicleAssignment ctx newId body w).2.vehicles vid).map
        (fun d => getField d "status") = some (JsVal.str "assigned") ∧
    (changeAssignmentStatus ctx2 newId [("status", JsVal.str "completed")]
        (createVehicleAssignment ctx newId body w).2).1.status = 200 ∧
    (∃ a', getDoc (changeAssignmentStatus ctx2 newId [("status", JsVal.str "completed")]
        (createVehicleAssignment ctx newId body w).2).2.vehicleAssignments newId = some a' ∧
      getField a' "status" = JsVal.str "completed" ∧
      getField a' "completedAt" = JsVal.date ctx2.now ∧
      getField a' "cancelledAt" = JsVal.undefined) ∧
    (getDoc (changeAssignmentStatus ctx2 newId [("status", JsVal.str "completed")]
        (createVehicleAssignment ctx newId body w).2).2.vehicles vid).map
        (fun d => getField d "status") = some (JsVal.str "available") := by
  have hdv : docPath (JsVal.str vid) = some vid := getDoc_some_path _ _ _ hvdoc
  have hdu : docPath (JsVal.str uid) = some uid := getDoc_some_path _ _ _ hudoc
  have hvt : (JsVal.str vid).truthy = true := truthy_of_path vid hdv
  have hut : (JsVal.str uid).truthy = true := truthy_of_path uid hdu
  -- the assignment document written by the create call
  obtain ⟨a, ha⟩ : ∃ a : Doc, a =
      [("vehicleId", getField body "vehicleId"), ("assignedTo", getField body "assignedTo"),
       ("assignmentType", getField body "assignmentType"), ("assignedBy", JsVal.str ctx.uid),
       ("assignedAt", JsVal.date ctx.now),
       ("startDate", if (getField body "startDate").truthy then
          ctx.newDate (getField body "startDate") else JsVal.date ctx.now),
       ("endDate", if (getField body "endDate").truthy then
          ctx.newDate (getField body "endDate") else JsVal.null),
       ("status", JsVal.str "active"),
       ("notes", if (getField body "notes").truthy then getField body "notes"
          else JsVal.str ""),
       ("createdAt", JsVal.date ctx.now)] := ⟨_, rfl⟩
  have hat : getField body "assignmentType" ≠ JsVal.undefined := ne_undefined_of_truthy _ ht
  have hsd' : (if (getField body "startDate").truthy then
      ctx.newDate (getField body "startDate") else JsVal.date ctx.now) ≠ JsVal.undefined := by
    split
    · exact hsd (by assumption)
    · simp
  have hed' : (if (getField body "endDate").truthy then
      ctx.newDate (getField body "endDate") else JsVal.null) ≠ JsVal.undefined := by
    split
    · exact hed (by assumption)
    · simp
  have hnotes : (if (getField body "notes").truthy then getField body "notes"
      else JsVal.str "") ≠ JsVal.undefined := by
    split
    · exact ne_undefined_of_truthy _ (by assumption)
    · simp
  have hau : hasUndefined a = false := by
    subst ha
    simp [hasUndefined, hv, hu, hat, hsd', hed', hnotes]
  have hadd : addDoc w.vehicleAssignments newId a = some (w.vehicleAssignments ++ [(newId, a)]) := by
    simp [addDoc, hau]
  have hu1 : hasUndefined [("status", JsVal.str "assigned"), ("updatedAt", JsVal.date ctx.now),
      ("updatedBy", JsVal.str ctx.uid)] = false := by simp [hasUndefined]
  obtain ⟨vehicles2, hc2, hget2, -⟩ := updateDoc_of_exists w.vehicles vid _ vehicleData hu1 hvdoc
  have hrun1 : createVehicleAssignment ctx newId body w =
      ({ status := 201, success := true, message := "Vehicle assignment created successfully",
         data := ("id", JsVal.str newId) :: a },
       { w with vehicleAssignments := w.vehicleAssignments ++ [(newId, a)],
                vehicles := vehicles2 }) := by
    unfold createVehicleAssignment
    simp only []
    rw [← ha]
    simp [hv, hu, ht, hvt, hut, hdv, hdu, hvdoc, havail, hudoc, hadd, hc2]
  -- fields of the new assignment
  have hf1 : getField a "vehicleId" = JsVal.str vid := by
    subst ha; simp [getField_cons, hv]
  have hf2 : getField a "assignedTo" = JsVal.str uid := by
    subst ha; simp [getField_cons, hu]
  have hf3 : getField a "status" = JsVal.str "active" := by
    subst ha; simp [getField_cons]
  have hf4 : getField a "startDate" = (if (getField body "startDate").truthy then
      ctx.newDate (getField body "startDate") else JsVal.date ctx.now) := by
    subst ha; simp [getField_cons]
  have hf5 : getField a "cancelledAt" = JsVal.undefined := by
    subst ha; simp [getField_cons, getField, List.lookup]
  -- the status change
  have hgetA : getDoc (w.vehicleAssignments ++ [(newId, a)]) newId = some a :=
    getDoc_append_fresh _ _ _ hid hfresh
  have hu2 : hasUndefined [("status", JsVal.str "completed"), ("updatedAt", JsVal.date ctx2.now),
      ("updatedBy", JsVal.str ctx2.uid), ("completedAt", JsVal.date ctx2.now)] = false := by
    simp [hasUndefined]
  obtain ⟨assignments3, hc3, hget3, -⟩ :=
    updateDoc_of_exists (w.vehicleAssignments ++ [(newId, a)]) newId _ a hu2 hgetA
  have hu3 : hasUndefined [("status", JsVal.str "available"), ("updatedAt", JsVal.date ctx2.now),
      ("updatedBy", JsVal.str ctx2.uid)] = false := by simp [hasUndefined]
  obtain ⟨vehicles4, hc4, hget4, -⟩ := updateDoc_of_exists vehicles2 vid _ _ hu3 hget2
  have hrun2 : changeAssignmentStatus ctx2 newId [("status", JsVal.str "completed")]
      { w with vehicleAssignments := w.vehicleAssignments ++ [(newId, a)],
               vehicles := vehicles2 } =
      ({ status := 200, success := true, message := "Assignment status updated successfully",
         data := [] },
       { w with vehicleAssignments := assignments3, vehicles := vehicles4 }) := by
    have hst : getField [("status", JsVal.str "completed")] "status" = JsVal.str "completed" := by
      simp [getField_cons]
    unfold changeAssignmentStatus
    simp only [hst]
    have hdn : docPath (JsVal.str newId) = some newId := hid
    simp [validStatuses, hdn, hgetA, hc3, hf1, hdv, hc4]
  rw [hrun1]
  simp only
  rw [hrun2]
  refine ⟨trivial, ⟨a, rfl, hf1, hf2, hf3, hf4⟩, ?_, rfl, ⟨_, hget3, ?_, ?_, ?_⟩, ?_⟩
  · simp [hget2, mergeDoc_three, getField_setField]
  · simp [mergeDoc_four, getField_setField]
  · simp [mergeDoc_four, getField_setField]
  · simp [mergeDoc_four, getField_setField, hf5]
  · simp [hget4, mergeDoc_three, getField_setField]

/-- Witness of C16 (Scenario A): `V1` is assigned to `U1` by the new assignment `A1`, which
is then completed. -/
theorem assign_then_complete_round_trip_witness :
    (createVehicleAssignment adminCtx "A1" assignV1 idleFleet).1.status = 201 ∧
    (∃ a, (createVehicleAssignment adminCtx "A1" assignV1 idleFleet).2.vehicleAssignments
        = idleFleet.vehicleAssignments ++ [("A1", a)] ∧
      getField a "vehicleId" = JsVal.str "V1" ∧
      getField a "assignedTo" = JsVal.str "U1" ∧
      getField a "status" = JsVal.str "active" ∧
      getField a "startDate" = JsVal.date 1000) ∧
    (getDoc (createVehicleAssignment adminCtx "A1" assignV1 idleFleet).2.vehicles "V1").map
        (fun d => getField d "status") = some (JsVal.str "assigned") ∧
    (changeAssignmentStatus adminCtx "A1" [("status", JsVal.str "completed")]
        (createVehicleAssignment adminCtx "A1" assignV1 idleFleet).2).1.status = 200 ∧
    (∃ a', getDoc (changeAssignmentStatus adminCtx "A1" [("status", JsVal.str "completed")]
        (createVehicleAssignment adminCtx "A1" assignV1 idleFleet).2).2.vehicleAssignments "A1"
        = some a' ∧
      getField a' "status" = JsVal.str "completed" ∧
      getField a' "completedAt" = JsVal.date 1000 ∧
      getField a' "cancelledAt" = JsVal.undefined) ∧
    (getDoc (changeAssignmentStatus adminCtx "A1" [("status", JsVal.str "completed")]
        (createVehicleAssignment adminCtx "A1" assignV1 idleFleet).2).2.vehicles "V1").map
        (fun d => getField d "status") = some (JsVal.str "available") :=
  assign_then_complete_round_trip adminCtx adminCtx "A1" assignV1 idleFleet "V1" "U1"
    [("registrationNumber", JsVal.str "MH12AB1234"), ("status", JsVal.str "available")]
    [("fullName", JsVal.str "Asha"), ("role", JsVal.str "driver")]
    (by decide) (by decide) (by decide) (by decide) (by decide) (by decide) (by decide)
    (by decide) (by decide) (by decide)

/-- C17, as the code has it: a request whose three required fields are present and whose
`vehicleId` is the text `a/b`, or the number 7, names no vehicle; the reference
`doc(vehicleId)` throws and the call answers with the 500 error, not with the 404 error of a
missing vehicle. The same happens for an `assignedTo` of that kind once the vehicle is found
available. -/
theorem create_with_unusable_id_fails :
    getDoc idleFleet.vehicles "a/b" = none ∧
    createVehicleAssignment adminCtx "A1"
        [("vehicleId", JsVal.str "a/b"), ("assignedTo", JsVal.str "U1"),
         ("assignmentType", JsVal.str "daily")] idleFleet
      = (failure 500 "Failed to create vehicle assignment", idleFleet) ∧
    createVehicleAssignment adminCtx "A1"
        [("vehicleId", JsVal.num 7), ("assignedTo", JsVal.str "U1"),
         ("assignmentType", JsVal.str "daily")] idleFleet
      = (failure 500 "Failed to create vehicle assignment", idleFleet) ∧
    createVehicleAssignment adminCtx "A1"
        [("vehicleId", JsVal.str "V1"), ("assignedTo", JsVal.str "a/b"),
         ("assignmentType", JsVal.str "daily")] idleFleet
      = (failure 500 "Failed to create vehicle assignment", idleFleet) := by
  decide

/-- C17, amended. Create-vehicle-assignment with its three required fields present, the two
ids being strings that name documents: when no vehicle has the given id the call answers 404
"Vehicle not found"; when the vehicle exists with status `available` but no user has the id
`assignedTo` it answers 404 "Assignee not found"; when one of the three required fields is
missing (falsy) it answers the 400 validation error whatever the store holds; and when the
vehicle id names no document it answers the 500 error. In all four cases the state is
unchanged: no assignment is inserted and the vehicle is as before. -/
theorem create_missing_references (ctx : Ctx) (newId : String) (body : Doc) (w : Backend)
    (vid uid : String) (vehicleData : Doc) :
    (getField body "vehicleId" = JsVal.str vid → documentPath vid = some vid →
      (getField body "assignedTo").truthy = true →
      (getField body "assignmentType").truthy = true →
      getDoc w.vehicles vid = none →
      createVehicleAssignment ctx newId body w = (failure 404 "Vehicle not found", w)) ∧
    (getField body "vehicleId" = JsVal.str vid →
      getField body "assignedTo" = JsVal.str uid → documentPath uid = some uid →
      (getField body "assignmentType").truthy = true →
      getDoc w.vehicles vid = some vehicleData →
      getField vehicleData "status" = JsVal.str "available" →
      getDoc w.users uid = none →
      createVehicleAssignment ctx newId body w = (failure 404 "Assignee not found", w)) ∧
    ((getField body "vehicleId").truthy = false ∨ (getField body "assignedTo").truthy = false ∨
        (getField body "assignmentType").truthy = false →
      createVehicleAssignment ctx newId body w
        = (failure 400 "Vehicle ID, assignee, and assignment type are required", w)) ∧
    ((getField body "vehicleId").truthy = true → (getField body "assignedTo").truthy = true →
      (getField body "assignmentType").truthy = true →
      docPath (getField body "vehicleId") = none →
      createVehicleAssignment ctx newId body w
        = (failure 500 "Failed to create vehicle assignment", w)) := by
  refine ⟨?_, ?_, ?_, ?_⟩
  · intro hv hvp ha ht hdoc
    have hdv : docPath (JsVal.str vid) = some vid := hvp
    simp [createVehicleAssignment, hv, ha, ht, truthy_of_path vid hvp, hdv, hdoc]
  · intro hv hu hup ht hdoc havail huser
    have hvp : documentPath vid = some vid := getDoc_some_path _ _ _ hdoc
    have hdv : docPath (JsVal.str vid) = some vid := hvp
    have hdu : docPath (JsVal.str uid) = some uid := hup
    simp [createVehicleAssignment, hv, hu, ht, truthy_of_path vid hvp, truthy_of_path uid hup,
      hdv, hdu, hdoc, havail, huser]
  · intro h
    unfold createVehicleAssignment
    simp only
    rw [if_pos]
    rcases h with h | h | h <;> simp [h]
  · intro hv ha ht hnone
    simp [createVehicleAssignment, hv, ha, ht, hnone]

/-- Witness of C17: the unknown vehicle `V9`, the unknown assignee `U9`, a request without
`assignmentType`, and the vehicle id `a//b`, which names no document. -/
theorem create_missing_references_witness :
    createVehicleAssignment adminCtx "A1"
        [("vehicleId", JsVal.str "V9"), ("assignedTo", JsVal.str "U1"),
         ("assignmentType", JsVal.str "daily")] idleFleet
      = (failure 404 "Vehicle not found", idleFleet) ∧
    createVehicleAssignment adminCtx "A1"
        [("vehicleId", JsVal.str "V1"), ("assignedTo", JsVal.str "U9"),
         ("assignmentType", JsVal.str "daily")] idleFleet
      = (failure 404 "Assignee not found", idleFleet) ∧
    createVehicleAssignment adminCtx "A1"
        [("vehicleId", JsVal.str "V1"), ("assignedTo", JsVal.str "U1")] idleFleet
      = (failure 400 "Vehicle ID, assignee, and assignment type are required", idleFleet) ∧
    createVehicleAssignment adminCtx "A1"
        [("vehicleId", JsVal.str "a//b"), ("assignedTo", JsVal.str "U1"),
         ("assignmentType", JsVal.str "daily")] idleFleet
      = (failure 500 "Failed to create vehicle assignment", idleFleet) :=
  ⟨(create_missing_references adminCtx "A1" _ idleFleet "V9" "U1" []).1
      (by decide) (by decide) (by decide) (by decide) (by decide),
   (create_missing_references adminCtx "A1" _ idleFleet "V1" "U9"
      [("registrationNumber", JsVal.str "MH12AB1234"), ("status", JsVal.str "available")]).2.1
      (by decide) (by decide) (by decide) (by decide) (by decide) (by decide) (by decide),
   (create_missing_references adminCtx "A1" _ idleFleet "V1" "U1" []).2.2.1
      (Or.inr (Or.inr (by decide))),
   (create_missing_references adminCtx "A1" _ idleFleet "V1" "U1" []).2.2.2
      (by decide) (by decide) (by decide) (by decide)⟩

/-- C18. No handler changes the status of a feeder-point assignment. The router of
`routes/assignments.js` has no route for `PUT feeder-points/:id/status`, the path the
frontend calls; the only status handler, that of vehicle assignments, never writes the
feeder-point assignments; and sent the id of the active feeder-point assignment `F1` it
answers 404 "Assignment not found", so `F1` stays `active` with no terminal timestamp. -/
theorem feeder_point_status_change_unavailable :
    (∀ id : String, assignmentsRouter Method.PUT ["feeder-points", id, "status"] = none) ∧
    (∀ (ctx : Ctx) (id : String) (body : Doc) (w : Backend),
      (changeAssignmentStatus ctx id body w).2.feederPointAssignments
        = w.feederPointAssignments) ∧
    (getDoc feederState.feederPointAssignments "F1").map (fun d => getField d "status")
      = some (JsVal.str "active") ∧
    changeAssignmentStatus adminCtx "F1" [("status", JsVal.str "completed")] feederState
      = (failure 404 "Assignment not found", feederState) := by
  refine ⟨?_, changeAssignmentStatus_keeps_feederPointAssignments, by decide, by decide⟩
  intro id
  simp [assignmentsRouter]

/-- Apart from documents whose status is the text `total`, the statistics of
`GET /api/assignments/stats` are the document counts, and the store is not changed. -/
theorem assignmentStats_counts (w : Backend)
    (hva : ∀ p ∈ w.vehicleAssignments, statusKey p.2 ≠ some "total")
    (hfa : ∀ p ∈ w.feederPointAssignments, statusKey p.2 ≠ some "total") :
    (assignmentStats w).1.1 = 200 ∧ (assignmentStats w).2 = w ∧
    readCount (assignmentStats w).1.2.vehicleAssignments "total"
      = some w.vehicleAssignments.length ∧
    readCount (assignmentStats w).1.2.feederPointAssignments "total"
      = some w.feederPointAssignments.length ∧
    (∀ s ∈ ["active", "completed", "cancelled"],
      readCount (assignmentStats w).1.2.vehicleAssignments s
        = some (countWithStatus w.vehicleAssignments s) ∧
      readCount (assignmentStats w).1.2.feederPointAssignments s
        = some (countWithStatus w.feederPointAssignments s)) := by
  have hinit : textOnlyInherited
      [("total", 0), ("active", 0), ("completed", 0), ("cancelled", 0)] :=
    textOnlyInherited_of_counts _ (by decide)
  refine ⟨rfl, rfl, ?_, ?_, ?_⟩
  · exact readCount_countByStatus_total _ _ hinit rfl hva
  · exact readCount_countByStatus_total _ _ hinit rfl hfa
  · intro s hs
    simp only [List.mem_cons, List.mem_singleton, List.mem_nil_iff, or_false] at hs
    rcases hs with h | h | h <;> subst h <;>
      exact ⟨by
        show readCount (countByStatus _ _) _ = _
        rw [readCount_countByStatus_key _ _ _ hinit (by decide) (by decide)]
        exact tallied_zero _, by
        show readCount (countByStatus _ _) _ = _
        rw [readCount_countByStatus_key _ _ _ hinit (by decide) (by decide)]
        exact tallied_zero _⟩

/-- C19. The statistics count a document twice in `total` when its status is the text
`total`: with one vehicle assignment of that status, `GET /api/assignments/stats` answers 200
and reports `vehicleAssignments.total = 2`. -/
theorem stats_total_counts_status_total_twice :
    oddStatusState.vehicleAssignments.length = 1 ∧
    (oddStatusState.vehicleAssignments.map (fun p => getField p.2 "status"))
      = [JsVal.str "total"] ∧
    (assignmentStats oddStatusState).1.1 = 200 ∧
    readCount (assignmentStats oddStatusState).1.2.vehicleAssignments "total" = some 2 := by
  decide

/-- C20, as stated, fails: the dashboard counts vehicle assignments only and creates the
counter of a status only when it meets it. With one active feeder-point assignment and no
vehicle assignment it reports `assignments.total = 0` and `assignments.active = 0`, and it
has no key `assignments.cancelled` at all. -/
theorem dashboard_counts_vehicle_assignments_only :
    (feederState.vehicleAssignments ++ feederState.feederPointAssignments).length = 1 ∧
    countWithStatus (feederState.vehicleAssignments ++ feederState.feederPointAssignments)
      "active" = 1 ∧
    readCount (dashboard feederState).1.2.assignments "total" = some 0 ∧
    readCount (dashboard feederState).1.2.assignments "active" = some 0 ∧
    countWithStatus (feederState.vehicleAssignments ++ feederState.feederPointAssignments)
      "cancelled" = 0 ∧
    readCount (dashboard feederState).1.2.assignments "cancelled" = none := by
  decide

/-- C20, amended. For every content of the store in which no vehicle and no vehicle
assignment has the status text `total`, the dashboard answers 200, changes nothing, and
reports: `users.total` the number of users and `users.active` the number of users whose
`isActive` is truthy; `vehicles.total` the number of vehicles and `assignments.total` the
number of vehicle assignments; and for every status `s` other than `total` and the names of
the members that an object inherits from `Object.prototype`, `vehicles[s]` (resp.
`assignments[s]`) is the number of vehicles (resp. vehicle assignments) with status `s` when
`s` is one of the initial keys `available`, `assigned`, `maintenance` (resp. `active`,
`completed`) or some document has that status, the key being absent otherwise. -/
theorem dashboard_counts (w : Backend)
    (hv : ∀ p ∈ w.vehicles, statusKey p.2 ≠ some "total")
    (ha : ∀ p ∈ w.vehicleAssignments, statusKey p.2 ≠ some "total") :
    (dashboard w).1.1 = 200 ∧ (dashboard w).2 = w ∧
    readCount (dashboard w).1.2.users "total" = some w.users.length ∧
    readCount (dashboard w).1.2.users "active"
      = some (w.users.filter (fun p => (getField p.2 "isActive").truthy)).length ∧
    readCount (dashboard w).1.2.vehicles "total" = some w.vehicles.length ∧
    readCount (dashboard w).1.2.assignments "total" = some w.vehicleAssignments.length ∧
    (∀ s : String, s ≠ "total" → s ∉ objectPrototypeKeys →
      readCount (dashboard w).1.2.vehicles s
        = (if s ∈ ["available", "assigned", "maintenance"] ∨ countWithStatus w.vehicles s ≠ 0
           then some (countWithStatus w.vehicles s) else none) ∧
      readCount (dashboard w).1.2.assignments s
        = (if s ∈ ["active", "completed"] ∨ countWithStatus w.vehicleAssignments s ≠ 0
           then some (countWithStatus w.vehicleAssignments s) else none)) := by
  have hu0 : textOnlyInherited [("total", 0), ("active", 0), ("pending", 0)] :=
    textOnlyInherited_of_counts _ (by decide)
  have hv0 : textOnlyInherited
      [("total", 0), ("available", 0), ("assigned", 0), ("maintenance", 0)] :=
    textOnlyInherited_of_counts _ (by decide)
  have ha0 : textOnlyInherited [("total", 0), ("active", 0), ("completed", 0)] :=
    textOnlyInherited_of_counts _ (by decide)
  refine ⟨rfl, rfl, ?_, ?_, ?_, ?_, ?_⟩
  · show readCount (setCount _ _ _) _ = _
    rw [readCount_setCount, if_neg (by decide), readCount_usersLoop _ _ _ hu0 (by decide)]
    · simp [readCount, List.lookup, tallied_zero]
    · rw [readCount_usersLoop _ _ _ hu0 (by decide)]
      simp [readCount, List.lookup, tallied_zero]
  · show readCount (setCount _ _ _) _ = _
    rw [readCount_setCount, if_neg (by decide), readCount_usersLoop _ _ _ hu0 (by decide)]
    · simp [readCount, List.lookup, tallied_zero]
    · rw [readCount_usersLoop _ _ _ hu0 (by decide)]
      simp [readCount, List.lookup, tallied_zero]
  · exact readCount_countByStatus_total _ _ hv0 rfl hv
  · exact readCount_countByStatus_total _ _ ha0 rfl ha
  · intro s hs hproto
    constructor
    · show readCount (countByStatus _ _) _ = _
      rw [readCount_countByStatus_key _ _ _ hv0 hproto hs]
      by_cases h1 : s = "available"
      · subst h1; simp [readCount, List.lookup, tallied_zero]
      · by_cases h2 : s = "assigned"
        · subst h2; simp [readCount, List.lookup, tallied_zero]
        · by_cases h3 : s = "maintenance"
          · subst h3; simp [readCount, List.lookup, tallied_zero]
          · have hnone : readCount [("total", 0), ("available", 0), ("assigned", 0),
                ("maintenance", 0)] s = none := by
              have hl : List.lookup s ([("total", 0), ("available", 0), ("assigned", 0),
                  ("maintenance", 0)] : Counter) = none := by
                simp [List.lookup_eq_none_iff, hs, h1, h2, h3]
              unfold readCount
              rw [hl]
            rw [hnone, tallied_none]
            by_cases hc : countWithStatus w.vehicles s = 0 <;> simp [h1, h2, h3, hc]
    · show readCount (countByStatus _ _) _ = _
      rw [readCount_countByStatus_key _ _ _ ha0 hproto hs]
      by_cases h1 : s = "active"
      · subst h1; simp [readCount, List.lookup, tallied_zero]
      · by_cases h2 : s = "completed"
        · subst h2; simp [readCount, List.lookup, tallied_zero]
        · have hnone : readCount [("total", 0), ("active", 0), ("completed", 0)] s
              = none := by
            have hl : List.lookup s ([("total", 0), ("active", 0), ("completed", 0)]
                : Counter) = none := by
              simp [List.lookup_eq_none_iff, hs, h1, h2]
            unfold readCount
            rw [hl]
          rw [hnone, tallied_none]
          by_cases hc : countWithStatus w.vehicleAssignments s = 0 <;> simp [h1, h2, hc]

/-- Witness of C20 amended (Scenario D): three vehicles, two available and one assigned, and
two vehicle assignments, one active and one completed. -/
theorem dashboard_counts_witness :
    readCount (dashboard scenarioD).1.2.vehicles "total" = some 3 ∧
    readCount (dashboard scenarioD).1.2.vehicles "available" = some 2 ∧
    readCount (dashboard scenarioD).1.2.vehicles "assigned" = some 1 ∧
    readCount (dashboard scenarioD).1.2.assignments "total" = some 2 ∧
    readCount (dashboard scenarioD).1.2.assignments "active" = some 1 ∧
    readCount (dashboard scenarioD).1.2.assignments "completed" = some 1 ∧
    readCount (dashboard scenarioD).1.2.users "total" = some 2 ∧
    readCount (dashboard scenarioD).1.2.users "active" = some 1 :=
  have h := dashboard_counts scenarioD (by decide) (by decide)
  ⟨h.2.2.2.2.1, ((h.2.2.2.2.2.2 "available" (by decide) (by decide)).1).trans (by decide),
   ((h.2.2.2.2.2.2 "assigned" (by decide) (by decide)).1).trans (by decide),
   h.2.2.2.2.2.1, ((h.2.2.2.2.2.2 "active" (by decide) (by decide)).2).trans (by decide),
   ((h.2.2.2.2.2.2 "completed" (by decide) (by decide)).2).trans (by decide),
   h.2.2.1, h.2.2.2.1.trans (by decide)⟩

/-! ## Spread objects and records without the password -/

theorem keys_setField (d : Doc) (k : String) (v : JsVal) (k' : String)
    (h : k' ∈ (setField d k v).map Prod.fst) : k' ∈ d.map Prod.fst ∨ k' = k := by
  unfold setField at h
  split at h
  · left
    rw [List.map_map] at h
    obtain ⟨p, hp, rfl⟩ := List.mem_map.mp h
    by_cases hpk : p.1 = k
    · simp only [Function.comp, hpk, beq_self_eq_true, if_true]
      exact List.mem_map.mpr ⟨p, hp, hpk⟩
    · have hb : (p.1 == k) = false := by simpa using hpk
      simp only [Function.comp, hb]
      exact List.mem_map.mpr ⟨p, hp, rfl⟩
  · simp only [List.map_append, List.map_cons, List.map_nil, List.mem_append,
      List.mem_singleton] at h
    exact h

theorem keys_mergeDoc (rest base : Doc) (k' : String)
    (h : k' ∈ (mergeDoc base rest).map Prod.fst) :
    k' ∈ base.map Prod.fst ∨ k' ∈ rest.map Prod.fst := by
  induction rest generalizing base with
  | nil => exact Or.inl h
  | cons p rest ih =>
    have hstep : mergeDoc base (p :: rest) = mergeDoc (setField base p.1 p.2) rest := rfl
    rw [hstep] at h
    rcases ih _ h with h1 | h1
    · rcases keys_setField _ _ _ _ h1 with h2 | h2
      · exact Or.inl h2
      · right; simp [h2]
    · right; simp [h1]

theorem getField_of_not_mem_keys (d : Doc) (k : String) (h : k ∉ d.map Prod.fst) :
    getField d k = JsVal.undefined := by
  have : d.lookup k = none := by
    rw [List.lookup_eq_none_iff]
    intro p hp
    simp only [bne_iff_ne, ne_eq]
    intro e
    exact h (List.mem_map.mpr ⟨p, hp, e.symm⟩)
  simp [getField, this]

theorem getField_mergeDoc_nodup (rest base : Doc) (k : String)
    (h : (rest.map Prod.fst).Nodup) :
    getField (mergeDoc base rest) k
      = if k ∈ rest.map Prod.fst then getField rest k else getField base k := by
  induction rest generalizing base with
  | nil => simp [mergeDoc]
  | cons p rest ih =>
    obtain ⟨a, v⟩ := p
    have hstep : mergeDoc base ((a, v) :: rest) = mergeDoc (setField base a v) rest := rfl
    simp only [List.map_cons, List.nodup_cons] at h
    rw [hstep, ih _ h.2, getField_setField, getField_cons]
    by_cases hk : k = a
    · subst hk
      simp [h.1]
    · by_cases hm : k ∈ rest.map Prod.fst
      · simp [hk, hm]
      · simp [hk, hm, getField_of_not_mem_keys rest k hm]

theorem keys_omitPassword (d : Doc) (k : String) :
    k ∈ (omitPassword d).map Prod.fst ↔ k ∈ d.map Prod.fst ∧ k ≠ "password" := by
  unfold omitPassword
  constructor
  · intro h
    obtain ⟨p, hp, rfl⟩ := List.mem_map.mp h
    obtain ⟨hp1, hp2⟩ := List.mem_filter.mp hp
    exact ⟨List.mem_map.mpr ⟨p, hp1, rfl⟩, by simpa using hp2⟩
  · rintro ⟨h, hne⟩
    obtain ⟨p, hp, rfl⟩ := List.mem_map.mp h
    exact List.mem_map.mpr ⟨p, List.mem_filter.mpr ⟨hp, by simpa using hne⟩, rfl⟩

theorem getField_omitPassword (d : Doc) (k : String) (hk : k ≠ "password") :
    getField (omitPassword d) k = getField d k := by
  unfold omitPassword getField
  have : (d.filter (fun p => p.1 != "password")).lookup k = d.lookup k := by
    induction d with
    | nil => rfl
    | cons p d ih =>
      obtain ⟨a, v⟩ := p
      rw [List.filter_cons]
      by_cases ha : a = "password"
      · subst ha
        simp only [bne_self_eq_false, Bool.false_eq_true, if_false]
        rw [ih, lookup_cons_ne _ _ _ _ hk]
      · have hb : (a != "password") = true := by simpa using ha
        simp only [hb, if_true]
        by_cases hka : k = a
        · subst hka; rw [lookup_cons_eq, lookup_cons_eq]
        · rw [lookup_cons_ne _ _ _ _ hka, lookup_cons_ne _ _ _ _ hka, ih]
  rw [this]

theorem nodup_omitPassword (d : Doc) (h : (d.map Prod.fst).Nodup) :
    ((omitPassword d).map Prod.fst).Nodup := by
  unfold omitPassword
  exact (List.Nodup.sublist (List.Sublist.map _ (List.filter_sublist d)) h)

theorem spreadAfter_agrees (key : String) (value : JsVal) (d : Doc) (hkey : key ≠ "password")
    (hd : (d.map Prod.fst).Nodup) :
    agreesWithoutPassword (spreadAfter key value (omitPassword d)) d := by
  have hno : "password" ∉ (spreadAfter key value (omitPassword d)).map Prod.fst := by
    intro h
    rcases keys_mergeDoc _ _ _ h with h1 | h1
    · simp at h1
      exact hkey h1.symm
    · exact ((keys_omitPassword d "password").mp h1).2 rfl
  refine ⟨?_, getField_of_not_mem_keys _ _ hno, ?_⟩
  · intro p hp e
    exact hno (List.mem_map.mpr ⟨p, hp, e⟩)
  · intro k hk hmem
    unfold spreadAfter
    rw [getField_mergeDoc_nodup _ _ _ (nodup_omitPassword d hd),
      if_pos ((keys_omitPassword d k).mpr ⟨hmem, hk⟩), getField_omitPassword d k hk]

/-! ## Permission middleware, returned user records and paging -/

/-- C27. For every permission name and every request, `requirePermission` answers 401 when
the request has no user, answers 403 when the user's `permissions[p]` is not truthy, and
calls `next` (sending nothing) exactly when the request has a user whose `permissions[p]` is
truthy; it does not throw when the user has a permission map. Here `permissions[p]` is the
JavaScript property read: for a name that is not a member of `Object.prototype` it is truthy
exactly when the map has the entry `p: true`. -/
theorem requirePermission_outcomes (p : String) (user : Option ReqUser) :
    (user = none →
      requirePermission p user = Outcome.responded (failure 401 "Authentication required")) ∧
    (∀ u m, user = some u → u.permissions = some m → readFlag m p = false →
      requirePermission p user
        = Outcome.responded (failure 403 ("Permission denied. Required permission: " ++ p))) ∧
    (requirePermission p user = Outcome.next ↔
      ∃ u m, user = some u ∧ u.permissions = some m ∧ readFlag m p = true) ∧
    (∀ u m, user = some u → u.permissions = some m →
      requirePermission p user ≠ Outcome.thrown) ∧
    (∀ m : List (String × Bool), p ∉ objectPrototypeKeys →
      (readFlag m p = true ↔ m.lookup p = some true)) := by
  refine ⟨?_, ?_, ?_, ?_, ?_⟩
  · intro h
    subst h
    rfl
  · intro u m hu hm hf
    subst hu
    simp [requirePermission, hm, hf]
  · constructor
    · intro h
      cases user with
      | none => simp [requirePermission] at h
      | some u =>
        cases hm : u.permissions with
        | none => simp [requirePermission, hm] at h
        | some m =>
          refine ⟨u, m, rfl, hm, ?_⟩
          cases hf : readFlag m p with
          | true => rfl
          | false => simp [requirePermission, hm, hf] at h
    · rintro ⟨u, m, hu, hm, hf⟩
      subst hu
      simp [requirePermission, hm, hf]
  · intro u m hu hm
    subst hu
    cases hf : readFlag m p <;> simp [requirePermission, hm, hf]
  · intro m hp
    unfold readFlag
    cases hl : m.lookup p with
    | none => simp [hp]
    | some b => simp

/-- Witness of C27: no user; the contractor `U7` asked for `canManageUsers` and for
`canManageVehicles`. -/
theorem requirePermission_outcomes_witness :
    requirePermission "canManageUsers" none
      = Outcome.responded (failure 401 "Authentication required") ∧
    requirePermission "canManageUsers" (some contractorUser)
      = Outcome.responded
          (failure 403 ("Permission denied. Required permission: " ++ "canManageUsers")) ∧
    requirePermission "canManageVehicles" (some contractorUser) = Outcome.next ∧
    requirePermission "canManageVehicles" (some contractorUser) ≠ Outcome.thrown :=
  ⟨(requirePermission_outcomes "canManageUsers" none).1 rfl,
   (requirePermission_outcomes "canManageUsers" (some contractorUser)).2.1 contractorUser _
      rfl rfl (by decide),
   (requirePermission_outcomes "canManageVehicles" (some contractorUser)).2.2.1.mpr
      ⟨contractorUser, _, rfl, rfl, by decide⟩,
   (requirePermission_outcomes "canManageVehicles" (some contractorUser)).2.2.2.1
      contractorUser _ rfl rfl⟩

theorem spreadAfter_no_password (key : String) (value : JsVal) (d : Doc)
    (hkey : key ≠ "password") :
    ∀ q ∈ spreadAfter key value (omitPassword d), q.1 ≠ "password" := by
  intro q hq e
  have h : "password" ∈ (spreadAfter key value (omitPassword d)).map Prod.fst :=
    List.mem_map.mpr ⟨q, hq, e⟩
  rcases keys_mergeDoc _ _ _ h with h1 | h1
  · simp at h1
    exact hkey h1.symm
  · exact ((keys_omitPassword d "password").mp h1).2 rfl

/-- The records built from a snapshot: as many as documents, none with a `password` key, the
one at each position being the record of the document at that position. -/
theorem records_of_snapshot (snapshot : Collection) :
    (snapshot.map (fun p => safeUserRecord p.1 p.2)).length = snapshot.length
      ∧ (∀ r ∈ snapshot.map (fun p => safeUserRecord p.1 p.2), ∀ q ∈ r, q.1 ≠ "password")
      ∧ ∀ (i : Nat) (p : String × Doc), snapshot[i]? = some p →
          ∃ r, (snapshot.map (fun p => safeUserRecord p.1 p.2))[i]? = some r
            ∧ r = safeUserRecord p.1 p.2
            ∧ ((p.2.map Prod.fst).Nodup → agreesWithoutPassword r p.2) := by
  refine ⟨List.length_map _ _, ?_, ?_⟩
  · intro r hr
    obtain ⟨p, _, hpr⟩ := List.mem_map.mp hr
    rw [← hpr]
    exact spreadAfter_no_password "id" _ p.2 (by decide)
  · intro i p hi
    refine ⟨safeUserRecord p.1 p.2, ?_, rfl, ?_⟩
    · rw [List.getElem?_map, hi]
      rfl
    · exact spreadAfter_agrees "id" _ p.2 (by decide)

/-- C28. For every stored user document, with or without a `password` field: the user list
and the users export return one record for each document of their snapshot, in order, and
every record they return is without a `password` key; the `data` returned by a successful
token verification and by the profile read is without a `password` key as well; and each of
these records (`{ id: doc.id, ...safeUserData }`, resp. `{ uid, ...safeUserData }`) agrees
with its document, a JavaScript object and so with distinct keys, on every other field of
the document. -/
theorem user_records_omit_password (w : Backend) (snapshot : Collection)
    (verifyIdToken : JsVal → TokenCheck) (body : Doc) (uid : String) :
    ((userListRecords snapshot).length = snapshot.length
      ∧ (∀ r ∈ userListRecords snapshot, ∀ q ∈ r, q.1 ≠ "password")
      ∧ ∀ (i : Nat) (p : String × Doc), snapshot[i]? = some p →
          ∃ r, (userListRecords snapshot)[i]? = some r
            ∧ r = safeUserRecord p.1 p.2
            ∧ ((p.2.map Prod.fst).Nodup → agreesWithoutPassword r p.2)) ∧
    ((exportUsers w).length = w.users.length
      ∧ (∀ r ∈ exportUsers w, ∀ q ∈ r, q.1 ≠ "password")
      ∧ ∀ (i : Nat) (p : String × Doc), w.users[i]? = some p →
          ∃ r, (exportUsers w)[i]? = some r
            ∧ r = safeUserRecord p.1 p.2
            ∧ ((p.2.map Prod.fst).Nodup → agreesWithoutPassword r p.2)) ∧
    ((verifyToken verifyIdToken body w).status = 200 →
      ∃ id path d, verifyIdToken (getField body "token") = TokenCheck.verified id ∧
        docPath (JsVal.str id) = some path ∧
        getDoc w.users path = some d ∧
        (∀ q ∈ (verifyToken verifyIdToken body w).data, q.1 ≠ "password") ∧
        ((d.map Prod.fst).Nodup →
          agreesWithoutPassword (verifyToken verifyIdToken body w).data d)) ∧
    (∀ d, getDoc w.users uid = some d →
      (getProfile uid w).status = 200 ∧
      (∀ q ∈ (getProfile uid w).data, q.1 ≠ "password") ∧
      ((d.map Prod.fst).Nodup → agreesWithoutPassword (getProfile uid w).data d)) := by
  refine ⟨records_of_snapshot snapshot, records_of_snapshot w.users, ?_, ?_⟩
  · intro hok
    unfold verifyToken at hok ⊢
    simp only at hok ⊢
    split at hok
    · simp [failure] at hok
    · cases hc : verifyIdToken (getField body "token") with
      | expired => simp [hc, failure] at hok
      | revoked => simp [hc, failure] at hok
      | invalid => simp [hc, failure] at hok
      | verified id =>
        simp only [hc] at hok ⊢
        cases hpath : docPath (JsVal.str id) with
        | none => simp [hpath, failure] at hok
        | some path =>
          simp only [hpath] at hok ⊢
          cases hd : getDoc w.users path with
          | none => simp [hd, failure] at hok
          | some d =>
            simp only [hd] at hok ⊢
            refine ⟨id, path, d, rfl, hpath, hd, ?_⟩
            split at hok
            · simp [failure] at hok
            · split at hok
              · simp [failure] at hok
              · rename_i h0 h1 h2
                simp only [h0, h1, h2, if_false, Bool.false_eq_true]
                exact ⟨spreadAfter_no_password "uid" _ d (by decide),
                  spreadAfter_agrees "uid" _ d (by decide)⟩
  · intro d hd
    have hp : docPath (JsVal.str uid) = some uid := getDoc_some_path _ _ _ hd
    simp only [getProfile, hp, hd]
    exact ⟨trivial, spreadAfter_no_password "uid" _ d (by decide),
      spreadAfter_agrees "uid" _ d (by decide)⟩

/-- Witness of C28: the administrator document `U5` of `vault`, which stores a password, as
returned by the list, the export, the token verification and the profile read. -/
theorem user_records_omit_password_witness :
    (∃ r, (userListRecords vault.users)[0]? = some r ∧
      r = [("id", JsVal.str "U5"), ("email", JsVal.str "kiran@example.org"),
           ("role", JsVal.str "admin"), ("isActive", JsVal.bool true)] ∧
      agreesWithoutPassword r
        [("email", JsVal.str "kiran@example.org"), ("password", JsVal.str "plain-text-pw"),
         ("role", JsVal.str "admin"), ("isActive", JsVal.bool true)]) ∧
    (∃ r, (exportUsers vault)[0]? = some r ∧
      r = [("id", JsVal.str "U5"), ("email", JsVal.str "kiran@example.org"),
           ("role", JsVal.str "admin"), ("isActive", JsVal.bool true)] ∧
      agreesWithoutPassword r
        [("email", JsVal.str "kiran@example.org"), ("password", JsVal.str "plain-text-pw"),
         ("role", JsVal.str "admin"), ("isActive", JsVal.bool true)]) ∧
    (∃ id path d, acceptAsU5 (getField [("token", JsVal.str "tok")] "token")
        = TokenCheck.verified id ∧
      docPath (JsVal.str id) = some path ∧
      getDoc vault.users path = some d ∧
      (∀ q ∈ (verifyToken acceptAsU5 [("token", JsVal.str "tok")] vault).data,
        q.1 ≠ "password") ∧
      ((d.map Prod.fst).Nodup →
        agreesWithoutPassword
          (verifyToken acceptAsU5 [("token", JsVal.str "tok")] vault).data d)) ∧
    ((getProfile "U5" vault).status = 200 ∧
      (∀ q ∈ (getProfile "U5" vault).data, q.1 ≠ "password") ∧
      agreesWithoutPassword (getProfile "U5" vault).data
        [("email", JsVal.str "kiran@example.org"), ("password", JsVal.str "plain-text-pw"),
         ("role", JsVal.str "admin"), ("isActive", JsVal.bool true)]) :=
  have h := user_records_omit_password vault vault.users acceptAsU5
    [("token", JsVal.str "tok")] "U5"
  have h1 := h.1.2.2 0 ("U5", _) rfl
  have h2 := h.2.1.2.2 0 ("U5", _) rfl
  have h4 := h.2.2.2 _ (show getDoc vault.users "U5" = some _ by decide)
  ⟨by
    obtain ⟨r, hr, hrec, hag⟩ := h1
    exact ⟨r, hr, hrec.trans (by decide), hag (by decide)⟩,
   by
    obtain ⟨r, hr, hrec, hag⟩ := h2
    exact ⟨r, hr, hrec.trans (by decide), hag (by decide)⟩,
   h.2.2.1 (by decide), h4.1, h4.2.1, h4.2.2 (by decide)⟩

theorem pageSlice_eq {α : Type} (list : List α) (page limit : Nat) :
    pageSlice list page limit = (list.drop ((page - 1) * limit)).take limit := by
  unfold pageSlice
  rw [Nat.add_sub_cancel_left]

theorem pageCount_le_iff (length limit k : Nat) (hl : 1 ≤ limit) :
    pageCount length limit ≤ k ↔ length ≤ k * limit := by
  unfold pageCount
  have hpos : (0 : ℚ) < (limit : ℚ) := by exact_mod_cast hl
  rw [Nat.ceil_le, div_le_iff₀ hpos]
  exact_mod_cast Iff.rfl

theorem flatMap_pages {α : Type} (list : List α) (limit m : Nat) :
    (List.range m).flatMap (fun j => pageSlice list (j + 1) limit) = list.take (m * limit) := by
  induction m with
  | zero => simp
  | succ m ih =>
    rw [List.range_succ, List.flatMap_append, ih]
    simp only [List.flatMap_cons, List.flatMap_nil, List.append_nil]
    rw [pageSlice_eq, Nat.add_sub_cancel, Nat.succ_mul, List.take_add]

/-- C25. Paging of a filtered and searched list `L` with page number `p ≥ 1` and page size
`n ≥ 1`, as done by `GET /api/users` and `GET /api/vehicles`: the page holds the elements of
`L` at positions `(p-1)·n` up to, not including, `min(p·n, |L|)`, in order; `total` is `|L|`;
`pages` is the ceiling of `|L| / n`, the least `k` with `|L| ≤ k·n`; the pages `1..pages`
concatenated give `L`; and every page beyond `pages` is empty. -/
theorem pagination_covers_list {α : Type} (L : List α) (p n : Nat) (hp : 1 ≤ p) (hn : 1 ≤ n) :
    (∀ i, (paginate L p n).1[i]? = if i < n then L[(p - 1) * n + i]? else none) ∧
    (paginate L p n).1.length = min (p * n) L.length - (p - 1) * n ∧
    (paginate L p n).2.total = L.length ∧
    (paginate L p n).2.pages = ⌈(L.length : ℚ) / (n : ℚ)⌉₊ ∧
    (∀ k, (paginate L p n).2.pages ≤ k ↔ L.length ≤ k * n) ∧
    (List.range (paginate L p n).2.pages).flatMap (fun j => (paginate L (j + 1) n).1) = L ∧
    ((paginate L p n).2.pages < p → (paginate L p n).1 = []) := by
  have hpn : p * n = (p - 1) * n + n := by
    obtain ⟨q, rfl⟩ : ∃ q, p = q + 1 := ⟨p - 1, by omega⟩
    simp [Nat.succ_mul]
  refine ⟨?_, ?_, rfl, rfl, fun k => pageCount_le_iff _ _ k hn, ?_, ?_⟩
  · intro i
    show (pageSlice L p n)[i]? = _
    rw [pageSlice_eq, List.getElem?_take, List.getElem?_drop]
  · show (pageSlice L p n).length = _
    rw [pageSlice_eq, List.length_take, List.length_drop, hpn]
    omega
  · show (List.range (pageCount L.length n)).flatMap (fun j => pageSlice L (j + 1) n) = L
    rw [flatMap_pages]
    exact List.take_of_length_le ((pageCount_le_iff _ _ _ hn).mp le_rfl)
  · intro hlt
    show pageSlice L p n = []
    rw [pageSlice_eq]
    have h1 : L.length ≤ (pageCount L.length n) * n := (pageCount_le_iff _ _ _ hn).mp le_rfl
    have h2 : (pageCount L.length n) * n ≤ (p - 1) * n :=
      Nat.mul_le_mul_right n (by
        have : pageCount L.length n < p := hlt
        omega)
    rw [List.drop_eq_nil_of_le (le_trans h1 h2)]
    exact List.take_nil

/-- Witness of C25: seven elements in pages of three; page 3 holds the last element and
page 4 is empty. -/
theorem pagination_covers_list_witness :
    (∀ i, (paginate ["a", "b", "c", "d", "e", "f", "g"] 3 3).1[i]?
        = if i < 3 then ["a", "b", "c", "d", "e", "f", "g"][(3 - 1) * 3 + i]? else none) ∧
    (paginate ["a", "b", "c", "d", "e", "f", "g"] 3 3).1.length
      = min (3 * 3) ["a", "b", "c", "d", "e", "f", "g"].length - (3 - 1) * 3 ∧
    (paginate ["a", "b", "c", "d", "e", "f", "g"] 3 3).2.total
      = ["a", "b", "c", "d", "e", "f", "g"].length ∧
    (paginate ["a", "b", "c", "d", "e", "f", "g"] 3 3).2.pages
      = ⌈(["a", "b", "c", "d", "e", "f", "g"].length : ℚ) / ((3 : ℕ) : ℚ)⌉₊ ∧
    (∀ k, (paginate ["a", "b", "c", "d", "e", "f", "g"] 3 3).2.pages ≤ k
        ↔ ["a", "b", "c", "d", "e", "f", "g"].length ≤ k * 3) ∧
    (List.range (paginate ["a", "b", "c", "d", "e", "f", "g"] 3 3).2.pages).flatMap
        (fun j => (paginate ["a", "b", "c", "d", "e", "f", "g"] (j + 1) 3).1)
      = ["a", "b", "c", "d", "e", "f", "g"] ∧
    ((paginate ["a", "b", "c", "d", "e", "f", "g"] 3 3).2.pages < 3 →
      (paginate ["a", "b", "c", "d", "e", "f", "g"] 3 3).1 = []) :=
  pagination_covers_list ["a", "b", "c", "d", "e", "f", "g"] 3 3 (by decide) (by decide)

/-! ## Rates and durations of the reports -/

theorem mem_putEntry {α : Type} (m : List (String × α)) (k : String) (v : α)
    (q : String × α) (h : q ∈ putEntry m k v) : q ∈ m ∨ q = (k, v) := by
  unfold putEntry at h
  split at h
  · obtain ⟨p, hp, hq⟩ := List.mem_map.mp h
    by_cases hpk : (p.1 == k) = true
    · right
      simp only [hpk, if_true] at hq
      exact hq.symm
    · left
      simp only [hpk] at hq
      simp only [Bool.false_eq_true, if_false] at hq
      exact hq ▸ hp
  · simp only [List.mem_append, List.mem_singleton] at h
    exact h

theorem lookup_putEntry {α : Type} (m : List (String × α)) (k : String) (v : α)
    (k' : String) :
    (putEntry m k v).lookup k' = if k' = k then some v else m.lookup k' := by
  unfold putEntry
  by_cases hany : m.any (fun p => p.1 == k) = true
  · rw [if_pos hany]
    have hmap : m.map (fun p => if p.1 == k then (k, v) else p)
        = m.map (fun p => if p.1 == k then (p.1, (fun _ => v) p.2) else p) := by
      apply List.map_congr_left
      intro p _
      by_cases hpk : (p.1 == k) = true
      · have : p.1 = k := by simpa using hpk
        simp [this]
      · simp [hpk]
    rw [hmap, lookup_map_entry m k (fun _ => v) k']
    by_cases hk : k' = k
    · subst hk
      obtain ⟨p, hp, hpk⟩ := List.any_eq_true.mp hany
      have hpk' : p.1 = k' := by simpa using hpk
      obtain ⟨b, hb⟩ : ∃ b, m.lookup k' = some b := hpk' ▸ lookup_of_mem m p hp
      simp [hb]
    · simp [hk]
  · rw [if_neg hany, lookup_append_single]
    by_cases hk : k' = k
    · subst hk
      have hnone : m.lookup k' = none := by
        rw [List.lookup_eq_none_iff]
        intro p hp
        have := hany
        simp only [List.any_eq_true, not_exists, not_and] at this
        have h3 := this p hp
        simp only [bne_iff_ne, ne_eq]
        intro h4
        apply h3
        simp [h4]
      simp [hnone]
    · cases h : m.lookup k' <;> simp [hk]

theorem mem_foldl_putEntry {α β : Type} (key : β → String) (f : β → α) (vs : List β)
    (acc : List (String × α)) (q : String × α)
    (h : q ∈ vs.foldl (fun data v => putEntry data (key v) (f v)) acc) :
    q ∈ acc ∨ ∃ v ∈ vs, q = (key v, f v) := by
  induction vs generalizing acc with
  | nil => exact Or.inl h
  | cons v vs ih =>
    rw [List.foldl_cons] at h
    rcases ih _ h with h1 | ⟨v', hv', hq⟩
    · rcases mem_putEntry _ _ _ _ h1 with h2 | h2
      · exact Or.inl h2
      · exact Or.inr ⟨v, List.mem_cons_self _ _, h2⟩
    · exact Or.inr ⟨v', List.mem_cons_of_mem _ hv', hq⟩

/-- After the loop the map holds, under the key of each element, the value computed for an
element of that key; the other keys read as before. -/
theorem lookup_foldl_putEntry {α β : Type} (key : β → String) (f : β → α) (vs : List β)
    (acc : List (String × α)) (k : String) :
    (∃ v ∈ vs, key v = k
        ∧ (vs.foldl (fun data v => putEntry data (key v) (f v)) acc).lookup k = some (f v))
      ∨ ((∀ v ∈ vs, key v ≠ k)
        ∧ (vs.foldl (fun data v => putEntry data (key v) (f v)) acc).lookup k
            = acc.lookup k) := by
  induction vs generalizing acc with
  | nil => exact Or.inr ⟨fun v hv => absurd hv (List.not_mem_nil _), rfl⟩
  | cons v vs ih =>
    rw [List.foldl_cons]
    rcases ih (putEntry acc (key v) (f v)) with ⟨v', hv', hk, hl⟩ | ⟨hnone, hl⟩
    · exact Or.inl ⟨v', List.mem_cons_of_mem _ hv', hk, hl⟩
    · rw [lookup_putEntry] at hl
      by_cases hkv : k = key v
      · left
        refine ⟨v, List.mem_cons_self _ _, hkv.symm, ?_⟩
        rw [hl, if_pos hkv]
      · right
        refine ⟨?_, ?_⟩
        · intro v' hv'
          rcases List.mem_cons.mp hv' with h1 | h1
          · rw [h1]
            exact fun e => hkv e.symm
          · exact hnone v' h1
        · rw [hl, if_neg hkv]

/-- When no vehicle key names an inherited member, the loop over the vehicles does not throw
and is the plain loop of assignments to `utilizationData`. -/
theorem foldl_utilization (assignments : Collection) (vs : List Doc)
    (acc : List (String × UtilizationEntry))
    (hv : ∀ v ∈ vs, propertyKey (getField v "id") ∉ objectPrototypeKeys) :
    vs.foldl
        (fun utilizationData vehicle =>
          match utilizationData, utilizationEntry assignments vehicle with
          | some data, some entry =>
            some (putEntry data (propertyKey (getField vehicle "id")) entry)
          | _, _ => none)
        (some acc)
      = some (vs.foldl
          (fun data v => putEntry data (propertyKey (getField v "id"))
            (entryFor v ((assignments.filter
              (fun p => propertyKey (getField p.2 "vehicleId")
                == propertyKey (getField v "id"))).map (fun p => p.2))))
          acc) := by
  induction vs generalizing acc with
  | nil => rfl
  | cons v vs ih =>
    have hk : objectPrototypeKeys.contains (propertyKey (getField v "id")) = false := by
      simpa using hv v (List.mem_cons_self _ _)
    have he : utilizationEntry assignments v
        = some (entryFor v ((assignments.filter
            (fun p => propertyKey (getField p.2 "vehicleId")
              == propertyKey (getField v "id"))).map (fun p => p.2))) := by
      unfold utilizationEntry assignmentsByVehicle
      rw [hk]
      rfl
    rw [List.foldl_cons, List.foldl_cons, he]
    exact ih _ (fun v' hv' => hv v' (List.mem_cons_of_mem _ hv'))

theorem entryFor_total (vehicle : Doc) (assignments : Collection) (key : String) :
    (entryFor vehicle ((assignments.filter
        (fun p => propertyKey (getField p.2 "vehicleId") == key)).map
          (fun p => p.2))).totalAssignments
      = (assignments.filter
          (fun p => propertyKey (getField p.2 "vehicleId") == key)).length := by
  simp [entryFor]

theorem entryFor_active (vehicle : Doc) (assignments : Collection) (key : String) :
    (entryFor vehicle ((assignments.filter
        (fun p => propertyKey (getField p.2 "vehicleId") == key)).map
          (fun p => p.2))).activeAssignments
      = (assignments.filter
          (fun p => propertyKey (getField p.2 "vehicleId") == key
            && getField p.2 "status" == JsVal.str "active")).length := by
  show ((List.map _ _).filter _).length = _
  rw [List.filter_map, List.length_map, List.filter_filter]
  congr 1
  apply List.filter_congr
  intro p _
  simp [Function.comp, Bool.and_comm]

theorem utilizationRate_eq (vehicle : Doc) (list : List Doc) :
    (entryFor vehicle list).utilizationRate
      = if (entryFor vehicle list).totalAssignments > 0 then
          (((entryFor vehicle list).activeAssignments : ℚ)
            / ((entryFor vehicle list).totalAssignments : ℚ)) * 100
        else 0 := rfl

theorem active_le_total (vehicle : Doc) (list : List Doc) :
    (entryFor vehicle list).activeAssignments ≤ (entryFor vehicle list).totalAssignments :=
  List.length_filter_le _ _

theorem percentage_bounds (a t : Nat) (h : a ≤ t) :
    (0 : ℚ) ≤ (if t > 0 then ((a : ℚ) / (t : ℚ)) * 100 else 0)
      ∧ (if t > 0 then ((a : ℚ) / (t : ℚ)) * 100 else 0) ≤ (100 : ℚ) := by
  by_cases ht : t > 0
  · have ht' : (0 : ℚ) < (t : ℚ) := by exact_mod_cast ht
    have ha : (a : ℚ) ≤ (t : ℚ) := by exact_mod_cast h
    have h0 : (0 : ℚ) ≤ (a : ℚ) := by positivity
    simp only [ht, if_true]
    constructor
    · positivity
    · have : (a : ℚ) / (t : ℚ) ≤ 1 := (div_le_one ht').mpr ha
      linarith
  · simp [ht]

theorem percentage_eq (a t : Nat) :
    (if t > 0 then ((a : ℚ) / (t : ℚ)) * 100 else 0)
      = if t = 0 then 0 else 100 * (a : ℚ) / (t : ℚ) := by
  by_cases ht : t = 0
  · simp [ht]
  · have : t > 0 := Nat.pos_of_ne_zero ht
    simp only [this, if_true, ht, if_false]
    ring

/-- The report fails as a whole when the `vehicleId` of an assignment, or the id of a
vehicle, names a member inherited from `Object.prototype`. -/
theorem vehicleReport_inherited_key_fails :
    vehicleReportUtilization none none
        { reassignedFleet with
          vehicleAssignments :=
            [("A1", [("vehicleId", JsVal.str "constructor"),
                     ("status", JsVal.str "active")])] } = none
      ∧ vehicleReportUtilization none none
        { emptyBackend with
          vehicles := [("toString", [("registrationNumber", JsVal.str "MH12AB1234")])] }
          = none := by
  constructor <;> rfl

/-- C21, as the code has it: the vehicle report of a fleet in which vehicle `V1` has one
active assignment out of two gives `V1` the utilization rate 50, which is neither the
quotient 1/2 nor a number between 0 and 1. -/
theorem utilization_rate_exceeds_one :
    ∃ report e, vehicleReportUtilization none none reassignedFleet = some report
      ∧ ("V1", e) ∈ report
      ∧ e.activeAssignments = 1 ∧ e.totalAssignments = 2
      ∧ e.utilizationRate = 50
      ∧ e.utilizationRate ≠ (e.activeAssignments : ℚ) / (e.totalAssignments : ℚ)
      ∧ ¬ e.utilizationRate ≤ 1 := by
  have h1 : (entryFor
      (spreadAfter "id" (JsVal.str "V1")
        [("registrationNumber", JsVal.str "MH12AB1234"), ("status", JsVal.str "assigned")])
      ((reassignedFleet.vehicleAssignments.filter
        (fun p => propertyKey (getField p.2 "vehicleId") == "V1")).map
          (fun p => p.2))).activeAssignments = 1 := by decide
  have h2 : (entryFor
      (spreadAfter "id" (JsVal.str "V1")
        [("registrationNumber", JsVal.str "MH12AB1234"), ("status", JsVal.str "assigned")])
      ((reassignedFleet.vehicleAssignments.filter
        (fun p => propertyKey (getField p.2 "vehicleId") == "V1")).map
          (fun p => p.2))).totalAssignments = 2 := by decide
  have hr : vehicleReportUtilization none none reassignedFleet
      = some [("V1", entryFor
          (spreadAfter "id" (JsVal.str "V1")
            [("registrationNumber", JsVal.str "MH12AB1234"),
             ("status", JsVal.str "assigned")])
          ((reassignedFleet.vehicleAssignments.filter
            (fun p => propertyKey (getField p.2 "vehicleId") == "V1")).map
              (fun p => p.2)))] := rfl
  refine ⟨_, _, hr, List.mem_singleton.mpr rfl, h1, h2, ?_, ?_, ?_⟩
  · rw [utilizationRate_eq, h1, h2]
    norm_num
  · rw [utilizationRate_eq, h1, h2]
    norm_num
  · rw [utilizationRate_eq, h1, h2]
    norm_num

/-- C21, amended: when no vehicle id and no `vehicleId` of an assignment names a member
inherited from `Object.prototype`, the vehicle report is computed and has one entry for
every vehicle of the snapshot, under the vehicle's id, and no other entry. The total of the
entry is the number of vehicle assignments whose `vehicleId` names that vehicle, its active
count the number of those with status `active`, and its utilization rate is the percentage
100 × active / total, zero when the vehicle has no assignment, so it lies between 0 and
100. -/
theorem utilization_rate_is_percentage (startDate endDate : Option Nat) (w : Backend)
    (ha : ∀ p ∈ w.vehicleAssignments,
      propertyKey (getField p.2 "vehicleId") ∉ objectPrototypeKeys)
    (hv : ∀ v ∈ withIds (reportQuery w.vehicles "createdAt" startDate endDate),
      propertyKey (getField v "id") ∉ objectPrototypeKeys) :
    ∃ report, vehicleReportUtilization startDate endDate w = some report
      ∧ (∀ k e, (k, e) ∈ report →
          ∃ v ∈ withIds (reportQuery w.vehicles "createdAt" startDate endDate),
            k = propertyKey (getField v "id"))
      ∧ ∀ v ∈ withIds (reportQuery w.vehicles "createdAt" startDate endDate),
          ∃ e, report.lookup (propertyKey (getField v "id")) = some e
            ∧ propertyKey e.vehicleId = propertyKey (getField v "id")
            ∧ e.totalAssignments
                = (w.vehicleAssignments.filter
                    (fun p => propertyKey (getField p.2 "vehicleId")
                      == propertyKey (getField v "id"))).length
            ∧ e.activeAssignments
                = (w.vehicleAssignments.filter
                    (fun p => propertyKey (getField p.2 "vehicleId")
                        == propertyKey (getField v "id")
                      && getField p.2 "status" == JsVal.str "active")).length
            ∧ e.utilizationRate
                = (if e.totalAssignments = 0 then 0
                   else 100 * (e.activeAssignments : ℚ) / (e.totalAssignments : ℚ))
            ∧ 0 ≤ e.utilizationRate ∧ e.utilizationRate ≤ 100 := by
  have hg : groupingThrows w.vehicleAssignments = false := by
    unfold groupingThrows
    rw [List.any_eq_false]
    intro p hp
    simpa using ha p hp
  refine ⟨(withIds (reportQuery w.vehicles "createdAt" startDate endDate)).foldl
      (fun data v => putEntry data (propertyKey (getField v "id"))
        (entryFor v ((w.vehicleAssignments.filter
          (fun p => propertyKey (getField p.2 "vehicleId")
            == propertyKey (getField v "id"))).map (fun p => p.2))))
      [], ?_, ?_, ?_⟩
  · unfold vehicleReportUtilization
    rw [hg]
    simp only [Bool.false_eq_true, if_false]
    exact foldl_utilization _ _ _ hv
  · intro k e hke
    rcases mem_foldl_putEntry _ _ _ _ _ hke with h0 | ⟨v, hv', hq⟩
    · simp at h0
    · exact ⟨v, hv', (Prod.mk.inj hq).1⟩
  · intro v hv'
    rcases lookup_foldl_putEntry (fun v : Doc => propertyKey (getField v "id"))
        (fun v : Doc => entryFor v ((w.vehicleAssignments.filter
          (fun p => propertyKey (getField p.2 "vehicleId")
            == propertyKey (getField v "id"))).map (fun p => p.2)))
        (withIds (reportQuery w.vehicles "createdAt" startDate endDate)) []
        (propertyKey (getField v "id")) with ⟨v', _, hk, hl⟩ | ⟨hnone, _⟩
    · refine ⟨_, hl, ?_, ?_, ?_, ?_, ?_, ?_⟩
      · show propertyKey (getField v' "id") = _
        exact hk
      · rw [← hk]
        exact entryFor_total _ _ _
      · rw [← hk]
        exact entryFor_active _ _ _
      · rw [utilizationRate_eq]
        exact percentage_eq _ _
      · rw [utilizationRate_eq]
        exact (percentage_bounds _ _ (active_le_total _ _)).1
      · rw [utilizationRate_eq]
        exact (percentage_bounds _ _ (active_le_total _ _)).2
    · exact absurd rfl (hnone v hv')

theorem utilization_rate_is_percentage_witness :
    ∃ report, vehicleReportUtilization none none reassignedFleet = some report
      ∧ ∃ e, report.lookup "V1" = some e
        ∧ e.totalAssignments = 2 ∧ e.activeAssignments = 1
        ∧ e.utilizationRate
            = (if e.totalAssignments = 0 then 0
               else 100 * (e.activeAssignments : ℚ) / (e.totalAssignments : ℚ))
        ∧ e.utilizationRate ≤ 100 := by
  obtain ⟨report, hr, -, hall⟩ :=
    utilization_rate_is_percentage none none reassignedFleet (by decide) (by decide)
  obtain ⟨e, hl, -, ht, hact, hrate, -, hle⟩ := hall
    (spreadAfter "id" (JsVal.str "V1")
      [("registrationNumber", JsVal.str "MH12AB1234"), ("status", JsVal.str "assigned")])
    (List.mem_singleton.mpr rfl)
  exact ⟨report, hr, e, hl, ht.trans (by decide), hact.trans (by decide), hrate, hle⟩

theorem getField_spreadAfter_ne (key : String) (value : JsVal) (d : Doc) (k : String)
    (hk : k ≠ key) (hd : distinctKeys d) :
    getField (spreadAfter key value d) k = getField d k := by
  unfold spreadAfter
  rw [getField_mergeDoc_nodup d _ k hd]
  by_cases hm : k ∈ d.map Prod.fst
  · simp [hm]
  · simp only [hm, if_false]
    rw [getField_of_not_mem_keys d k hm, getField_cons]
    simp [hk, getField]

theorem reportQuery_unfiltered (c : Collection) (field : String) :
    reportQuery c field none none = c := by
  simp [reportQuery, inDateRange]

theorem count_withIds (c : Collection) (s : String) (h : ∀ p ∈ c, distinctKeys p.2) :
    ((withIds c).filter (fun a => getField a "status" == JsVal.str s)).length
      = (c.filter (fun p => getField p.2 "status" == JsVal.str s)).length := by
  unfold withIds
  rw [List.filter_map, List.length_map]
  congr 1
  apply List.filter_congr
  intro p hp
  simp only [Function.comp]
  rw [getField_spreadAfter_ne "id" _ p.2 "status" (by decide) (h p hp)]

theorem completionRate_eq (ctx : Ctx) (all : List Doc) :
    (performanceMetrics ctx all).completionRate
      = if (performanceMetrics ctx all).totalAssignments > 0 then
          (((performanceMetrics ctx all).completedAssignments : ℚ)
            / ((performanceMetrics ctx all).totalAssignments : ℚ)) * 100
        else 0 := rfl

theorem completed_le_total (ctx : Ctx) (all : List Doc) :
    (performanceMetrics ctx all).completedAssignments
      ≤ (performanceMetrics ctx all).totalAssignments :=
  List.length_filter_le _ _

theorem foldl_addNumber (l : List (Option ℚ)) (x : ℚ) (h : ∀ o ∈ l, ∃ d, o = some d) :
    l.foldl (fun sum duration => addNumber sum duration) (some x)
      = some (x + (l.map (fun o => o.getD 0)).sum) := by
  induction l generalizing x with
  | nil => simp
  | cons o l ih =>
    obtain ⟨d, hd⟩ := h o (List.mem_cons_self _ _)
    subst hd
    simp only [List.map_cons, List.foldl_cons, List.sum_cons, Option.getD_some]
    have : addNumber (some x) (some d) = some (x + d) := rfl
    rw [this, ih _ (fun o ho => h o (List.mem_cons_of_mem _ ho)), add_assoc]

theorem foldl_addNumber_none (l : List (Option ℚ)) :
    l.foldl (fun sum duration => addNumber sum duration) none = none := by
  induction l with
  | nil => rfl
  | cons o l ih =>
    rw [List.foldl_cons]
    have : addNumber none o = none := rfl
    rw [this, ih]

theorem foldl_addNumber_missing (l : List (Option ℚ)) (x : Option ℚ) (h : none ∈ l) :
    l.foldl (fun sum duration => addNumber sum duration) x = none := by
  induction l generalizing x with
  | nil => exact absurd h (List.not_mem_nil _)
  | cons o l ih =>
    rw [List.foldl_cons]
    rcases List.mem_cons.mp h with h1 | h1
    · rw [← h1]
      have : addNumber x none = none := by cases x <;> rfl
      rw [this, foldl_addNumber_none]
    · exact ih _ h1

theorem dateMillis_date (ctx : Ctx) (t : Nat) :
    dateMillis ctx (JsVal.date t) = some (t : Int) := rfl

/-- The helper returns zero when no assignment carries both timestamps, the mean of the
elapsed days of those that carry both when each of them is a number, and no number when one
of them is not. -/
theorem calculateAverageAssignmentDuration_eq (ctx : Ctx) (assignments : List Doc) :
    (assignments.filter hasBothTimestamps = [] →
        calculateAverageAssignmentDuration ctx assignments = some 0)
      ∧ (assignments.filter hasBothTimestamps ≠ [] →
          (∀ a ∈ assignments.filter hasBothTimestamps, ∃ d, elapsedDays ctx a = some d) →
          calculateAverageAssignmentDuration ctx assignments
            = some (((assignments.filter hasBothTimestamps).map
                  (fun a => (elapsedDays ctx a).getD 0)).sum
                / ((assignments.filter hasBothTimestamps).length : ℚ)))
      ∧ ((∃ a ∈ assignments.filter hasBothTimestamps, elapsedDays ctx a = none) →
          calculateAverageAssignmentDuration ctx assignments = none) := by
  have hdef : calculateAverageAssignmentDuration ctx assignments
      = if assignments.length = 0 then some 0
        else if ((assignments.filter hasBothTimestamps).map (elapsedDays ctx)).length > 0 then
          match ((assignments.filter hasBothTimestamps).map (elapsedDays ctx)).foldl
              (fun sum duration => addNumber sum duration) (some 0) with
          | some total =>
            some (total
              / (((assignments.filter hasBothTimestamps).map (elapsedDays ctx)).length : ℚ))
          | none => none
        else some 0 := rfl
  refine ⟨?_, ?_, ?_⟩
  · intro hnil
    rw [hdef, hnil]
    simp
  · intro hne hall
    have h0 : assignments.length ≠ 0 := by
      intro e
      have : assignments = [] := List.length_eq_zero.mp e
      subst this
      exact hne rfl
    have hpos : ((assignments.filter hasBothTimestamps).map (elapsedDays ctx)).length > 0 := by
      rw [List.length_map]
      exact List.length_pos.mpr hne
    rw [hdef, if_neg h0, if_pos hpos, foldl_addNumber]
    · simp only [List.map_map, List.length_map, zero_add]
      rfl
    · intro o ho
      obtain ⟨a, ha, hao⟩ := List.mem_map.mp ho
      obtain ⟨d, hd⟩ := hall a ha
      exact ⟨d, by rw [← hao, hd]⟩
  · rintro ⟨a, ha, hnone⟩
    have hne : assignments.filter hasBothTimestamps ≠ [] := List.ne_nil_of_mem ha
    have h0 : assignments.length ≠ 0 := by
      intro e
      have : assignments = [] := List.length_eq_zero.mp e
      subst this
      exact hne rfl
    have hpos : ((assignments.filter hasBothTimestamps).map (elapsedDays ctx)).length > 0 := by
      rw [List.length_map]
      exact List.length_pos.mpr hne
    rw [hdef, if_neg h0, if_pos hpos, foldl_addNumber_missing]
    exact List.mem_map.mpr ⟨a, ha, hnone⟩

/-- C22, as the code has it: with one completed assignment among the three of
`mixedHistory`, the report gives the completion rate 100/3, a percentage, where the quotient
of the two counts is 1/3. -/
theorem completion_rate_exceeds_quotient :
    (assignmentReportMetrics adminCtx "all" none none mixedHistory).totalAssignments = 3
      ∧ (assignmentReportMetrics adminCtx "all" none none mixedHistory).completedAssignments
          = 1
      ∧ (assignmentReportMetrics adminCtx "all" none none mixedHistory).completionRate
          = 100 / 3
      ∧ (assignmentReportMetrics adminCtx "all" none none mixedHistory).completionRate
          ≠ (1 : ℚ) / 3 := by
  have h1 : (performanceMetrics adminCtx
      (allAssignments "all" none none mixedHistory)).totalAssignments = 3 := by decide
  have h2 : (performanceMetrics adminCtx
      (allAssignments "all" none none mixedHistory)).completedAssignments = 1 := by decide
  have h3 : (assignmentReportMetrics adminCtx "all" none none mixedHistory).completionRate
      = 100 / 3 := by
    unfold assignmentReportMetrics
    rw [completionRate_eq, h1, h2]
    norm_num
  refine ⟨h1, h2, h3, ?_⟩
  rw [h3]
  norm_num

/-- C22, amended: for every content of the two assignment collections (documents being
objects, with one value for each field), the report for type `all` without date filters
counts the assignments of both collections, counts those with status `completed`, and gives
as completion rate the percentage 100 × completed / total, which is 0 when there is no
assignment and always lies between 0 and 100. -/
theorem completion_rate_is_percentage (ctx : Ctx) (w : Backend)
    (hv : ∀ p ∈ w.vehicleAssignments, distinctKeys p.2)
    (hf : ∀ p ∈ w.feederPointAssignments, distinctKeys p.2) :
    (assignmentReportMetrics ctx "all" none none w).totalAssignments
        = w.vehicleAssignments.length + w.feederPointAssignments.length
      ∧ (assignmentReportMetrics ctx "all" none none w).completedAssignments
        = (w.vehicleAssignments.filter
            (fun p => getField p.2 "status" == JsVal.str "completed")).length
          + (w.feederPointAssignments.filter
            (fun p => getField p.2 "status" == JsVal.str "completed")).length
      ∧ (assignmentReportMetrics ctx "all" none none w).completionRate
        = (if (assignmentReportMetrics ctx "all" none none w).totalAssignments = 0 then 0
           else 100
             * ((assignmentReportMetrics ctx "all" none none w).completedAssignments : ℚ)
             / ((assignmentReportMetrics ctx "all" none none w).totalAssignments : ℚ))
      ∧ 0 ≤ (assignmentReportMetrics ctx "all" none none w).completionRate
      ∧ (assignmentReportMetrics ctx "all" none none w).completionRate ≤ 100 := by
  have hall : allAssignments "all" none none w
      = withIds w.vehicleAssignments ++ withIds w.feederPointAssignments := by
    simp [allAssignments, reportQuery_unfiltered]
  unfold assignmentReportMetrics
  refine ⟨?_, ?_, ?_, ?_, ?_⟩
  · rw [hall]
    simp [performanceMetrics, withIds]
  · rw [hall]
    show ((withIds w.vehicleAssignments ++ withIds w.feederPointAssignments).filter
      (fun a => getField a "status" == JsVal.str "completed")).length = _
    rw [List.filter_append, List.length_append, count_withIds _ _ hv, count_withIds _ _ hf]
  · rw [completionRate_eq]
    exact percentage_eq _ _
  · rw [completionRate_eq]
    exact (percentage_bounds _ _ (completed_le_total _ _)).1
  · rw [completionRate_eq]
    exact (percentage_bounds _ _ (completed_le_total _ _)).2

theorem completion_rate_is_percentage_witness :
    (assignmentReportMetrics adminCtx "all" none none mixedHistory).totalAssignments = 2 + 1
      ∧ (assignmentReportMetrics adminCtx "all" none none mixedHistory).completionRate
          ≤ 100 :=
  have h := completion_rate_is_percentage adminCtx mixedHistory (by decide) (by decide)
  ⟨h.1, h.2.2.2.2⟩

/-- C23, as the code has it: in `mixedHistory` two assignments carry both timestamps, with
durations of two and four days, whose mean is three days; the report averages over the
completed assignment alone and gives two days. -/
theorem average_duration_skips_cancelled :
    ((allAssignments "all" none none mixedHistory).filter hasBothTimestamps).map
        (fun a => (getField a "id", getField a "status", elapsedDays adminCtx a))
      = [(JsVal.str "A1", JsVal.str "completed", some 2),
         (JsVal.str "A2", JsVal.str "cancelled", some 4)]
      ∧ (assignmentReportMetrics adminCtx "all" none none mixedHistory).averageAssignmentDuration
          = some 2
      ∧ ((2 : ℚ) + 4) / 2 ≠ 2 := by
  have e1 : elapsedDays adminCtx (spreadAfter "id" (JsVal.str "A1")
          [("vehicleId", JsVal.str "V1"), ("assignedAt", JsVal.date 0),
           ("status", JsVal.str "completed"), ("completedAt", JsVal.date 172800000)])
      = some 2 := by
    have : elapsedDays adminCtx (spreadAfter "id" (JsVal.str "A1")
          [("vehicleId", JsVal.str "V1"), ("assignedAt", JsVal.date 0),
           ("status", JsVal.str "completed"), ("completedAt", JsVal.date 172800000)])
        = some ((((172800000 : Int) - (0 : Int) : Int) : ℚ) / (1000 * 60 * 60 * 24)) := rfl
    rw [this]
    norm_num
  have e2 : elapsedDays adminCtx (spreadAfter "id" (JsVal.str "A2")
          [("vehicleId", JsVal.str "V1"), ("assignedAt", JsVal.date 0),
           ("status", JsVal.str "cancelled"), ("completedAt", JsVal.date 345600000),
           ("cancelledAt", JsVal.date 400000000)])
      = some 4 := by
    have : elapsedDays adminCtx (spreadAfter "id" (JsVal.str "A2")
          [("vehicleId", JsVal.str "V1"), ("assignedAt", JsVal.date 0),
           ("status", JsVal.str "cancelled"), ("completedAt", JsVal.date 345600000),
           ("cancelledAt", JsVal.date 400000000)])
        = some ((((345600000 : Int) - (0 : Int) : Int) : ℚ) / (1000 * 60 * 60 * 24)) := rfl
    rw [this]
    norm_num
  refine ⟨?_, ?_, by norm_num⟩
  · have hl : (allAssignments "all" none none mixedHistory).filter hasBothTimestamps
        = [spreadAfter "id" (JsVal.str "A1")
            [("vehicleId", JsVal.str "V1"), ("assignedAt", JsVal.date 0),
             ("status", JsVal.str "completed"), ("completedAt", JsVal.date 172800000)],
           spreadAfter "id" (JsVal.str "A2")
            [("vehicleId", JsVal.str "V1"), ("assignedAt", JsVal.date 0),
             ("status", JsVal.str "cancelled"), ("completedAt", JsVal.date 345600000),
             ("cancelledAt", JsVal.date 400000000)]] := by decide
    rw [hl]
    simp only [List.map_cons, List.map_nil, e1, e2]
    rfl
  · unfold assignmentReportMetrics
    show calculateAverageAssignmentDuration adminCtx
      ((allAssignments "all" none none mixedHistory).filter
        (fun a => getField a "status" == JsVal.str "completed")) = some 2
    have hc : (allAssignments "all" none none mixedHistory).filter
        (fun a => getField a "status" == JsVal.str "completed")
        = [spreadAfter "id" (JsVal.str "A1")
            [("vehicleId", JsVal.str "V1"), ("assignedAt", JsVal.date 0),
             ("status", JsVal.str "completed"), ("completedAt", JsVal.date 172800000)]] := by
      decide
    have hl : [spreadAfter "id" (JsVal.str "A1")
          [("vehicleId", JsVal.str "V1"), ("assignedAt", JsVal.date 0),
           ("status", JsVal.str "completed"),
           ("completedAt", JsVal.date 172800000)]].filter hasBothTimestamps
        = [spreadAfter "id" (JsVal.str "A1")
          [("vehicleId", JsVal.str "V1"), ("assignedAt", JsVal.date 0),
           ("status", JsVal.str "completed"), ("completedAt", JsVal.date 172800000)]] := by
      decide
    rw [hc, (calculateAverageAssignmentDuration_eq adminCtx _).2.1]
    · rw [hl]
      simp only [List.map_cons, List.map_nil, List.length_cons, List.length_nil, e1]
      norm_num
    · rw [hl]
      exact List.cons_ne_nil _ _
    · rw [hl]
      intro a ha
      rw [List.mem_singleton.mp ha]
      exact ⟨2, e1⟩

/-- C23, amended: for every list of fetched assignments, the reported average duration is
taken over the assignments with status `completed` that carry both `assignedAt` and
`completedAt`: it is 0 when there is none, the arithmetic mean of completedAt − assignedAt
in days when each of these differences is a number, and not a number when one of the
timestamps cannot be read as a date. -/
theorem average_duration_over_completed (ctx : Ctx) (all : List Doc) :
    (((all.filter (fun a => getField a "status" == JsVal.str "completed")).filter
          hasBothTimestamps) = [] →
        (performanceMetrics ctx all).averageAssignmentDuration = some 0)
      ∧ (((all.filter (fun a => getField a "status" == JsVal.str "completed")).filter
            hasBothTimestamps) ≠ [] →
          (∀ a ∈ (all.filter (fun a => getField a "status" == JsVal.str "completed")).filter
              hasBothTimestamps, ∃ d, elapsedDays ctx a = some d) →
          (performanceMetrics ctx all).averageAssignmentDuration
            = some ((((all.filter
                  (fun a => getField a "status" == JsVal.str "completed")).filter
                    hasBothTimestamps).map (fun a => (elapsedDays ctx a).getD 0)).sum
                / (((all.filter
                  (fun a => getField a "status" == JsVal.str "completed")).filter
                    hasBothTimestamps).length : ℚ)))
      ∧ ((∃ a ∈ (all.filter (fun a => getField a "status" == JsVal.str "completed")).filter
              hasBothTimestamps, elapsedDays ctx a = none) →
          (performanceMetrics ctx all).averageAssignmentDuration = none) :=
  calculateAverageAssignmentDuration_eq ctx
    (all.filter (fun a => getField a "status" == JsVal.str "completed"))

theorem average_duration_over_completed_witness :
    ((allAssignments "all" none none mixedHistory).filter
          (fun a => getField a "status" == JsVal.str "completed")).filter hasBothTimestamps
        ≠ []
      ∧ (performanceMetrics adminCtx
          (allAssignments "all" none none mixedHistory)).averageAssignmentDuration
        = some (((((allAssignments "all" none none mixedHistory).filter
              (fun a => getField a "status" == JsVal.str "completed")).filter
                hasBothTimestamps).map (fun a => (elapsedDays adminCtx a).getD 0)).sum
            / ((((allAssignments "all" none none mixedHistory).filter
              (fun a => getField a "status" == JsVal.str "completed")).filter
                hasBothTimestamps).length : ℚ))
      ∧ (performanceMetrics soonCtx
          [[("status", JsVal.str "completed"), ("assignedAt", JsVal.str "soon"),
            ("completedAt", JsVal.date 5)]]).averageAssignmentDuration = none
      ∧ (performanceMetrics adminCtx
          [[("status", JsVal.str "cancelled"), ("assignedAt", JsVal.date 0),
            ("completedAt", JsVal.date 5)]]).averageAssignmentDuration = some 0 := by
  have hl : ((allAssignments "all" none none mixedHistory).filter
        (fun a => getField a "status" == JsVal.str "completed")).filter hasBothTimestamps
      = [spreadAfter "id" (JsVal.str "A1")
          [("vehicleId", JsVal.str "V1"), ("assignedAt", JsVal.date 0),
           ("status", JsVal.str "completed"), ("completedAt", JsVal.date 172800000)]] := by
    decide
  have hne : ((allAssignments "all" none none mixedHistory).filter
        (fun a => getField a "status" == JsVal.str "completed")).filter hasBothTimestamps
      ≠ [] := by
    rw [hl]
    exact List.cons_ne_nil _ _
  refine ⟨hne, ?_, ?_, ?_⟩
  · refine (average_duration_over_completed adminCtx
      (allAssignments "all" none none mixedHistory)).2.1 hne ?_
    rw [hl]
    intro a ha
    rw [List.mem_singleton.mp ha]
    exact ⟨_, rfl⟩
  · exact (average_duration_over_completed soonCtx _).2.2
      ⟨_, List.mem_singleton.mpr rfl, rfl⟩
  · exact (average_duration_over_completed adminCtx _).1 rfl

/-! ## Period keys, registration numbers and the backup -/

/-- C24, as the code has it: on a server five and a half hours ahead of UTC, a user created at
2024-03-02T19:00:00Z, which there is Sunday 3 March 2024 at 00:30, gets the week key
`2024-03-02`, the date of a Saturday: the week start is found with the local getters and
written as a UTC date. The same instant gets `2024-02-25` on a server in UTC, and a user
created five and a half hours later, on the same local Sunday, gets `2024-03-03`. Likewise a
user created at 2024-02-29T20:00:00Z gets the day key `2024-02-29` and the month key
`2024-03`. -/
theorem week_key_names_a_saturday :
    isoDate (localTime 330 1709406000000) = "2024-03-03"
      ∧ getDay 330 1709406000000 = 0
      ∧ periodKey 330 "week" 1709406000000 = "2024-03-02"
      ∧ weekDay (setDate 330 1709406000000
          (getDate 330 1709406000000 - getDay 330 1709406000000)) = 6
      ∧ periodKey 0 "week" 1709406000000 = "2024-02-25"
      ∧ isoDate (localTime 330 1709425800000) = "2024-03-03"
      ∧ periodKey 330 "week" 1709425800000 = "2024-03-03"
      ∧ periodKey 330 "day" 1709236800000 = "2024-02-29"
      ∧ periodKey 330 "month" 1709236800000 = "2024-03" := by
  decide

/-- C26, as the code has it: starting from the empty store, creating `V1` with the number
`MH12AB1234`, creating `V2` with the number `KA01XY9999` and updating `V2` with the number
`mh12ab1234` all succeed; `V2` then holds a number that is not upper-case and that equals the
number of `V1` when case is ignored. Creating a vehicle with that number in the same state
is refused. -/
theorem update_stores_lower_case_number :
    (createVehicle adminCtx (fun v => v) (fun v => v) none "V1" (vehicleBody "MH12AB1234")
        emptyBackend).1.status = 201
      ∧ (createVehicle adminCtx (fun v => v) (fun v => v) none "V2"
          (vehicleBody "KA01XY9999")
          (createVehicle adminCtx (fun v => v) (fun v => v) none "V1"
            (vehicleBody "MH12AB1234") emptyBackend).2).1.status = 201
      ∧ (updateVehicle adminCtx "V2" [("registrationNumber", JsVal.str "mh12ab1234")]
          (createVehicle adminCtx (fun v => v) (fun v => v) none "V2"
            (vehicleBody "KA01XY9999")
            (createVehicle adminCtx (fun v => v) (fun v => v) none "V1"
              (vehicleBody "MH12AB1234") emptyBackend).2).2).1
          = { status := 200, success := true, message := "Vehicle updated successfully",
              data := [] }
      ∧ renamedFleet.vehicles.map (fun p => (p.1, getField p.2 "registrationNumber"))
          = [("V1", JsVal.str "MH12AB1234"), ("V2", JsVal.str "mh12ab1234")]
      ∧ toUpperCase "mh12ab1234" ≠ "mh12ab1234"
      ∧ toUpperCase "mh12ab1234" = toUpperCase "MH12AB1234"
      ∧ (createVehicle adminCtx (fun v => v) (fun v => v) none "V3"
          (vehicleBody "mh12ab1234")
          (createVehicle adminCtx (fun v => v) (fun v => v) none "V2"
            (vehicleBody "KA01XY9999")
            (createVehicle adminCtx (fun v => v) (fun v => v) none "V1"
              (vehicleBody "MH12AB1234") emptyBackend).2).2).1
          = failure 400 "Vehicle with this registration number already exists" := by
  decide

/-- C29, as the code has it: for the default list the backup of a store that holds two
vehicle assignments has entries for `users` and `vehicles` only, and none for `assignments`,
whose upper-case form is no key of `COLLECTIONS`. The name `vehicleAssignments` is passed
over in the same way, while `vehicle_assignments` is backed up. -/
theorem default_backup_omits_assignments :
    requestedCollections none = ["users", "vehicles", "assignments"]
      ∧ (backupCollections none reassignedFleet).map Prod.fst = ["users", "vehicles"]
      ∧ (backupCollections none reassignedFleet).lookup "assignments" = none
      ∧ reassignedFleet.vehicleAssignments.length = 2
      ∧ COLLECTIONS.lookup (toUpperCase "assignments") = none
      ∧ backupCollections (some ["vehicleAssignments"]) reassignedFleet = []
      ∧ (backupCollections (some ["vehicle_assignments"]) reassignedFleet).map
            (fun p => (p.1, p.2.length))
          = [("vehicle_assignments", 2)] := by
  decide

/-! ## Comma-separated export -/

theorem intercalate_cons_cons (c : Char) (a b : List Char) (l : List (List Char)) :
    [c].intercalate (a :: b :: l) = a ++ c :: [c].intercalate (b :: l) := by
  simp [List.intercalate, List.intersperse]

theorem mem_intercalate (c x : Char) (l : List (List Char))
    (h : x ∈ [c].intercalate l) : x = c ∨ ∃ a ∈ l, x ∈ a := by
  induction l with
  | nil => simp [List.intercalate] at h
  | cons a l ih =>
    cases l with
    | nil =>
      right
      refine ⟨a, List.mem_singleton.mpr rfl, ?_⟩
      simpa [List.intercalate] using h
    | cons b l =>
      rw [intercalate_cons_cons] at h
      rcases List.mem_append.mp h with h1 | h1
      · exact Or.inr ⟨a, List.mem_cons_self _ _, h1⟩
      · rcases List.mem_cons.mp h1 with h2 | h2
        · exact Or.inl h2
        · rcases ih h2 with h3 | ⟨a', ha', hx⟩
          · exact Or.inl h3
          · exact Or.inr ⟨a', List.mem_cons_of_mem _ ha', hx⟩

theorem mem_doubleQuotes (x : Char) (s : List Char) (h : x ∈ doubleQuotes s) : x ∈ s := by
  unfold doubleQuotes at h
  obtain ⟨c, hc, hx⟩ := List.mem_flatMap.mp h
  by_cases hq : c = quoteChar
  · simp only [hq, if_true, List.mem_cons, List.mem_singleton, List.not_mem_nil,
      or_false, or_self] at hx
    rw [hx, ← hq]
    exact hc
  · simp only [hq, if_false, List.mem_singleton] at hx
    rw [hx]
    exact hc

theorem doubleQuotes_cons (c : Char) (s : List Char) :
    doubleQuotes (c :: s)
      = (if c = quoteChar then [quoteChar, quoteChar] else [c]) ++ doubleQuotes s := by
  simp [doubleQuotes]

/-- Reading the quoted text of a field: inside a field, the doubled text of `s` followed by
a quote brings the reader to the end of the field with `s` added to it. -/
theorem decodeFrom_inside (s : List Char) (current : List Char) (fields : List (List Char))
    (rest : List Char) :
    decodeFrom CsvState.inside current fields (doubleQuotes s ++ quoteChar :: rest)
      = decodeFrom CsvState.afterQuote (current ++ s) fields rest := by
  induction s generalizing current with
  | nil => simp [doubleQuotes, decodeFrom]
  | cons c s ih =>
    rw [doubleQuotes_cons]
    by_cases hq : c = quoteChar
    · subst hq
      simp only [if_true, List.cons_append, List.nil_append]
      rw [decodeFrom]
      simp only [if_true]
      rw [decodeFrom]
      simp only [if_true]
      rw [ih]
      simp
    · simp only [hq, if_false, List.cons_append, List.nil_append]
      rw [decodeFrom]
      simp only [hq, if_false]
      rw [ih]
      simp

theorem comma_ne_quote : ¬ (',' = quoteChar) := by decide

/-- Reading a row of quoted fields from the start of a field. -/
theorem decodeFrom_fieldStart (values : List (List Char)) (fields : List (List Char))
    (hne : values ≠ []) :
    decodeFrom CsvState.fieldStart [] fields
        ([','].intercalate
          (values.map (fun s => quoteChar :: (doubleQuotes s ++ [quoteChar]))))
      = some (fields ++ values) := by
  induction values generalizing fields with
  | nil => exact absurd rfl hne
  | cons v values ih =>
    cases values with
    | nil =>
      simp only [List.map_cons, List.map_nil]
      have : [','].intercalate [quoteChar :: (doubleQuotes v ++ [quoteChar])]
          = quoteChar :: (doubleQuotes v ++ quoteChar :: []) := by
        simp [List.intercalate]
      rw [this, decodeFrom]
      simp only [if_true]
      rw [decodeFrom_inside]
      simp [decodeFrom]
    | cons v' values =>
      simp only [List.map_cons]
      rw [intercalate_cons_cons]
      have : (quoteChar :: (doubleQuotes v ++ [quoteChar])) ++ ',' ::
            [','].intercalate ((quoteChar :: (doubleQuotes v' ++ [quoteChar])) ::
              values.map (fun s => quoteChar :: (doubleQuotes s ++ [quoteChar])))
          = quoteChar :: (doubleQuotes v ++ quoteChar :: (',' ::
            [','].intercalate ((v' :: values).map
              (fun s => quoteChar :: (doubleQuotes s ++ [quoteChar]))))) := by
        simp
      rw [this, decodeFrom]
      simp only [if_true]
      rw [decodeFrom_inside, decodeFrom]
      simp only [comma_ne_quote, if_false, if_true]
      rw [ih _ (List.cons_ne_nil _ _)]
      simp

/-- Reading a row of quoted fields gives back the fields. -/
theorem decodeCsvLine_quoted (values : List (List Char)) :
    decodeCsvLine
        ([','].intercalate
          (values.map (fun s => quoteChar :: (doubleQuotes s ++ [quoteChar]))))
      = some values := by
  unfold decodeCsvLine
  cases values with
  | nil => simp [List.intercalate, decodeFrom]
  | cons v values =>
    have h := decodeFrom_fieldStart (v :: values) [] (List.cons_ne_nil _ _)
    have hstart : ∀ (l : List Char), l ≠ [] →
        decodeFrom CsvState.lineStart [] [] l = decodeFrom CsvState.fieldStart [] [] l := by
      intro l hl
      cases l with
      | nil => exact absurd rfl hl
      | cons c l => simp [decodeFrom]
    rw [hstart, h]
    · simp
    · cases values with
      | nil => simp [List.intercalate]
      | cons v' values =>
        simp only [List.map_cons]
        rw [intercalate_cons_cons]
        simp

theorem getField_mem (d : Doc) (k : String) (hk : k ∈ d.map Prod.fst) :
    ∃ p ∈ d, getField d k = p.2 := by
  induction d with
  | nil => simp at hk
  | cons q d ih =>
    obtain ⟨a, b⟩ := q
    rw [getField_cons]
    by_cases h : k = a
    · exact ⟨(a, b), List.mem_cons_self _ _, by simp [h]⟩
    · have hk' : k ∈ d.map Prod.fst := by
        simp only [List.map_cons, List.mem_cons] at hk
        rcases hk with hk | hk
        · exact absurd hk h
        · exact hk
      obtain ⟨p, hp, hpv⟩ := ih hk'
      exact ⟨p, List.mem_cons_of_mem _ hp, by simp [h, hpv]⟩

theorem isPlainString_str (v : JsVal) (h : isPlainString v = true) :
    ∃ s : String, v = JsVal.str s ∧ lineBreak ∉ s.data := by
  cases v with
  | str s => exact ⟨s, rfl, by simpa [isPlainString] using h⟩
  | undefined => simp [isPlainString] at h
  | null => simp [isPlainString] at h
  | bool b => simp [isPlainString] at h
  | num n => simp [isPlainString] at h
  | date t => simp [isPlainString] at h
  | flags m => simp [isPlainString] at h

theorem lineBreak_ne_quote : ¬ (lineBreak = quoteChar) := by decide

theorem lineBreak_ne_comma : ¬ (lineBreak = ',') := by decide

/-- The row of an item whose values at the header keys are plain strings: it has no line
break, and reading it gives back those values. -/
theorem csvRow_plain (objectText : JsVal → String) (headers : List String) (item : Doc)
    (h : ∀ k ∈ headers, isPlainString (getField item k) = true) :
    lineBreak ∉ csvRow objectText headers item
      ∧ (decodeCsvLine (csvRow objectText headers item)).map
            (List.map (fun s => JsVal.str (String.mk s)))
          = some (headers.map (getField item)) := by
  have hcells : headers.map (fun header => csvCell objectText (getField item header))
      = (headers.map (fun header =>
            match getField item header with
            | .str s => s.data
            | _ => [])).map
          (fun s => quoteChar :: (doubleQuotes s ++ [quoteChar])) := by
    rw [List.map_map]
    apply List.map_congr_left
    intro k hk
    obtain ⟨s, hs, _⟩ := isPlainString_str _ (h k hk)
    simp [hs, csvCell]
  constructor
  · intro hmem
    unfold csvRow at hmem
    rcases mem_intercalate _ _ _ hmem with h1 | ⟨cell, hcell, hx⟩
    · exact lineBreak_ne_comma h1
    · obtain ⟨k, hk, hcellk⟩ := List.mem_map.mp hcell
      obtain ⟨s, hs, hlb⟩ := isPlainString_str _ (h k hk)
      rw [hs] at hcellk
      simp only [csvCell] at hcellk
      rw [← hcellk] at hx
      rcases List.mem_cons.mp hx with h2 | h2
      · exact lineBreak_ne_quote h2
      · rcases List.mem_append.mp h2 with h3 | h3
        · exact hlb (mem_doubleQuotes _ _ h3)
        · exact lineBreak_ne_quote (List.mem_singleton.mp h3)
  · unfold csvRow
    rw [hcells, decodeCsvLine_quoted]
    simp only [Option.map_some', List.map_map]
    congr 1
    apply List.map_congr_left
    intro k hk
    obtain ⟨s, hs, _⟩ := isPlainString_str _ (h k hk)
    simp [hs]

/-- C30, as the code has it: the header keys are joined as they are, so for a single item
whose only key holds a line break (its value being the plain string `x`) the text has three
lines, not two, and its first line is not the key. -/
theorem header_key_breaks_line :
    isPlainString (JsVal.str "x") = true
      ∧ csvLines (convertToCSV (fun _ => "")
            [("vehicles", some [[(brokenKey, JsVal.str "x")]])])
          = [['a'], ['b'], [quoteChar, 'x', quoteChar]]
      ∧ (csvLines (convertToCSV (fun _ => "")
            [("vehicles", some [[(brokenKey, JsVal.str "x")]])])).length ≠ 1 + 1
      ∧ (csvLines (convertToCSV (fun _ => "")
            [("vehicles", some [[(brokenKey, JsVal.str "x")]])]))[0]?
          ≠ some brokenKey.data := by
  decide

/-- C30, amended: `convertToCSV` returns the empty text when `data` has no first value or
that value is an empty list. For a non-empty list of items that all have the keys of the
first item in the same order, whose values are strings without line breaks and whose keys
hold no line break either, the text has one line more than there are items, its first line
is the keys joined by commas, and reading line i+1 as quoted fields gives the values of item
i at the keys, in key order. -/
theorem convertToCSV_lines (objectText : JsVal → String) (name : String) (first : Doc)
    (rest : List Doc) (more : List (String × Option (List Doc)))
    (hkeys : ∀ item ∈ rest, item.map Prod.fst = first.map Prod.fst)
    (hvals : ∀ item ∈ first :: rest, ∀ p ∈ item, isPlainString p.2 = true)
    (hheads : ∀ k ∈ first.map Prod.fst, lineBreak ∉ k.data) :
    (convertToCSV objectText [] = ""
        ∧ convertToCSV objectText ((name, none) :: more) = ""
        ∧ convertToCSV objectText ((name, some []) :: more) = "")
      ∧ (csvLines (convertToCSV objectText ((name, some (first :: rest)) :: more))).length
          = (first :: rest).length + 1
      ∧ (csvLines (convertToCSV objectText ((name, some (first :: rest)) :: more)))[0]?
          = some ([','].intercalate ((first.map Prod.fst).map String.data))
      ∧ ∀ (i : Nat) (item : Doc), (first :: rest)[i]? = some item →
          ∃ line,
            (csvLines (convertToCSV objectText
                ((name, some (first :: rest)) :: more)))[i + 1]? = some line
              ∧ (decodeCsvLine line).map (List.map (fun s => JsVal.str (String.mk s)))
                  = some ((first.map Prod.fst).map (getField item)) := by
  have hplain : ∀ item ∈ first :: rest, ∀ k ∈ first.map Prod.fst,
      isPlainString (getField item k) = true := by
    intro item hitem k hk
    have hk' : k ∈ item.map Prod.fst := by
      rcases List.mem_cons.mp hitem with h1 | h1
      · rw [h1]; exact hk
      · rw [hkeys item h1]; exact hk
    obtain ⟨p, hp, hpv⟩ := getField_mem item k hk'
    rw [hpv]
    exact hvals item hitem p hp
  have hlines : csvLines (convertToCSV objectText ((name, some (first :: rest)) :: more))
      = [','].intercalate ((first.map Prod.fst).map String.data)
          :: (first :: rest).map (csvRow objectText (first.map Prod.fst)) := by
    unfold csvLines convertToCSV
    simp only []
    apply List.splitOn_intercalate
    · intro l hl
      rcases List.mem_cons.mp hl with h1 | h1
      · rw [h1]
        intro hmem
        rcases mem_intercalate _ _ _ hmem with h2 | ⟨a, ha, hx⟩
        · exact lineBreak_ne_comma h2
        · obtain ⟨k, hk, hka⟩ := List.mem_map.mp ha
          rw [← hka] at hx
          exact hheads k hk hx
      · obtain ⟨item, hitem, hrow⟩ := List.mem_map.mp h1
        rw [← hrow]
        exact (csvRow_plain objectText _ item (hplain item hitem)).1
    · exact List.cons_ne_nil _ _
  refine ⟨⟨rfl, rfl, rfl⟩, ?_, ?_, ?_⟩
  · rw [hlines]
    simp
  · rw [hlines]
    rfl
  · intro i item hi
    rw [hlines]
    refine ⟨csvRow objectText (first.map Prod.fst) item, ?_, ?_⟩
    · rw [List.getElem?_cons_succ, List.getElem?_map, hi]
      rfl
    · exact (csvRow_plain objectText _ item
        (hplain item (List.getElem?_mem hi))).2

theorem convertToCSV_lines_witness :
    (csvLines (convertToCSV (fun _ => "") [("users", some quotedItems)])).length = 2 + 1
      ∧ (csvLines (convertToCSV (fun _ => "") [("users", some quotedItems)]))[0]?
          = some "name,note".data
      ∧ ∃ line,
          (csvLines (convertToCSV (fun _ => "") [("users", some quotedItems)]))[0 + 1]?
              = some line
            ∧ (decodeCsvLine line).map (List.map (fun s => JsVal.str (String.mk s)))
                = some [JsVal.str "Asha, R.", JsVal.str (String.mk ['s', quoteChar, 'x'])] :=
  have h := convertToCSV_lines (fun _ => "") "users"
    [("name", JsVal.str "Asha, R."), ("note", JsVal.str (String.mk ['s', quoteChar, 'x']))]
    [[("name", JsVal.str ""), ("note", JsVal.str "ok")]] []
    (by decide) (by decide) (by decide)
  ⟨h.2.1, h.2.2.1, h.2.2.2 0 _ rfl⟩

end SwachhNetra
